import Mathlib

/-!
# pdf-intelligence-app: the two browser front-ends

A shallow embedding of `frontend/script.js` (Flow A, the section navigator) and
`src/pdf-intelligence-app/frontend/script.js` (Flow B, the analysis form).

Both scripts are event handlers running on a single-threaded event loop.  Each
script is embedded as a deterministic step function on an explicit state: an
input is one turn of the event loop (the page finished loading, a promise of
the platform settled, the user clicked or submitted), and the step runs the
script code that this turn triggers up to its next suspension point.  Every
observable call the code makes (DOM writes, network requests, calls on the
PDF widget, console output, dialogs) is appended to a trace, in program order.

Values that come out of `JSON.parse` are embedded as `JsVal`; the operations
the scripts apply to them (truthiness, property reads, template-literal
interpolation, `join`, `forEach`, `Array.isArray`) follow ECMAScript.
-/

namespace PdfIntel

/-! ## JavaScript values -/

/-- A value produced by `JSON.parse`, plus `undefined` (the result of reading a
property that is not there).  `num` carries JSON integers in the range where
printing a number is printing its decimal digits; fractional numbers are outside
the embedding. -/
inductive JsVal where
  | undefined
  | null
  | bool (b : Bool)
  | num (n : Int)
  | str (s : String)
  | arr (xs : List JsVal)
  | obj (fields : List (String × JsVal))

/-- An exception value: every exception these scripts meet is an `Error`
object, and the only property they read from it is `message`. -/
structure JsError where
  message : String
deriving DecidableEq, Repr

/-- Result of evaluating an expression that may throw. -/
abbrev Js (α : Type) := Except JsError α

/-- What the script cannot determine about the engine it runs on: the wording of
the `TypeError`s the engine raises (for reading property `key` of `null` or
`undefined`, and for calling a property that is not a function), and the
numeric reading of a string (`ToNumber`) as far as the script uses it, which is
one comparison `> 0`. -/
structure Engine where
  msgReadOfNullish : (value key : String) → String
  msgNotAFunction : String → String
  stringPositive : String → Bool

namespace JsVal

/-- ECMAScript `ToBoolean`. -/
def truthy : JsVal → Bool
  | undefined => false
  | null => false
  | bool b => b
  | num n => n != 0
  | str s => s != ""
  | arr _ => true
  | obj _ => true

/-- `Array.isArray`. -/
def isArray : JsVal → Bool
  | arr _ => true
  | _ => false

/-- Own property lookup in a parsed object. -/
def lookup (key : String) : List (String × JsVal) → JsVal
  | [] => undefined
  | (k, v) :: rest => if k = key then v else lookup key rest

/-- Length of a string in UTF-16 code units, the `length` of a JavaScript string. -/
def utf16Length (s : String) : Nat :=
  (s.data.map (fun c => if c.toNat < 65536 then 1 else 2)).sum

/-- Property read `v.key` (also `v[key]`), for the keys the scripts read: none
of them is inherited from `Object.prototype`; `length` is the only one of them
that arrays and strings define. -/
def get (E : Engine) (v : JsVal) (key : String) : Js JsVal :=
  match v with
  | undefined => .error ⟨E.msgReadOfNullish "undefined" key⟩
  | null => .error ⟨E.msgReadOfNullish "null" key⟩
  | obj fields => .ok (lookup key fields)
  | arr xs => .ok (if key = "length" then num xs.length else undefined)
  | str s => .ok (if key = "length" then num (utf16Length s) else undefined)
  | bool _ => .ok undefined
  | num _ => .ok undefined

/-- Optional chaining `v?.key`. -/
def getOpt (v : JsVal) (key : String) : JsVal :=
  match v with
  | obj fields => lookup key fields
  | arr xs => if key = "length" then num xs.length else undefined
  | str s => if key = "length" then num (utf16Length s) else undefined
  | _ => undefined

mutual
/-- ECMAScript `ToString`, as applied by template literals and `new Error(v)`. -/
def toStr : JsVal → String
  | undefined => "undefined"
  | null => "null"
  | bool b => if b then "true" else "false"
  | num n => toString n
  | str s => s
  | arr xs => joinWith "," xs
  | obj _ => "[object Object]"
/-- `Array.prototype.join`: `null` and `undefined` elements print as nothing. -/
def joinWith (sep : String) : List JsVal → String
  | [] => ""
  | [x] => elemStr x
  | x :: y :: rest => elemStr x ++ sep ++ joinWith sep (y :: rest)
/-- One element of a `join`. -/
def elemStr : JsVal → String
  | undefined => ""
  | null => ""
  | bool b => if b then "true" else "false"
  | num n => toString n
  | str s => s
  | arr xs => joinWith "," xs
  | obj _ => "[object Object]"
end

/-- The comparison `v > 0`. -/
def gtZero (E : Engine) : JsVal → Bool
  | undefined => false
  | null => false
  | bool b => b
  | num n => decide (0 < n)
  | str s => E.stringPositive s
  | arr xs => E.stringPositive (joinWith "," xs)
  | obj _ => false

/-- The receiver of `v.forEach(...)`: the elements to visit, or the `TypeError`
of calling what is not a function. -/
def forEachItems (E : Engine) (v : JsVal) : Js (List JsVal) :=
  match v with
  | arr xs => .ok xs
  | undefined => .error ⟨E.msgReadOfNullish "undefined" "forEach"⟩
  | null => .error ⟨E.msgReadOfNullish "null" "forEach"⟩
  | _ => .error ⟨E.msgNotAFunction "forEach"⟩

/-- The call `v.join(sep)`. -/
def join (E : Engine) (v : JsVal) (sep : String) : Js String :=
  match v with
  | arr xs => .ok (joinWith sep xs)
  | undefined => .error ⟨E.msgReadOfNullish "undefined" "join"⟩
  | null => .error ⟨E.msgReadOfNullish "null" "join"⟩
  | _ => .error ⟨E.msgNotAFunction "join"⟩

end JsVal

/-- How a promise of the platform settled. -/
inductive Settled (α : Type) where
  | fulfilled (v : α)
  | rejected (e : JsError)

/-! ## Flow B: the analysis form (`src/pdf-intelligence-app/frontend/script.js`) -/

namespace FlowB

/-- The observable calls of the form script. -/
inductive Event where
  | preventDefault
  | setSpinnerDisplay (value : String)
  | setResultsHtml (html : String)
  | fetchPost (id : Nat) (url : String)
  | readJson (id : Nat)
deriving DecidableEq, Repr

/-- Where a running submit handler is suspended: at `await fetch(...)`, at the
`await response.json()` of the non-success branch, or at the one of the success
branch. -/
inductive Phase where
  | awaitFetch
  | awaitErrorJson
  | awaitJson
deriving DecidableEq, Repr

/-- The page as the form script sees it: `loadingSpinner.style.display`,
`resultsContainer.innerHTML`, the submit handlers in flight, and the trace. -/
structure State where
  spinnerDisplay : String
  resultsHtml : String
  handlers : List (Nat × Phase)
  nextId : Nat
  trace : List Event

/-- One turn of the event loop: the form is submitted, or a promise that
submission `id` awaits settles (`fetch` fulfils with a response whose `ok` flag
is given; `response.json()` fulfils with the parsed body). -/
inductive Input where
  | submit
  | fetchSettled (id : Nat) (r : Settled Bool)
  | jsonSettled (id : Nat) (r : Settled JsVal)

/-- The page before any submission. -/
def init (spinner results : String) : State :=
  { spinnerDisplay := spinner, resultsHtml := results, handlers := [], nextId := 0, trace := [] }

/-- The `li` template of one extracted section. -/
def sectionItemHtml (E : Engine) (sec : JsVal) : Js String := do
  let rank ← sec.get E "importance_rank"
  let title ← sec.get E "section_title"
  let document ← sec.get E "document"
  let page ← sec.get E "page_number"
  return "<li><strong>Rank " ++ rank.toStr ++ ":</strong> " ++ title.toStr ++
    " <em>(from " ++ document.toStr ++ ", Page " ++ page.toStr ++ ")</em></li>"

/-- The `div` template of one refined sub-section. -/
def subSectionHtml (E : Engine) (sub : JsVal) : Js String := do
  let document ← sub.get E "document"
  let page ← sub.get E "page_number"
  let text ← sub.get E "refined_text"
  return "<div class=\"sub-section\">\n                            <h4>From: " ++ document.toStr ++
    " (Page " ++ page.toStr ++ ")</h4>\n                            <p>" ++ text.toStr ++
    "</p>\n                         </div>"

/-- The loop `items.forEach(x => { html += template(x) })`. -/
def appendEach (template : JsVal → Js String) : List JsVal → String → Js String
  | [], html => .ok html
  | x :: rest, html => do
    let piece ← template x
    appendEach template rest (html ++ piece)

/-- The condition `v && v.length > 0`. -/
def nonEmpty (E : Engine) (v : JsVal) : Js Bool :=
  if v.truthy then do
    let len ← v.get E "length"
    return len.gtZero E
  else .ok false

/-- Block "Extracted Sections" of `displayResults`, appended to `html`. -/
def sectionsBlock (E : Engine) (data : JsVal) (html : String) : Js String := do
  let html := html ++ "<div class=\"result-section\"><h3>Extracted Sections (Top 5)</h3>"
  let list ← data.get E "extracted_section"
  let html ← if (← nonEmpty E list) then do
      let html := html ++ "<ul>"
      let items ← list.forEachItems E
      let html ← appendEach (sectionItemHtml E) items html
      pure (html ++ "</ul>")
    else pure (html ++ "<p>No relevant sections were extracted.</p>")
  return html ++ "</div>"

/-- Block "Sub-section Analysis" of `displayResults`, appended to `html`. -/
def subSectionsBlock (E : Engine) (data : JsVal) (html : String) : Js String := do
  let html := html ++ "<div class=\"result-section\"><h3>Sub-section Analysis (Refined Text)</h3>"
  let list ← data.get E "sub-section_analysis"
  let html ← if (← nonEmpty E list) then do
      let items ← list.forEachItems E
      appendEach (subSectionHtml E) items html
    else pure (html ++ "<p>No sub-section analysis was performed.</p>")
  return html ++ "</div>"

/-- Block "Metadata" of `displayResults`, appended to `html`. -/
def metadataBlock (E : Engine) (data : JsVal) (html : String) : Js String := do
  let html := html ++ "<div class=\"result-section\"><h3>Metadata</h3>"
  let metadata ← data.get E "metadata"
  let persona ← metadata.get E "persona"
  let html := html ++ "<p><strong>Persona:</strong> " ++ persona.toStr ++ "</p>"
  let job ← metadata.get E "job_to_be_done"
  let html := html ++ "<p><strong>Job-to-be-Done:</strong> " ++ job.toStr ++ "</p>"
  let documents ← metadata.get E "input_documents"
  let joined ← documents.join E ", "
  return html ++ "<p><strong>Documents:</strong> " ++ joined ++ "</p></div>"

/-- The function `displayResults`: the HTML it assigns to
`resultsContainer.innerHTML`, or the exception it throws before assigning. -/
def displayResults (E : Engine) (data : JsVal) : Js String :=
  if !data.truthy then
    .ok "<div class=\"error\">No valid results returned from the server.</div>"
  else do
    let metadata ← data.get E "metadata"
    if !metadata.truthy then
      return "<div class=\"error\">No valid results returned from the server.</div>"
    let html := "<h2>Analysis Results</h2>"
    let html ← metadataBlock E data html
    let html ← sectionsBlock E data html
    let html ← subSectionsBlock E data html
    return html

/-- The markup the `catch` clause of the submit handler shows. -/
def errorHtml (message : String) : String :=
  "<div class=\"error\"><strong>Error:</strong> " ++ message ++ "</div>"

/-- The `throw new Error(errorData.error || ...)` of the non-success branch. -/
def throwResponseError (E : Engine) (errorData : JsVal) : Js String := do
  let err ← errorData.get E "error"
  let shown := if err.truthy then err else JsVal.str "An unknown error occurred."
  throw ⟨shown.toStr⟩

/-- The `catch` and `finally` clauses of the submit handler, entered with the
completion of the `try` block: `ok html` when `displayResults` ran to its
assignment of `html`, `error e` when something in the block threw `e`.
The handler `id` ends here. -/
def complete (s : State) (id : Nat) (tryBlock : Js String) : State :=
  let shown := match tryBlock with
    | .ok html => html
    | .error e => errorHtml e.message
  { s with
    resultsHtml := shown
    spinnerDisplay := "none"
    handlers := s.handlers.filter (fun h => h.1 != id)
    trace := s.trace ++ [.setResultsHtml shown, .setSpinnerDisplay "none"] }

/-- Replace the phase of handler `id`. -/
def setPhase (handlers : List (Nat × Phase)) (id : Nat) (p : Phase) : List (Nat × Phase) :=
  handlers.map (fun h => if h.1 = id then (id, p) else h)

/-- The step function of the form page. -/
def step (E : Engine) (s : State) : Input → State
  | .submit =>
    { s with
      spinnerDisplay := "block"
      resultsHtml := ""
      handlers := s.handlers ++ [(s.nextId, .awaitFetch)]
      nextId := s.nextId + 1
      trace := s.trace ++ [.preventDefault, .setSpinnerDisplay "block", .setResultsHtml "",
        .fetchPost s.nextId "/analyze"] }
  | .fetchSettled id r =>
    match s.handlers.lookup id, r with
    | some .awaitFetch, .rejected e => complete s id (.error e)
    | some .awaitFetch, .fulfilled ok =>
      { s with
        handlers := setPhase s.handlers id (if ok then .awaitJson else .awaitErrorJson)
        trace := s.trace ++ [.readJson id] }
    | _, _ => s
  | .jsonSettled id r =>
    match s.handlers.lookup id, r with
    | some .awaitErrorJson, .rejected e => complete s id (.error e)
    | some .awaitErrorJson, .fulfilled errorData => complete s id (throwResponseError E errorData)
    | some .awaitJson, .rejected e => complete s id (.error e)
    | some .awaitJson, .fulfilled results => complete s id (displayResults E results)
    | _, _ => s

/-- Run the page over a sequence of turns. -/
def run (E : Engine) (s : State) (inputs : List Input) : State :=
  inputs.foldl (step E) s

end FlowB

/-! ## Flow A: the section navigator (`frontend/script.js`)

The page is taken to contain the elements the script looks up by id
(`smart-toc`, `persona-info`, `job-info`) and no element of class `toc-item`
other than the rows the script appends (the page has none of its own and the
markup of the sections brings none).  The widget is taken to hand out promises:
`previewFile` and `getAPIs` return one, which the environment settles in a
later turn, or never. -/

namespace FlowA

/-- A value at run time in the click handler: `null`, a promise handed out by
the PDF widget (numbered in order of creation), or the object such a promise
fulfilled with (the `AdobeViewer` of a `previewFile` promise, the API object of
a `getAPIs` promise).  By the promise resolution procedure a fulfilment value is
never itself a promise or thenable. -/
inductive RtVal where
  | null
  | promise (p : Nat)
  | fulfilment (p : Nat)
deriving DecidableEq, Repr

/-- The observable calls of the navigator script, console output included
(arguments after the first are shown printed).  A `previewFile` call is recorded
with the promise it returns, the URL and the file name; its second argument is
the same constant record of options in every call. -/
inductive Event where
  | consoleLog (args : List String)
  | consoleError (args : List String)
  | setBodyHtml (html : String)
  | listenSdkReady
  | resolveGate
  | fetchGet (url : String)
  | readJson
  | setTocHtml (html : String)
  | setPersonaText (text : String)
  | setJobText (text : String)
  | appendRow (html : String)
  | newView (clientId divId : String)
  | alert (message : String)
  | previewFile (promise : Nat) (url : String) (fileName : JsVal)
  | removeActive (row : Nat)
  | addActive (row : Nat)
  | getAPIs (viewer : Nat) (promise : Nat)
  | gotoLocation (page : JsVal)
  | unhandledRejection (e : JsError)

/-- One `div.toc-item` of the sidebar: its `innerHTML`, whether its class list
holds `active`, and the section its click handler closes over. -/
structure Row where
  html : String
  active : Bool
  item : JsVal

/-- Where `main` stands. -/
inductive Pc where
  | notStarted
  | awaitFetch (file : String)
  | awaitJson (file : String)
  | awaitGate (data : JsVal) (initialPdf : JsVal)
  | awaitInitialLoad (data : JsVal) (promise : Nat)
  | helpShown
  | returned
  | threw (e : JsError)

/-- A callback waiting for a promise of the widget: the click handler suspended
at `await loadPdf(...)`, the callback of `previewFilePromise.then`, the callback
of `getAPIs().then`. -/
inductive Cont where
  | clickAwait (promise : Nat) (item : JsVal)
  | thenViewer (promise : Nat) (item : JsVal)
  | thenApis (promise : Nat) (item : JsVal)

/-- The promise a callback waits for. -/
def Cont.promise : Cont → Nat
  | .clickAwait p _ => p
  | .thenViewer p _ => p
  | .thenApis p _ => p

/-- The page and the script variables. -/
structure State where
  pc : Pc
  gateResolved : Bool
  listening : Bool
  viewer : Bool
  bodyHtml : Option String
  tocHtml : String
  rows : List Row
  personaText : String
  jobText : String
  conts : List Cont
  nextPromise : Nat
  settled : List (Nat × Settled Unit)
  trace : List Event

/-- What the script does not decide: the engine, and whether the constructor
`new AdobeDC.View(...)` throws (and what). -/
structure World where
  engine : Engine
  viewError : Option JsError

/-- One turn of the event loop. -/
inductive Input where
  | domContentLoaded (analysisFile : Option String) (sdkLoaded : Bool)
  | sdkReady
  | fetchSettled (r : Settled Bool)
  | jsonSettled (r : Settled JsVal)
  | promiseSettled (promise : Nat) (r : Settled Unit)
  | click (row : Nat)

/-- The page before `DOMContentLoaded`. -/
def init (toc persona job : String) : State :=
  { pc := .notStarted, gateResolved := false, listening := false, viewer := false,
    bodyHtml := none, tocHtml := toc, rows := [], personaText := persona, jobText := job,
    conts := [], nextPromise := 0, settled := [], trace := [] }

/-- Append events to the trace. -/
def State.emit (s : State) (es : List Event) : State :=
  { s with trace := s.trace ++ es }

/-- The assignment `toc.innerHTML = html`, which also drops the rows. -/
def State.setToc (s : State) (html : String) : State :=
  { s with tocHtml := html, rows := [], trace := s.trace ++ [.setTocHtml html] }

/-- The constant `ADOBE_CLIENT_ID`. -/
def ADOBE_CLIENT_ID : String := "48ceebcbf9394c4d9cdc82a7ba469b23"

/-- The static help view. -/
def helpHtml : String :=
  "\n            <div style=\"font-family: sans-serif; padding: 40px;\">\n                <h1>Welcome to the Intelligent Document Viewer</h1>\n                <p>To view an analysis, please specify the file in the URL.</p>\n                <p><strong>Example:</strong> <a href=\"?analysis_file=meal_plan_analysis.json\">?analysis_file=meal_plan_analysis.json</a></p>\n            </div>\n        "

/-- The message `fetchAnalysisData` shows for a failure. -/
def fetchErrorHtml (message : String) : String :=
  "<div class=\"loader\" style=\"color: red;\">Error: " ++ message ++ "</div>"

/-- The `catch` clause of `fetchAnalysisData`; the function returns `null`. -/
def fetchAnalysisDataCatch (s : State) (e : JsError) : State × Js (Option JsVal) :=
  (((s.emit [.consoleError ["Failed to fetch analysis data:", e.message]]).setToc
      (fetchErrorHtml e.message)), .ok (some .null))

/-- The function `fetchAnalysisData` from its call to its first suspension:
the request is issued. -/
def fetchAnalysisDataCall (s : State) (jsonFile : String) : State :=
  { s.emit [.fetchGet ("/output/" ++ jsonFile)] with pc := .awaitFetch jsonFile }

/-- The function `fetchAnalysisData` resumed with the settlement of `fetch`.
The result is `none` while the function is suspended again, `some v` when it
returned `v`, an error when an exception left it. -/
def fetchAnalysisDataAfterFetch (s : State) (jsonFile : String) (r : Settled Bool) :
    State × Js (Option JsVal) :=
  match r with
  | .rejected e => fetchAnalysisDataCatch s e
  | .fulfilled false =>
    fetchAnalysisDataCatch s ⟨"File not found in /output/ folder: " ++ jsonFile⟩
  | .fulfilled true => ({ s.emit [.readJson] with pc := .awaitJson jsonFile }, .ok none)

/-- The function `fetchAnalysisData` resumed with the settlement of
`response.json()`. -/
def fetchAnalysisDataAfterJson (s : State) (r : Settled JsVal) : State × Js (Option JsVal) :=
  match r with
  | .rejected e => fetchAnalysisDataCatch s e
  | .fulfilled data => (s, .ok (some data))

/-- The function `initializeViewer`. -/
def initializeViewer (W : World) (s : State) : State :=
  let s := s.emit [.newView ADOBE_CLIENT_ID "adobe-dc-view"]
  match W.viewError with
  | none => { s.emit [.consoleLog ["AdobeDC.View initialized successfully."]] with viewer := true }
  | some e =>
    s.emit [.consoleError ["Error initializing AdobeDC.View. Check your Client ID.", e.message],
      .alert "Error initializing PDF viewer. Please check your Adobe Client ID in script.js."]

/-- The function `loadPdf`: the operand of its `return`. -/
def loadPdf (s : State) (pdfFile : JsVal) : State × RtVal :=
  if !s.viewer then (s, .null)
  else
    let url := "/input/" ++ pdfFile.toStr
    ({ s.emit [.consoleLog ["Attempting to load PDF: " ++ url],
          .previewFile s.nextPromise url pdfFile] with nextPromise := s.nextPromise + 1 },
      .promise s.nextPromise)

/-- The `innerHTML` template of a sidebar row. -/
def tocItemHtml (E : Engine) (item : JsVal) : Js String := do
  let title ← item.get E "section_title"
  let document ← item.get E "document"
  let page ← item.get E "page_number"
  return "\n                <div class=\"toc-item-title\">" ++ title.toStr ++
    "</div>\n                <div class=\"toc-item-meta\">Source: " ++ document.toStr ++
    " (Page " ++ page.toStr ++ ")</div>\n            "

/-- The loop of `populateSidebar`: one row per element, until one throws. -/
def appendRows (E : Engine) : List JsVal → State → State × Js Unit
  | [], s => (s, .ok ())
  | item :: rest, s =>
    match tocItemHtml E item with
    | .error e => (s, .error e)
    | .ok html =>
      appendRows E rest
        { s with rows := s.rows ++ [⟨html, false, item⟩], trace := s.trace ++ [.appendRow html] }

/-- The function `populateSidebar`. -/
def populateSidebar (E : Engine) (s : State) (data : JsVal) : State × Js Unit :=
  let metadata := data.getOpt "metadata"
  let sections := data.getOpt "extracted_sections"
  if !metadata.truthy || !sections.isArray then
    (s.setToc "<div class=\"loader\">Invalid data format in JSON file.</div>", .ok ())
  else
    match metadata.get E "persona" with
    | .error e => (s, .error e)
    | .ok persona =>
      let s : State := { s with
        personaText := "Persona: " ++ persona.toStr
        trace := s.trace ++ [.setPersonaText ("Persona: " ++ persona.toStr)] }
      match metadata.get E "job_to_be_done" with
      | .error e => (s, .error e)
      | .ok job =>
        let s : State := { s with
          jobText := "Job: " ++ job.toStr
          trace := s.trace ++ [.setJobText ("Job: " ++ job.toStr)] }
        let s := s.setToc ""
        match sections.forEachItems E with
        | .error e => (s, .error e)
        | .ok items => appendRows E items s

/-- How `main` ends: it returns, or an exception leaves it (an unhandled
rejection of the promise of `main()`). -/
def endMain (s : State) (r : Js Unit) : State :=
  match r with
  | .ok () => { s with pc := .returned }
  | .error e => { s.emit [.unhandledRejection e] with pc := .threw e }

/-- The function `main` after the initial load fulfilled. -/
def mainAfterLoad (W : World) (s : State) (data : JsVal) : State :=
  let s := s.emit [.consoleLog ["Initial PDF loaded."]]
  match populateSidebar W.engine s data with
  | (s, .error e) => endMain s (.error e)
  | (s, .ok ()) => endMain (s.emit [.consoleLog ["Sidebar populated."]]) (.ok ())

/-- The function `main` after `await adobeApiReady`. -/
def mainAfterGate (W : World) (s : State) (data initialPdf : JsVal) : State :=
  let s := initializeViewer W s
  if !s.viewer then endMain s (.ok ())
  else
    let s := s.emit [.consoleLog ["Loading initial PDF..."]]
    match loadPdf s initialPdf with
    | (s, .promise p) => { s with pc := .awaitInitialLoad data p }
    | (s, _) => mainAfterLoad W s data

/-- The function `main` from the return of `fetchAnalysisData` to
`await adobeApiReady`. -/
def mainAfterData (W : World) (s : State) (analysisData : JsVal) : State :=
  if !analysisData.truthy then
    endMain (s.emit [.consoleError ["Stopping main function because analysis data is null."]])
      (.ok ())
  else
    let s := s.emit [.consoleLog ["Analysis data fetched successfully."]]
    match analysisData.get W.engine "extracted_sections" with
    | .error e => endMain s (.error e)
    | .ok extractedSections =>
      -- an array that is not empty, `first` being `extractedSections[0]`
      match extractedSections with
      | .arr (first :: _) =>
        match first.get W.engine "document" with
        | .error e => endMain s (.error e)
        | .ok initialPdf =>
          if !initialPdf.truthy then
            endMain ((s.emit [.consoleError
                ["No document field found in first extracted section."]]).setToc
                "<div class=\"loader\">No PDF file found for initial section.</div>") (.ok ())
          else
            let s := s.emit [.consoleLog ["Initial PDF to load:", initialPdf.toStr],
              .consoleLog ["Waiting for Adobe DC View SDK to be ready..."]]
            if s.gateResolved then mainAfterGate W s analysisData initialPdf
            else { s with pc := .awaitGate analysisData initialPdf }
      | _ =>
        endMain ((s.emit [.consoleError
            ["No extracted_sections found in analysis data or it is empty."]]).setToc
            "<div class=\"loader\">No relevant sections found in analysis.</div>") (.ok ())

/-- The function `main` resumed with the completion of `fetchAnalysisData`. -/
def mainAfterFetchData (W : World) (r : State × Js (Option JsVal)) : State :=
  match r with
  | (s, .ok none) => s
  | (s, .ok (some analysisData)) => mainAfterData W s analysisData
  | (s, .error e) => endMain s (.error e)

/-- The `DOMContentLoaded` handler. -/
def onDomContentLoaded (s : State) (analysisFile : Option String) (sdkLoaded : Bool) : State :=
  match analysisFile with
  | none => { s.emit [.setBodyHtml helpHtml] with
      bodyHtml := some helpHtml, rows := [], pc := .helpShown }
  | some file =>
    if file = "" then
      { s.emit [.setBodyHtml helpHtml] with
        bodyHtml := some helpHtml, rows := [], pc := .helpShown }
    else
      let s := s.emit [.consoleLog ["Viewer script started. Waiting for Adobe SDK..."]]
      let s : State := if sdkLoaded then
          { s.emit [.consoleLog ["Adobe SDK already loaded."], .resolveGate] with
            gateResolved := true }
        else { s.emit [.listenSdkReady] with listening := true }
      let s := s.emit [.consoleLog ["Main function started."],
        .consoleLog ["Fetching analysis data for:", file]]
      fetchAnalysisDataCall s file

/-- The listener of the event `adobe_dc_view_sdk.ready`. -/
def onSdkReady (W : World) (s : State) : State :=
  if !s.listening then s
  else
    let s : State := { s.emit [.consoleLog ["Adobe SDK ready event fired."], .resolveGate] with
      gateResolved := true }
    match s.pc with
    | .awaitGate data initialPdf => mainAfterGate W s data initialPdf
    | _ => s

/-- How the promise `p` has settled, if it has. -/
def State.settlement (s : State) (p : Nat) : Option (Settled Unit) :=
  s.settled.lookup p

/-- The callback passed to `getAPIs().then`: `apis.gotoLocation(item.page_number)`. -/
def onApis (E : Engine) (s : State) (item : JsVal) : State :=
  match item.get E "page_number" with
  | .error e => s.emit [.unhandledRejection e]
  | .ok page => s.emit [.gotoLocation page]

/-- The callback passed to `previewFilePromise.then`, run when promise `p`
fulfilled: `adobeViewer.getAPIs().then(...)`. -/
def onViewer (s : State) (p : Nat) (item : JsVal) : State :=
  { s with
    conts := s.conts ++ [.thenApis s.nextPromise item]
    nextPromise := s.nextPromise + 1
    trace := s.trace ++ [.getAPIs p s.nextPromise] }

/-- The method call `previewFilePromise.then(callback)` on the value the click
handler got from `await loadPdf(...)`.  Only a promise has a method `then`. -/
def callThen (E : Engine) (s : State) (awaited : RtVal) (item : JsVal) : State :=
  match awaited with
  | .null => s.emit [.unhandledRejection ⟨E.msgReadOfNullish "null" "then"⟩]
  | .fulfilment _ => s.emit [.unhandledRejection ⟨E.msgNotAFunction "then"⟩]
  | .promise q =>
    match s.settlement q with
    | none => { s with conts := s.conts ++ [.thenViewer q item] }
    | some (.fulfilled _) => onViewer s q item
    | some (.rejected e) => s.emit [.unhandledRejection e]

/-- The click handler of the row at index `k`, from the click to its
suspension at `await loadPdf(item.document)`. -/
def onClick (E : Engine) (s : State) (k : Nat) : State :=
  match s.rows.get? k with
  | none => s
  | some row =>
    let actives := (List.range s.rows.length).filter
      (fun i => match s.rows.get? i with | some r => r.active | none => false)
    let s : State := { s with
      rows := (s.rows.map (fun r => { r with active := false })).set k { row with active := true }
      trace := s.trace ++ actives.map Event.removeActive ++ [.addActive k] }
    match row.item.get E "document", row.item.get E "page_number" with
    | .error e, _ => s.emit [.unhandledRejection e]
    | _, .error e => s.emit [.unhandledRejection e]
    | .ok document, .ok page =>
      let s := s.emit [.consoleLog
        ["Loading " ++ document.toStr ++ " and navigating to page " ++ page.toStr]]
      match loadPdf s document with
      | (s, .promise p) => { s with conts := s.conts ++ [.clickAwait p row.item] }
      | (s, v) => callThen E s v row.item

/-- A callback resumed because its promise `p` settled with `r`.  An `await`
continues with the value the promise fulfilled with. -/
def resume (E : Engine) (p : Nat) (r : Settled Unit) (s : State) (c : Cont) : State :=
  match r, c with
  | .rejected e, .clickAwait _ _ => s.emit [.unhandledRejection e]
  | .rejected e, .thenViewer _ _ => s.emit [.unhandledRejection e]
  | .rejected e, .thenApis _ _ => s.emit [.unhandledRejection e]
  | .fulfilled _, .clickAwait _ item => callThen E s (.fulfilment p) item
  | .fulfilled _, .thenViewer _ item => onViewer s p item
  | .fulfilled _, .thenApis _ item => onApis E s item

/-- The function `main` resumed at `await loadPdf(initialPdf)`, if the promise
that settled is the one it awaits. -/
def resumeMain (W : World) (s : State) (p : Nat) (r : Settled Unit) : State :=
  match s.pc, r with
  | .awaitInitialLoad data q, .fulfilled _ => if q = p then mainAfterLoad W s data else s
  | .awaitInitialLoad _ q, .rejected e => if q = p then endMain s (.error e) else s
  | _, _ => s

/-- A promise of the widget settles: `main` resumes if it awaits this promise,
then the callbacks waiting for it, in the order they were registered. -/
def onPromiseSettled (W : World) (s : State) (p : Nat) (r : Settled Unit) : State :=
  if p < s.nextPromise && (s.settlement p).isNone then
    let s : State := { s with settled := (p, r) :: s.settled }
    let s : State := resumeMain W s p r
    let waiting := s.conts.filter (fun c => c.promise == p)
    let s : State := { s with conts := s.conts.filter (fun c => c.promise != p) }
    waiting.foldl (resume W.engine p r) s
  else s

/-- The step function of the navigator page. -/
def step (W : World) (s : State) : Input → State
  | .domContentLoaded analysisFile sdkLoaded =>
    match s.pc with
    | .notStarted => onDomContentLoaded s analysisFile sdkLoaded
    | _ => s
  | .sdkReady => onSdkReady W s
  | .fetchSettled r =>
    match s.pc with
    | .awaitFetch file => mainAfterFetchData W (fetchAnalysisDataAfterFetch s file r)
    | _ => s
  | .jsonSettled r =>
    match s.pc with
    | .awaitJson _ => mainAfterFetchData W (fetchAnalysisDataAfterJson s r)
    | _ => s
  | .promiseSettled p r => onPromiseSettled W s p r
  | .click k => onClick W.engine s k

/-- Run the page over a sequence of turns. -/
def run (W : World) (s : State) (inputs : List Input) : State :=
  inputs.foldl (step W) s

end FlowA

/-! ## Vocabulary of the statements -/

/-- Concatenation of a list of strings, left to right. -/
def concatAll : List String → String
  | [] => ""
  | p :: ps => p ++ concatAll ps

/-- A list field of a result: absent (`undefined`, `null`) or an array of objects. -/
def SectionList (v : JsVal) : Prop :=
  v = .undefined ∨ v = .null ∨ ∃ xs, v = .arr xs ∧ ∀ x ∈ xs, ∃ fields, x = .obj fields

/-- A list field that is absent or empty. -/
def AbsentOrEmpty (v : JsVal) : Prop :=
  v = .undefined ∨ v = .null ∨ v = .arr []

/-- An engine with the wording of V8 and a reading of strings as decimal integers,
for evaluating the embedding on concrete inputs. -/
def sampleEngine : Engine where
  msgReadOfNullish value key :=
    "Cannot read properties of " ++ value ++ " (reading '" ++ key ++ "')"
  msgNotAFunction key := key ++ " is not a function"
  stringPositive s := match s.trim.toInt? with
    | some n => decide (0 < n)
    | none => false

/-- A result with metadata whose list field `key` is an array with one element,
`null`. -/
def nullSectionData (key : String) : JsVal :=
  .obj [("metadata", .obj [("persona", .str "Chef"), ("job_to_be_done", .str "Plan a menu"),
      ("input_documents", .arr [.str "A.pdf"])]),
    (key, .arr [.null])]

/-- A result with metadata whose `extracted_section` is a string. -/
def textSectionData : JsVal :=
  .obj [("metadata", .obj [("persona", .str "Chef"), ("job_to_be_done", .str "Plan a menu"),
      ("input_documents", .arr [.str "A.pdf"])]),
    ("extracted_section", .str "abc")]

/-- The submission an input of the form page belongs to. -/
def FlowB.Input.submission : FlowB.Input → Option Nat
  | .submit => none
  | .fetchSettled id _ => some id
  | .jsonSettled id _ => some id

/-- Handler `id` has completed and left the busy indicator hidden: the last
call of the page so far set `display` to `none`. -/
def FlowB.Completed (id : Nat) (s : FlowB.State) : Prop :=
  s.spinnerDisplay = "none" ∧ s.handlers.lookup id = none ∧
    s.trace.getLast? = some (.setSpinnerDisplay "none")

/-- Every handler in flight has a number below the next one to hand out. -/
def FlowB.Fresh (s : FlowB.State) : Prop := ∀ h ∈ s.handlers, h.1 < s.nextId

/-- A world for evaluating the navigator on concrete inputs: the sample engine
and a constructor `AdobeDC.View` that does not throw. -/
def sampleWorld : FlowA.World where
  engine := sampleEngine
  viewError := none

/-- A network request. -/
def FlowA.Event.isFetch : FlowA.Event → Bool
  | .fetchGet _ => true
  | _ => false

/-- A call of `resolve()` on the readiness promise `adobeApiReady`. -/
def FlowA.Event.isGateResolution : FlowA.Event → Bool
  | .resolveGate => true
  | _ => false

/-- A construction of `AdobeDC.View`. -/
def FlowA.Event.isViewerConstruction : FlowA.Event → Bool
  | .newView _ _ => true
  | _ => false

/-- A document load, `previewFile`. -/
def FlowA.Event.isLoad : FlowA.Event → Bool
  | .previewFile _ _ _ => true
  | _ => false

/-- A navigation, `gotoLocation`. -/
def FlowA.Event.isNavigation : FlowA.Event → Bool
  | .gotoLocation _ => true
  | _ => false

/-- A state in which the script has nothing left to run: the help view is
shown, there is no row to click, no listener and no promise outstanding. -/
def FlowA.Halted (s : FlowA.State) : Prop :=
  s.pc = .helpShown ∧ s.rows = [] ∧ s.conts = [] ∧ s.listening = false ∧ s.nextPromise = 0

/-- The input settles the promise of `fetch`. -/
def FlowA.Input.isFetchSettlement : FlowA.Input → Bool
  | .fetchSettled _ => true
  | _ => false

/-- The script has made no call on the PDF widget: no viewer constructed, no
promise handed out, no call recorded, no row to click, nothing waiting. -/
def FlowA.ViewerUntouched (s : FlowA.State) : Prop :=
  s.viewer = false ∧ s.rows = [] ∧ s.conts = [] ∧ s.nextPromise = 0 ∧
    ∀ e ∈ s.trace, e.isViewerConstruction = false ∧ e.isLoad = false ∧ e.isNavigation = false

/-- The callback is a click handler suspended at `await loadPdf(...)`. -/
def FlowA.Cont.isClickAwait : FlowA.Cont → Bool
  | .clickAwait _ _ => true
  | _ => false

/-- The rows the loop of `populateSidebar` builds from a list of sections, and
how the loop ends. -/
def FlowA.builtRows (E : Engine) : List JsVal → List FlowA.Row × Js Unit
  | [] => ([], .ok ())
  | item :: rest =>
    match FlowA.tocItemHtml E item with
    | .error e => ([], .error e)
    | .ok html => (⟨html, false, item⟩ :: (FlowA.builtRows E rest).1, (FlowA.builtRows E rest).2)

/-- The error a suspended click handler ends with when its promise settles: the
rejection, or the `TypeError` of calling `then` on what the promise fulfilled
with. -/
def FlowA.clickOutcome (E : Engine) : Settled Unit → JsError
  | .rejected e => e
  | .fulfilled _ => ⟨E.msgNotAFunction "then"⟩

/-- The elements of an array (nothing for any other value). -/
def JsVal.elements : JsVal → List JsVal
  | .arr xs => xs
  | _ => []

/-- `main` has ended: it returned or an exception left it. -/
def FlowA.Pc.ended : FlowA.Pc → Bool
  | .returned => true
  | .threw _ => true
  | _ => false

/-- Part of what holds in every reachable state of the navigator: only click
handlers wait for promises, no navigation was requested, at most one row is
active. -/
def FlowA.Core (s : FlowA.State) : Prop :=
  (∀ c ∈ s.conts, c.isClickAwait = true) ∧
  (∀ e ∈ s.trace, e.isNavigation = false) ∧
  (s.rows.filter (fun r => r.active)).length ≤ 1

/-- What holds in every reachable state of the navigator: `Core`, and rows
exist only once `main` has ended. -/
def FlowA.Sound (s : FlowA.State) : Prop :=
  FlowA.Core s ∧ (s.pc.ended = false → s.rows = [])

/-- The input is a click on a row. -/
def FlowA.Input.isClick : FlowA.Input → Bool
  | .click _ => true
  | _ => false

/-- The URL a `previewFile` call loads. -/
def FlowA.Event.loadUrl? : FlowA.Event → Option String
  | .previewFile _ url _ => some url
  | _ => none

/-- The message of an unhandled rejection. -/
def FlowA.Event.rejectionMessage? : FlowA.Event → Option String
  | .unhandledRejection e => some e.message
  | _ => none

/-- The analysis result of the walk-through of the specification: two sections,
`A.pdf` page 3 and `B.pdf` page 1. -/
def sampleData : JsVal :=
  .obj [("metadata", .obj [("persona", .str "Traveller"), ("job_to_be_done", .str "Plan a trip"),
      ("input_documents", .arr [.str "A.pdf", .str "B.pdf"])]),
    ("extracted_sections", .arr [
      .obj [("document", .str "A.pdf"), ("section_title", .str "Intro"), ("page_number", .num 3)],
      .obj [("document", .str "B.pdf"), ("section_title", .str "Summary"),
        ("page_number", .num 1)]])]

/-- A run that builds the sidebar for `sampleData`: the SDK is loaded already,
the artifact is fetched and parsed, the first document loads. -/
def sampleStart : List FlowA.Input :=
  [.domContentLoaded (some "analysis.json") true, .fetchSettled (.fulfilled true),
   .jsonSettled (.fulfilled sampleData), .promiseSettled 0 (.fulfilled ())]

/-- The console line `main` prints once the first section has passed validation. -/
def FlowA.Event.isValidated : FlowA.Event → Bool
  | .consoleLog [label, _] => label == "Initial PDF to load:"
  | _ => false

/-- The console line `main` prints when it reaches `await adobeApiReady`: from
here on `main` waits for the readiness promise. -/
def FlowA.Event.isGateWait : FlowA.Event → Bool
  | .consoleLog [line] => line == "Waiting for Adobe DC View SDK to be ready..."
  | _ => false

/-- A write of `populateSidebar`: the persona and job texts, the assignment to
`smart-toc` of the empty string or of the invalid-format message, a row
appended.  The messages that `fetchAnalysisData` and `main` assign to
`smart-toc` when they give up are not among them. -/
def FlowA.Event.isSidebar : FlowA.Event → Bool
  | .setPersonaText _ => true
  | .setJobText _ => true
  | .setTocHtml html =>
    html == "" || html == "<div class=\"loader\">Invalid data format in JSON file.</div>"
  | .appendRow _ => true
  | _ => false

/-- Scan of a trace: every event of kind `q` comes after some event of kind `p`
(`seen` tells whether one came before the part scanned). -/
def FlowA.orderedFrom (p q : FlowA.Event → Bool) : Bool → List FlowA.Event → Bool
  | _, [] => true
  | seen, e :: rest => (!q e || seen) && FlowA.orderedFrom p q (seen || p e) rest

/-- In the trace, every event of kind `q` is preceded by an event of kind `p`. -/
def FlowA.Precedes (p q : FlowA.Event → Bool) (t : List FlowA.Event) : Prop :=
  FlowA.orderedFrom p q false t = true

/-- The order of the steps of `main`, read on the trace, and what the position
of `main` tells about the trace. -/
structure FlowA.InOrder (s : FlowA.State) : Prop where
  fetch_validated : FlowA.Precedes FlowA.Event.isFetch FlowA.Event.isValidated s.trace
  validated_wait : FlowA.Precedes FlowA.Event.isValidated FlowA.Event.isGateWait s.trace
  validated_view : FlowA.Precedes FlowA.Event.isValidated FlowA.Event.isViewerConstruction s.trace
  wait_view : FlowA.Precedes FlowA.Event.isGateWait FlowA.Event.isViewerConstruction s.trace
  gate_view : FlowA.Precedes FlowA.Event.isGateResolution FlowA.Event.isViewerConstruction s.trace
  view_load : FlowA.Precedes FlowA.Event.isViewerConstruction FlowA.Event.isLoad s.trace
  load_sidebar : FlowA.Precedes FlowA.Event.isLoad FlowA.Event.isSidebar s.trace
  fetched : (∃ f, s.pc = .awaitFetch f ∨ s.pc = .awaitJson f) → s.trace.any FlowA.Event.isFetch = true
  validated : (∃ d i, s.pc = .awaitGate d i) → s.trace.any FlowA.Event.isValidated = true
  waiting : (∃ d i, s.pc = .awaitGate d i) → s.trace.any FlowA.Event.isGateWait = true
  gate : s.gateResolved = true → s.trace.any FlowA.Event.isGateResolution = true
  view : s.viewer = true → s.trace.any FlowA.Event.isViewerConstruction = true
  loaded : (∃ d p, s.pc = .awaitInitialLoad d p) → s.trace.any FlowA.Event.isLoad = true

/-- What a stretch of events appended to the trace `t` has to satisfy for the
order of the steps to be kept: each of the seven precedences holds of the
stretch, given what `t` holds already. -/
def FlowA.KeepsOrder (t extra : List FlowA.Event) : Prop :=
  FlowA.orderedFrom FlowA.Event.isFetch FlowA.Event.isValidated
    (t.any FlowA.Event.isFetch) extra = true ∧
  FlowA.orderedFrom FlowA.Event.isValidated FlowA.Event.isGateWait
    (t.any FlowA.Event.isValidated) extra = true ∧
  FlowA.orderedFrom FlowA.Event.isValidated FlowA.Event.isViewerConstruction
    (t.any FlowA.Event.isValidated) extra = true ∧
  FlowA.orderedFrom FlowA.Event.isGateWait FlowA.Event.isViewerConstruction
    (t.any FlowA.Event.isGateWait) extra = true ∧
  FlowA.orderedFrom FlowA.Event.isGateResolution FlowA.Event.isViewerConstruction
    (t.any FlowA.Event.isGateResolution) extra = true ∧
  FlowA.orderedFrom FlowA.Event.isViewerConstruction FlowA.Event.isLoad
    (t.any FlowA.Event.isViewerConstruction) extra = true ∧
  FlowA.orderedFrom FlowA.Event.isLoad FlowA.Event.isSidebar
    (t.any FlowA.Event.isLoad) extra = true

/-- The event is none of the steps that have to come after another one. -/
def FlowA.Event.isFree (e : FlowA.Event) : Bool :=
  !e.isValidated && !e.isGateWait && !e.isViewerConstruction && !e.isLoad && !e.isSidebar

/-- The steps of `main`, as they show in the trace. -/
inductive FlowA.Stage where
  | fetch
  | validated
  | gateWait
  | viewer
  | load
  | sidebar
deriving DecidableEq, Repr

/-- The step of `main` an event belongs to, if any. -/
def FlowA.Event.stage? (e : FlowA.Event) : Option FlowA.Stage :=
  if e.isFetch then some .fetch
  else if e.isValidated then some .validated
  else if e.isGateWait then some .gateWait
  else if e.isViewerConstruction then some .viewer
  else if e.isLoad then some .load
  else if e.isSidebar then some .sidebar
  else none

/-- The steps of `main` in the trace of a state, in the order they were taken. -/
def FlowA.State.stages (s : FlowA.State) : List FlowA.Stage :=
  s.trace.filterMap FlowA.Event.stage?

/-- A complete run in which the SDK becomes ready only after the data has been
fetched and validated. -/
def lateSdkRun : List FlowA.Input :=
  [.domContentLoaded (some "analysis.json") false, .fetchSettled (.fulfilled true),
   .jsonSettled (.fulfilled sampleData), .sdkReady, .promiseSettled 0 (.fulfilled ())]

/-- The URLs of the document loads of a state, in the order they were requested. -/
def FlowA.State.loads (s : FlowA.State) : List String :=
  s.trace.filterMap FlowA.Event.loadUrl?

/-- Nothing has been built or is waiting besides `main`, and the readiness
promise is resolved or its listener is registered. -/
def FlowA.Quiet (s : FlowA.State) : Prop :=
  s.rows = [] ∧ s.conts = [] ∧ s.settled = [] ∧ (s.gateResolved = false → s.listening = true)

/-- The function `main` waits for `fetch` or for the body, before any call on the widget. -/
def FlowA.Fetching (s : FlowA.State) : Prop :=
  s.viewer = false ∧ s.nextPromise = 0 ∧ s.loads = [] ∧ FlowA.Quiet s

/-- The function `main` waits for the first document load, requested for `url`. -/
def FlowA.Loading (data : JsVal) (url : String) (s : FlowA.State) : Prop :=
  s.pc = .awaitInitialLoad data 0 ∧ s.viewer = true ∧ s.nextPromise = 1 ∧ s.loads = [url] ∧
    FlowA.Quiet s

/-- The inputs of a run that builds the sidebar: the page loads, the request is
answered with success, the body parses to `data`, the first document load
fulfils; the SDK announces its readiness `n0`, `n1` and `n2` times in between. -/
def FlowA.sidebarRun (file : String) (sdkLoaded : Bool) (data : JsVal) (n0 n1 n2 : Nat) :
    List FlowA.Input :=
  .domContentLoaded (some file) sdkLoaded :: List.replicate n0 .sdkReady ++
    .fetchSettled (.fulfilled true) :: List.replicate n1 .sdkReady ++
    .jsonSettled (.fulfilled data) :: List.replicate n2 .sdkReady ++
    [.promiseSettled 0 (.fulfilled ())]

/-! ## Reading a fragment back

Both scripts hand their markup to `innerHTML`.  What the browser shows is the
text of the fragment outside its tags.  The reading below is the one of the
fragment parser on the markup these templates produce around values that hold
none of the characters `<`, `&`, carriage return and NUL (the ones the parser
does not keep as they are: `<` opens a tag, `&` a character reference, a
carriage return becomes a line feed, NUL is dropped); a `>` outside a tag is
text.  It is used on markup whose values are such up to the value read back, and
to tell that a tag is not text. -/

namespace Html

/-- The characters outside tags; the flag tells whether the scan is inside a tag. -/
def textFrom : Bool → List Char → List Char
  | _, [] => []
  | false, c :: cs => if c = '<' then textFrom true cs else c :: textFrom false cs
  | true, c :: cs => if c = '>' then textFrom false cs else textFrom true cs

/-- Whether the scan of the characters ends inside a tag. -/
def endsInTag : Bool → List Char → Bool
  | inTag, [] => inTag
  | false, c :: cs => if c = '<' then endsInTag true cs else endsInTag false cs
  | true, c :: cs => if c = '>' then endsInTag false cs else endsInTag true cs

/-- The text a fragment shows. -/
def visibleText (html : String) : String := ⟨textFrom false html.data⟩

/-- The markup leaves no tag open. -/
def Balanced (html : String) : Prop := endsInTag false html.data = false

/-- A value the parser keeps character by character. -/
def Plain (value : String) : Prop :=
  ∀ c ∈ value.data, c ≠ '<' ∧ c ≠ '&' ∧ c ≠ '\r' ∧ c ≠ Char.ofNat 0

/-- The text holds the value, unchanged, as a run of consecutive characters. -/
def Shows (text value : String) : Prop := value.data <:+: text.data

end Html

/-- The `li` template of `displayResults` on the fields of a section. -/
def FlowB.sectionPiece (x : JsVal) : String :=
  "<li><strong>Rank " ++ (x.getOpt "importance_rank").toStr ++ ":</strong> " ++
    (x.getOpt "section_title").toStr ++ " <em>(from " ++ (x.getOpt "document").toStr ++
    ", Page " ++ (x.getOpt "page_number").toStr ++ ")</em></li>"

/-- A result whose extracted section has a title with markup in it. -/
def markupData : JsVal :=
  .obj [("metadata", .obj [("persona", .str "Traveller"), ("job_to_be_done", .str "Plan a trip"),
      ("input_documents", .arr [.str "A.pdf"])]),
    ("extracted_section", .arr [
      .obj [("document", .str "A.pdf"), ("section_title", .str "<b>Intro</b>"),
        ("page_number", .num 3), ("importance_rank", .num 1)]])]

/-- The fields of a result with two extracted sections: the values of the first
hold no markup, the title of the second does. -/
def plainThenMarkupFields : List (String × JsVal) :=
  [("metadata", .obj [("persona", .str "Traveller"), ("job_to_be_done", .str "Plan a trip"),
      ("input_documents", .arr [.str "A.pdf"])]),
    ("extracted_section", .arr [
      .obj [("document", .str "A.pdf"), ("section_title", .str "Intro"),
        ("page_number", .num 3), ("importance_rank", .num 1)],
      .obj [("document", .str "B.pdf"), ("section_title", .str "<b>Later</b>"),
        ("page_number", .num 7), ("importance_rank", .num 2)]])]

/-! ## Flow B: theorems -/

namespace FlowB
open JsVal

theorem appendEach_ok (template : JsVal → Js String) :
    ∀ (xs : List JsVal) (pieces : List String) (html : String),
      List.Forall₂ (fun x p => template x = .ok p) xs pieces →
      appendEach template xs html = .ok (html ++ concatAll pieces)
  | _, _, html, .nil => by simp [appendEach, concatAll]
  | _, _, html, .cons hx hrest => by
    simp [appendEach, hx, bind, Except.bind, appendEach_ok template _ _ _ hrest, concatAll,
      String.append_assoc]

theorem sectionItemHtml_obj (E : Engine) (fields : List (String × JsVal)) :
    sectionItemHtml E (.obj fields) = .ok
      ("<li><strong>Rank " ++ (lookup "importance_rank" fields).toStr ++ ":</strong> " ++
        (lookup "section_title" fields).toStr ++ " <em>(from " ++
        (lookup "document" fields).toStr ++ ", Page " ++ (lookup "page_number" fields).toStr ++
        ")</em></li>") := by
  simp [sectionItemHtml, JsVal.get, bind, Except.bind, pure, Except.pure]

theorem subSectionHtml_obj (E : Engine) (fields : List (String × JsVal)) :
    subSectionHtml E (.obj fields) = .ok
      ("<div class=\"sub-section\">\n                            <h4>From: " ++
        (lookup "document" fields).toStr ++ " (Page " ++ (lookup "page_number" fields).toStr ++
        ")</h4>\n                            <p>" ++ (lookup "refined_text" fields).toStr ++
        "</p>\n                         </div>") := by
  simp [subSectionHtml, JsVal.get, bind, Except.bind, pure, Except.pure]

theorem forall₂_of_objects (template : JsVal → Js String)
    (h : ∀ fields, ∃ p, template (.obj fields) = .ok p) :
    ∀ xs : List JsVal, (∀ x ∈ xs, ∃ fields, x = .obj fields) →
      ∃ pieces, List.Forall₂ (fun x p => template x = .ok p) xs pieces
  | [], _ => ⟨[], .nil⟩
  | x :: rest, hx => by
    obtain ⟨fields, rfl⟩ := hx x (List.mem_cons_self _ _)
    obtain ⟨p, hp⟩ := h fields
    obtain ⟨ps, hps⟩ := forall₂_of_objects template h rest
      (fun y hy => hx y (List.mem_cons_of_mem _ hy))
    exact ⟨p :: ps, .cons hp hps⟩

theorem nonEmpty_arr (E : Engine) (xs : List JsVal) :
    nonEmpty E (.arr xs) = .ok (decide (0 < xs.length)) := by
  simp [nonEmpty, truthy, JsVal.get, gtZero, bind, Except.bind, pure, Except.pure]

theorem sectionsBlock_spec (E : Engine) (fields : List (String × JsVal)) (html : String)
    (hsec : SectionList (lookup "extracted_section" fields)) :
    ∃ secs : String,
      sectionsBlock E (.obj fields) html = .ok
        (html ++ ("<div class=\"result-section\"><h3>Extracted Sections (Top 5)</h3>" ++ secs ++
          "</div>")) ∧
      (AbsentOrEmpty (lookup "extracted_section" fields) →
        secs = "<p>No relevant sections were extracted.</p>") ∧
      (∀ x xs, lookup "extracted_section" fields = .arr (x :: xs) →
        ∃ pieces, List.Forall₂ (fun y p => sectionItemHtml E y = .ok p) (x :: xs) pieces ∧
          secs = "<ul>" ++ concatAll pieces ++ "</ul>") := by
  rcases hsec with h | h | ⟨xs, h, hobj⟩
  · refine ⟨"<p>No relevant sections were extracted.</p>", ?_, fun _ => rfl, ?_⟩
    · simp [sectionsBlock, JsVal.get, h, nonEmpty, truthy, bind, Except.bind, pure, Except.pure,
        String.append_assoc]
    · intro x xs hx; rw [h] at hx; cases hx
  · refine ⟨"<p>No relevant sections were extracted.</p>", ?_, fun _ => rfl, ?_⟩
    · simp [sectionsBlock, JsVal.get, h, nonEmpty, truthy, bind, Except.bind, pure, Except.pure,
        String.append_assoc]
    · intro x xs hx; rw [h] at hx; cases hx
  · cases xs with
    | nil =>
      refine ⟨"<p>No relevant sections were extracted.</p>", ?_, fun _ => rfl, ?_⟩
      · simp [sectionsBlock, JsVal.get, h, nonEmpty_arr, bind, Except.bind, pure, Except.pure,
          String.append_assoc]
      · intro x xs hx; rw [h] at hx; cases hx
    | cons y ys =>
      obtain ⟨pieces, hp⟩ := forall₂_of_objects (sectionItemHtml E)
        (fun f => ⟨_, sectionItemHtml_obj E f⟩) (y :: ys) hobj
      refine ⟨"<ul>" ++ concatAll pieces ++ "</ul>", ?_, ?_, ?_⟩
      · simp [sectionsBlock, JsVal.get, h, nonEmpty_arr, forEachItems, bind, Except.bind, pure,
          Except.pure, appendEach_ok _ _ _ _ hp, String.append_assoc, -String.reduceAppend]
      · intro ha
        rcases ha with ha | ha | ha <;> rw [h] at ha <;> cases ha
      · intro x xs hx
        rw [h] at hx
        cases hx
        exact ⟨pieces, hp, rfl⟩

theorem subSectionsBlock_spec (E : Engine) (fields : List (String × JsVal)) (html : String)
    (hsub : SectionList (lookup "sub-section_analysis" fields)) :
    ∃ subs : String,
      subSectionsBlock E (.obj fields) html = .ok
        (html ++ ("<div class=\"result-section\"><h3>Sub-section Analysis (Refined Text)</h3>" ++
          subs ++ "</div>")) ∧
      (AbsentOrEmpty (lookup "sub-section_analysis" fields) →
        subs = "<p>No sub-section analysis was performed.</p>") ∧
      (∀ x xs, lookup "sub-section_analysis" fields = .arr (x :: xs) →
        ∃ pieces, List.Forall₂ (fun y p => subSectionHtml E y = .ok p) (x :: xs) pieces ∧
          subs = concatAll pieces) := by
  rcases hsub with h | h | ⟨xs, h, hobj⟩
  · refine ⟨"<p>No sub-section analysis was performed.</p>", ?_, fun _ => rfl, ?_⟩
    · simp [subSectionsBlock, JsVal.get, h, nonEmpty, truthy, bind, Except.bind, pure,
        Except.pure, String.append_assoc, -String.reduceAppend]
    · intro x xs hx; rw [h] at hx; cases hx
  · refine ⟨"<p>No sub-section analysis was performed.</p>", ?_, fun _ => rfl, ?_⟩
    · simp [subSectionsBlock, JsVal.get, h, nonEmpty, truthy, bind, Except.bind, pure,
        Except.pure, String.append_assoc, -String.reduceAppend]
    · intro x xs hx; rw [h] at hx; cases hx
  · cases xs with
    | nil =>
      refine ⟨"<p>No sub-section analysis was performed.</p>", ?_, fun _ => rfl, ?_⟩
      · simp [subSectionsBlock, JsVal.get, h, nonEmpty_arr, bind, Except.bind, pure,
          Except.pure, String.append_assoc, -String.reduceAppend]
      · intro x xs hx; rw [h] at hx; cases hx
    | cons y ys =>
      obtain ⟨pieces, hp⟩ := forall₂_of_objects (subSectionHtml E)
        (fun f => ⟨_, subSectionHtml_obj E f⟩) (y :: ys) hobj
      refine ⟨concatAll pieces, ?_, ?_, ?_⟩
      · simp [subSectionsBlock, JsVal.get, h, nonEmpty_arr, forEachItems, bind, Except.bind,
          pure, Except.pure, appendEach_ok _ _ _ _ hp, String.append_assoc,
          -String.reduceAppend]
      · intro ha
        rcases ha with ha | ha | ha <;> rw [h] at ha <;> cases ha
      · intro x xs hx
        rw [h] at hx
        cases hx
        exact ⟨pieces, hp, rfl⟩

theorem metadataBlock_spec (E : Engine) (fields mfields : List (String × JsVal))
    (docs : List JsVal) (html : String)
    (hmeta : lookup "metadata" fields = .obj mfields)
    (hdocs : lookup "input_documents" mfields = .arr docs) :
    metadataBlock E (.obj fields) html = .ok
      (html ++ ("<div class=\"result-section\"><h3>Metadata</h3>" ++
        ("<p><strong>Persona:</strong> " ++ (lookup "persona" mfields).toStr ++ "</p>") ++
        ("<p><strong>Job-to-be-Done:</strong> " ++ (lookup "job_to_be_done" mfields).toStr ++
          "</p>") ++
        ("<p><strong>Documents:</strong> " ++ joinWith ", " docs ++ "</p></div>"))) := by
  simp [metadataBlock, JsVal.get, JsVal.join, hmeta, hdocs, bind, Except.bind, pure, Except.pure,
    String.append_assoc, -String.reduceAppend]

/-- C6, amended: for a result whose `metadata` is an object with an array
`input_documents` and whose two list fields are each absent, null or an array
of objects, `displayResults` assigns markup made of the heading, the metadata
block, the extracted-sections block and the sub-section block, in this order;
an absent, null or empty `extracted_section` gives the first placeholder inside
its block, an absent, null or empty `sub-section_analysis` the second one; a
list that is not empty gives the templates of its elements. -/
theorem displayResults_renders_both_blocks (E : Engine)
    (fields mfields : List (String × JsVal)) (docs : List JsVal)
    (hmeta : lookup "metadata" fields = .obj mfields)
    (hdocs : lookup "input_documents" mfields = .arr docs)
    (hsec : SectionList (lookup "extracted_section" fields))
    (hsub : SectionList (lookup "sub-section_analysis" fields)) :
    ∃ secs subs : String,
      displayResults E (.obj fields) = .ok
        ("<h2>Analysis Results</h2>" ++
          ("<div class=\"result-section\"><h3>Metadata</h3>" ++
            ("<p><strong>Persona:</strong> " ++ (lookup "persona" mfields).toStr ++ "</p>") ++
            ("<p><strong>Job-to-be-Done:</strong> " ++
              (lookup "job_to_be_done" mfields).toStr ++ "</p>") ++
            ("<p><strong>Documents:</strong> " ++ joinWith ", " docs ++ "</p></div>")) ++
          ("<div class=\"result-section\"><h3>Extracted Sections (Top 5)</h3>" ++ secs ++
            "</div>") ++
          ("<div class=\"result-section\"><h3>Sub-section Analysis (Refined Text)</h3>" ++
            subs ++ "</div>")) ∧
      (AbsentOrEmpty (lookup "extracted_section" fields) →
        secs = "<p>No relevant sections were extracted.</p>") ∧
      (AbsentOrEmpty (lookup "sub-section_analysis" fields) →
        subs = "<p>No sub-section analysis was performed.</p>") ∧
      (∀ x xs, lookup "extracted_section" fields = .arr (x :: xs) →
        ∃ pieces, List.Forall₂ (fun y p => sectionItemHtml E y = .ok p) (x :: xs) pieces ∧
          secs = "<ul>" ++ concatAll pieces ++ "</ul>") ∧
      (∀ x xs, lookup "sub-section_analysis" fields = .arr (x :: xs) →
        ∃ pieces, List.Forall₂ (fun y p => subSectionHtml E y = .ok p) (x :: xs) pieces ∧
          subs = concatAll pieces) := by
  obtain ⟨secs, hsecs, hs1, hs2⟩ := sectionsBlock_spec E fields
    ("<h2>Analysis Results</h2>" ++ ("<div class=\"result-section\"><h3>Metadata</h3>" ++
        ("<p><strong>Persona:</strong> " ++ (lookup "persona" mfields).toStr ++ "</p>") ++
        ("<p><strong>Job-to-be-Done:</strong> " ++ (lookup "job_to_be_done" mfields).toStr ++
          "</p>") ++
        ("<p><strong>Documents:</strong> " ++ joinWith ", " docs ++ "</p></div>"))) hsec
  obtain ⟨subs, hsubs, hb1, hb2⟩ := subSectionsBlock_spec E fields
    ("<h2>Analysis Results</h2>" ++ ("<div class=\"result-section\"><h3>Metadata</h3>" ++
        ("<p><strong>Persona:</strong> " ++ (lookup "persona" mfields).toStr ++ "</p>") ++
        ("<p><strong>Job-to-be-Done:</strong> " ++ (lookup "job_to_be_done" mfields).toStr ++
          "</p>") ++
        ("<p><strong>Documents:</strong> " ++ joinWith ", " docs ++ "</p></div>")) ++
      ("<div class=\"result-section\"><h3>Extracted Sections (Top 5)</h3>" ++ secs ++
        "</div>")) hsub
  refine ⟨secs, subs, ?_, hs1, hb1, hs2, hb2⟩
  have hm := metadataBlock_spec E fields mfields docs "<h2>Analysis Results</h2>" hmeta hdocs
  simp only [displayResults, truthy, JsVal.get, hmeta, bind, Except.bind, pure, Except.pure,
    Bool.not_true, Bool.false_eq_true, if_false, hm, hsecs, hsubs]

/-! ### The busy indicator -/

theorem lookup_filter_self (hs : List (Nat × Phase)) (id : Nat) :
    (hs.filter (fun h => h.1 != id)).lookup id = none := by
  induction hs with
  | nil => rfl
  | cons h rest ih =>
    obtain ⟨k, p⟩ := h
    by_cases hk : k = id
    · simp [List.filter_cons, hk, ih]
    · have hk2 : (id == k) = false := by simpa using fun h => hk h.symm
      simp [List.filter_cons, hk, List.lookup_cons, hk2, ih]

theorem lookup_filter_ne (hs : List (Nat × Phase)) (id other : Nat) (hne : other ≠ id) :
    (hs.filter (fun h => h.1 != other)).lookup id = hs.lookup id := by
  induction hs with
  | nil => rfl
  | cons h rest ih =>
    obtain ⟨k, p⟩ := h
    by_cases hk : k = other
    · have hk2 : (id == k) = false := by simpa [hk] using fun h => hne h.symm
      simp [List.filter_cons, hk, List.lookup_cons, ih]
      rw [hk] at hk2; simp [hk2]
    · by_cases hki : id = k
      · simp [List.filter_cons, hk, List.lookup_cons, hki]
      · have hk2 : (id == k) = false := by simpa using hki
        simp [List.filter_cons, hk, List.lookup_cons, hk2, ih]

theorem setPhase_cons (x : Nat × Phase) (rest : List (Nat × Phase)) (id : Nat) (q : Phase) :
    setPhase (x :: rest) id q = (if x.1 = id then (id, q) else x) :: setPhase rest id q := rfl

theorem lookup_setPhase_self (hs : List (Nat × Phase)) (id : Nat) (p q : Phase)
    (h : hs.lookup id = some p) : (setPhase hs id q).lookup id = some q := by
  induction hs with
  | nil => simp [List.lookup] at h
  | cons x rest ih =>
    obtain ⟨k, r⟩ := x
    by_cases hk : id = k
    · subst hk; simp [setPhase_cons, List.lookup_cons]
    · have hk2 : (id == k) = false := by simpa using hk
      have hk3 : ¬ k = id := fun h => hk h.symm
      simp only [List.lookup_cons, hk2] at h
      simp only [setPhase_cons, hk3, if_false, List.lookup_cons, hk2]
      exact ih h

theorem lookup_setPhase_ne (hs : List (Nat × Phase)) (id other : Nat) (q : Phase)
    (hne : other ≠ id) : (setPhase hs other q).lookup id = hs.lookup id := by
  induction hs with
  | nil => rfl
  | cons x rest ih =>
    obtain ⟨k, r⟩ := x
    by_cases hk : k = other
    · have hk2 : (id == other) = false := by simpa using fun h => hne h.symm
      subst hk
      simp only [setPhase_cons, if_true, List.lookup_cons, hk2]
      exact ih
    · by_cases hki : id = k
      · subst hki; simp [setPhase_cons, hk, List.lookup_cons]
      · have hk2 : (id == k) = false := by simpa using hki
        simp only [setPhase_cons, hk, if_false, List.lookup_cons, hk2]
        exact ih

theorem lookup_append_some (hs extra : List (Nat × Phase)) (id : Nat) (p : Phase)
    (h : hs.lookup id = some p) : (hs ++ extra).lookup id = some p := by
  induction hs with
  | nil => simp [List.lookup] at h
  | cons x rest ih =>
    obtain ⟨k, r⟩ := x
    by_cases hk : id = k
    · subst hk; simpa [List.lookup_cons] using h
    · have hk2 : (id == k) = false := by simpa using hk
      simp only [List.cons_append, List.lookup_cons, hk2] at h ⊢
      exact ih h

theorem lookup_append_fresh (hs : List (Nat × Phase)) (id : Nat) (p : Phase)
    (h : ∀ x ∈ hs, x.1 < id) : (hs ++ [(id, p)]).lookup id = some p := by
  induction hs with
  | nil => simp [List.lookup_cons]
  | cons x rest ih =>
    obtain ⟨k, r⟩ := x
    have hk : k < id := h (k, r) (List.mem_cons_self _ _)
    have hk2 : (id == k) = false := by simpa using (Nat.ne_of_gt hk)
    simp only [List.cons_append, List.lookup_cons, hk2]
    exact ih (fun y hy => h y (List.mem_cons_of_mem _ hy))

theorem complete_completed (s : State) (id : Nat) (r : Js String) :
    Completed id (complete s id r) := by
  refine ⟨rfl, lookup_filter_self _ _, ?_⟩
  simp [complete]

theorem complete_lookup_ne (s : State) (id other : Nat) (r : Js String) (hne : other ≠ id) :
    (complete s other r).handlers.lookup id = s.handlers.lookup id :=
  lookup_filter_ne _ _ _ hne

theorem fresh_complete (s : State) (id : Nat) (r : Js String) (h : Fresh s) :
    Fresh (complete s id r) := by
  intro x hx
  exact h x (List.mem_of_mem_filter hx)

theorem fresh_step (E : Engine) (s : State) (i : Input) (h : Fresh s) : Fresh (step E s i) := by
  cases i with
  | submit =>
    intro x hx
    simp only [step, List.mem_append, List.mem_singleton] at hx
    rcases hx with hx | hx
    · exact Nat.lt_succ_of_lt (h x hx)
    · subst hx; exact Nat.lt_succ_self _
  | fetchSettled id r =>
    simp only [step]
    split
    · exact fresh_complete _ _ _ h
    · intro x hx
      simp only [setPhase, List.mem_map] at hx
      obtain ⟨y, hy, rfl⟩ := hx
      have := h y hy
      split <;> simp_all
    · exact h
  | jsonSettled id r =>
    simp only [step]
    split <;> first | exact fresh_complete _ _ _ h | exact h

theorem fresh_run (E : Engine) (inputs : List Input) :
    ∀ s, Fresh s → Fresh (run E s inputs) := by
  induction inputs with
  | nil => intro s h; exact h
  | cons i rest ih => intro s h; exact ih _ (fresh_step E s i h)

theorem fresh_init (spinner results : String) : Fresh (init spinner results) := by
  intro x hx; cases hx

theorem step_other (E : Engine) (s : State) (i : Input) (id : Nat) (p : Phase)
    (hi : i.submission ≠ some id) (h : s.handlers.lookup id = some p) :
    (step E s i).handlers.lookup id = some p := by
  cases i with
  | submit => exact lookup_append_some _ _ _ _ h
  | fetchSettled k r =>
    have hne : k ≠ id := fun hk => hi (by simp [Input.submission, hk])
    simp only [step]
    split
    · rw [complete_lookup_ne _ _ _ _ hne]; exact h
    · simp only; rw [lookup_setPhase_ne _ _ _ _ hne]; exact h
    · exact h
  | jsonSettled k r =>
    have hne : k ≠ id := fun hk => hi (by simp [Input.submission, hk])
    simp only [step]
    split <;> first | (rw [complete_lookup_ne _ _ _ _ hne]; exact h) | exact h

theorem run_other (E : Engine) (id : Nat) (p : Phase) (inputs : List Input) :
    ∀ s, (∀ i ∈ inputs, i.submission ≠ some id) → s.handlers.lookup id = some p →
      (run E s inputs).handlers.lookup id = some p := by
  induction inputs with
  | nil => intro s _ h; exact h
  | cons i rest ih =>
    intro s hi h
    exact ih _ (fun j hj => hi j (List.mem_cons_of_mem _ hj))
      (step_other E s i id p (hi i (List.mem_cons_self _ _)) h)

theorem step_fetch_rejected (E : Engine) (s : State) (id : Nat) (e : JsError)
    (h : s.handlers.lookup id = some .awaitFetch) :
    step E s (.fetchSettled id (.rejected e)) = complete s id (.error e) := by
  simp [step, h]

theorem step_fetch_fulfilled (E : Engine) (s : State) (id : Nat) (ok : Bool)
    (h : s.handlers.lookup id = some .awaitFetch) :
    (step E s (.fetchSettled id (.fulfilled ok))).handlers.lookup id =
      some (if ok then .awaitJson else .awaitErrorJson) := by
  simp only [step, h]
  exact lookup_setPhase_self _ _ _ _ h

theorem step_json_completed (E : Engine) (s : State) (id : Nat) (r : Settled JsVal)
    (h : s.handlers.lookup id = some .awaitJson ∨ s.handlers.lookup id = some .awaitErrorJson) :
    Completed id (step E s (.jsonSettled id r)) := by
  rcases h with h | h <;> cases r <;> simp only [step, h] <;> exact complete_completed _ _ _

/-- C5: in every reachable state of the form page, a submission sets the busy
indicator to `block` before it issues the request to `/analyze`; and however
the page goes on (other submissions and their responses interleaved), the turn
in which this submission ends leaves the indicator at `none`: when `fetch`
rejects, and, for a response of either status, when reading its body ends
(parsed or not, rendered or thrown while rendering). -/
theorem spinner_shown_then_hidden (E : Engine) (spinner results : String) (pre : List Input) :
    let s := run E (init spinner results) pre
    let s1 := step E s .submit
    s1.spinnerDisplay = "block" ∧
    s1.trace = s.trace ++ [.preventDefault, .setSpinnerDisplay "block", .setResultsHtml "",
      .fetchPost s.nextId "/analyze"] ∧
    ∀ mid1 : List Input, (∀ i ∈ mid1, i.submission ≠ some s.nextId) →
      (run E s1 mid1).handlers.lookup s.nextId = some .awaitFetch ∧
      (∀ e, Completed s.nextId
        (step E (run E s1 mid1) (.fetchSettled s.nextId (.rejected e)))) ∧
      (∀ (ok : Bool) (mid2 : List Input), (∀ i ∈ mid2, i.submission ≠ some s.nextId) →
        ∀ r, Completed s.nextId
          (step E (run E (step E (run E s1 mid1) (.fetchSettled s.nextId (.fulfilled ok))) mid2)
            (.jsonSettled s.nextId r))) := by
  intro s s1
  have hfresh : Fresh s := fresh_run E pre _ (fresh_init spinner results)
  have h1 : s1.handlers.lookup s.nextId = some .awaitFetch :=
    lookup_append_fresh _ _ _ hfresh
  refine ⟨rfl, rfl, fun mid1 hmid1 => ?_⟩
  have h2 := run_other E s.nextId .awaitFetch mid1 s1 hmid1 h1
  refine ⟨h2, fun e => ?_, fun ok mid2 hmid2 r => ?_⟩
  · rw [step_fetch_rejected E _ _ e h2]
    exact complete_completed _ _ _
  · have h3 := step_fetch_fulfilled E _ _ ok h2
    have h4 := run_other E s.nextId _ mid2 _ hmid2 h3
    apply step_json_completed
    cases ok
    · right; simpa using h4
    · left; simpa using h4

/-- Witness of C5: a first submission, a second one issued while the first is
in flight, and the first one ending on a response that is not a success. -/
theorem spinner_shown_then_hidden_witness :
    (∀ i ∈ [Input.submit], i.submission ≠ some 0) ∧
    (∀ i ∈ ([] : List Input), i.submission ≠ some 0) ∧
    Completed 0 (step sampleEngine
      (run sampleEngine
        (step sampleEngine
          (run sampleEngine (step sampleEngine (run sampleEngine (init "none" "") []) .submit)
            [Input.submit])
          (.fetchSettled 0 (.fulfilled false))) [])
      (.jsonSettled 0 (.fulfilled (.obj [("error", .str "No files uploaded")])))) :=
  have h1 : ∀ i ∈ [Input.submit], i.submission ≠ some 0 := by
    intro i hi; simp at hi; subst hi; simp [Input.submission]
  have h2 : ∀ i ∈ ([] : List Input), i.submission ≠ some 0 := by
    intro i hi; cases hi
  ⟨h1, h2, ((spinner_shown_then_hidden sampleEngine "none" "" []).2.2 [Input.submit] h1).2.2
    false [] h2 (.fulfilled (.obj [("error", .str "No files uploaded")]))⟩

set_option maxRecDepth 100000 in
/-- C6, as stated, fails: for a result with metadata whose `extracted_section`
holds a `null` element, `displayResults` throws while it builds the first block
and assigns nothing, and the page shows the message of the exception, with
neither block; the same happens when `extracted_section` is a string that is
not empty, and when `sub-section_analysis` holds a `null` element. -/
theorem null_section_renders_no_block :
    displayResults sampleEngine (nullSectionData "extracted_section") =
      .error ⟨"Cannot read properties of null (reading 'importance_rank')"⟩ ∧
    (run sampleEngine (init "none" "")
      [.submit, .fetchSettled 0 (.fulfilled true),
       .jsonSettled 0 (.fulfilled (nullSectionData "extracted_section"))]).resultsHtml =
      "<div class=\"error\"><strong>Error:</strong> " ++
        "Cannot read properties of null (reading 'importance_rank')</div>" ∧
    displayResults sampleEngine textSectionData = .error ⟨"forEach is not a function"⟩ ∧
    displayResults sampleEngine (nullSectionData "sub-section_analysis") =
      .error ⟨"Cannot read properties of null (reading 'document')"⟩ := by
  exact ⟨rfl, by decide, rfl, rfl⟩

set_option maxRecDepth 100000 in
/-- Witness of C6 (amended): a response that carries metadata only. -/
theorem displayResults_renders_both_blocks_witness :
    lookup "metadata" [("metadata", JsVal.obj [("persona", .str "Chef"),
      ("job_to_be_done", .str "Plan a menu"), ("input_documents", .arr [.str "A.pdf"])])] =
      .obj [("persona", .str "Chef"), ("job_to_be_done", .str "Plan a menu"),
        ("input_documents", .arr [.str "A.pdf"])] ∧
    displayResults sampleEngine (.obj [("metadata", JsVal.obj [("persona", .str "Chef"),
      ("job_to_be_done", .str "Plan a menu"), ("input_documents", .arr [.str "A.pdf"])])]) =
      .ok ("<h2>Analysis Results</h2><div class=\"result-section\"><h3>Metadata</h3>" ++
        "<p><strong>Persona:</strong> Chef</p><p><strong>Job-to-be-Done:</strong> Plan a menu</p>" ++
        "<p><strong>Documents:</strong> A.pdf</p></div>" ++
        "<div class=\"result-section\"><h3>Extracted Sections (Top 5)</h3>" ++
        "<p>No relevant sections were extracted.</p></div>" ++
        "<div class=\"result-section\"><h3>Sub-section Analysis (Refined Text)</h3>" ++
        "<p>No sub-section analysis was performed.</p></div>") := by
  refine ⟨rfl, ?_⟩
  obtain ⟨secs, subs, h, h1, h2, -, -⟩ := displayResults_renders_both_blocks sampleEngine
    [("metadata", JsVal.obj [("persona", .str "Chef"),
      ("job_to_be_done", .str "Plan a menu"), ("input_documents", .arr [.str "A.pdf"])])]
    [("persona", .str "Chef"), ("job_to_be_done", .str "Plan a menu"),
      ("input_documents", .arr [.str "A.pdf"])] [.str "A.pdf"] rfl rfl (Or.inl rfl) (Or.inl rfl)
  rw [h, h1 (Or.inl rfl), h2 (Or.inl rfl)]
  rfl

/-! ### The message of a failed analysis -/

set_option maxRecDepth 100000 in
/-- C9, as stated, fails: a response that is not a success and whose body is not
JSON shows the message of the parse failure, not the generic message. -/
theorem unparsable_error_body_shows_parser_message :
    (run sampleEngine (init "none" "")
      [.submit, .fetchSettled 0 (.fulfilled false),
       .jsonSettled 0 (.rejected ⟨"Unexpected token < in JSON at position 0"⟩)]).resultsHtml =
      "<div class=\"error\"><strong>Error:</strong> Unexpected token < in JSON at position 0</div>" ∧
    (run sampleEngine (init "none" "")
      [.submit, .fetchSettled 0 (.fulfilled false),
       .jsonSettled 0 (.rejected ⟨"Unexpected token < in JSON at position 0"⟩)]).resultsHtml ≠
      errorHtml "An unknown error occurred." := by
  constructor
  · rfl
  · decide

/-- C9, amended: after a response that is not a success, a body that parses to a
JSON object shows its `error` string when that is a string that is not empty, and
the generic message when the field is absent, `null` or the empty string; a body
that does not parse shows the message of the parse failure. -/
theorem error_response_message (E : Engine) (s : State) (id : Nat)
    (h : s.handlers.lookup id = some .awaitFetch) :
    (∀ fields m, lookup "error" fields = .str m → m ≠ "" →
      (run E s [.fetchSettled id (.fulfilled false),
        .jsonSettled id (.fulfilled (.obj fields))]).resultsHtml = errorHtml m) ∧
    (∀ fields, lookup "error" fields = .undefined ∨ lookup "error" fields = .null ∨
        lookup "error" fields = .str "" →
      (run E s [.fetchSettled id (.fulfilled false),
        .jsonSettled id (.fulfilled (.obj fields))]).resultsHtml =
          errorHtml "An unknown error occurred.") ∧
    (∀ e, (run E s [.fetchSettled id (.fulfilled false),
        .jsonSettled id (.rejected e)]).resultsHtml = errorHtml e.message) := by
  have h1 := step_fetch_fulfilled E s id false h
  simp only [Bool.false_eq_true, if_false] at h1
  have hrun : ∀ r, run E s [.fetchSettled id (.fulfilled false), .jsonSettled id r] =
      complete (step E s (.fetchSettled id (.fulfilled false))) id
        (match r with
          | .rejected e => .error e
          | .fulfilled errorData => throwResponseError E errorData) := by
    intro r
    simp only [run, List.foldl]
    generalize step E s (.fetchSettled id (.fulfilled false)) = s1 at h1
    cases r <;> simp only [step, h1]
  have hobj : ∀ fields, throwResponseError E (.obj fields) = .error
      ⟨(if (lookup "error" fields).truthy then lookup "error" fields
        else JsVal.str "An unknown error occurred.").toStr⟩ := fun _ => rfl
  refine ⟨fun fields m hm hne => ?_, fun fields hf => ?_, fun e => ?_⟩
  · rw [hrun]
    simp [hobj, complete, hm, truthy, hne, toStr]
  · rw [hrun]
    rcases hf with hf | hf | hf <;> simp [hobj, complete, hf, truthy, toStr]
  · rw [hrun]
    rfl

/-- Witness of C9 (amended): the first submission of a page. -/
theorem error_response_message_witness :
    (step sampleEngine (init "none" "") .submit).handlers.lookup 0 = some .awaitFetch ∧
    (run sampleEngine (step sampleEngine (init "none" "") .submit)
      [.fetchSettled 0 (.fulfilled false),
       .jsonSettled 0 (.fulfilled (.obj [("error", .str "No files uploaded")]))]).resultsHtml =
      errorHtml "No files uploaded" :=
  ⟨rfl, (error_response_message sampleEngine (step sampleEngine (init "none" "") .submit) 0 rfl).1
    [("error", .str "No files uploaded")] "No files uploaded" rfl (by decide)⟩

end FlowB

/-! ## Flow A: theorems -/

namespace FlowA
open JsVal

/-! ### No artifact identifier -/

theorem step_halted (W : World) (s : State) (i : Input) (h : Halted s) : step W s i = s := by
  obtain ⟨hpc, hrows, hconts, hlisten, hnext⟩ := h
  cases i with
  | domContentLoaded f sdk => simp [step, hpc]
  | sdkReady => simp [step, onSdkReady, hlisten]
  | fetchSettled r => simp [step, hpc]
  | jsonSettled r => simp [step, hpc]
  | promiseSettled p r => simp [step, onPromiseSettled, hnext]
  | click k => simp [step, onClick, hrows]

theorem run_halted (W : World) (inputs : List Input) :
    ∀ s, Halted s → run W s inputs = s := by
  induction inputs with
  | nil => intro s _; rfl
  | cons i rest ih =>
    intro s h
    show run W (step W s i) rest = s
    rw [step_halted W s i h]
    exact ih s h

/-- C4: when the query string has no `analysis_file` parameter (or an empty
one), the `DOMContentLoaded` handler replaces the body with the help view and
that assignment is the only call the page ever makes, whatever happens
afterwards: no request, no listener on the readiness of the SDK, no viewer, no
document load. -/
theorem no_analysis_file_shows_help (W : World) (toc persona job : String) (sdkLoaded : Bool)
    (rest : List Input) :
    (run W (init toc persona job) (.domContentLoaded none sdkLoaded :: rest)).bodyHtml =
      some helpHtml ∧
    (run W (init toc persona job) (.domContentLoaded none sdkLoaded :: rest)).trace =
      [.setBodyHtml helpHtml] ∧
    (run W (init toc persona job) (.domContentLoaded none sdkLoaded :: rest)).pc = .helpShown ∧
    (run W (init toc persona job) (.domContentLoaded (some "") sdkLoaded :: rest)).trace =
      [.setBodyHtml helpHtml] := by
  have h1 : Halted (step W (init toc persona job) (.domContentLoaded none sdkLoaded)) :=
    ⟨rfl, rfl, rfl, rfl, rfl⟩
  have h2 : Halted (step W (init toc persona job) (.domContentLoaded (some "") sdkLoaded)) :=
    ⟨rfl, rfl, rfl, rfl, rfl⟩
  have e1 : run W (init toc persona job) (.domContentLoaded none sdkLoaded :: rest) =
      step W (init toc persona job) (.domContentLoaded none sdkLoaded) := run_halted W rest _ h1
  have e2 : run W (init toc persona job) (.domContentLoaded (some "") sdkLoaded :: rest) =
      step W (init toc persona job) (.domContentLoaded (some "") sdkLoaded) :=
    run_halted W rest _ h2
  rw [e1, e2]
  exact ⟨rfl, rfl, rfl, rfl⟩

/-! ### A failed retrieval -/

theorem untouched_emit (s : State) (es : List Event) (h : ViewerUntouched s)
    (hes : ∀ e ∈ es, e.isViewerConstruction = false ∧ e.isLoad = false ∧
      e.isNavigation = false) : ViewerUntouched (s.emit es) := by
  obtain ⟨h1, h2, h3, h4, h5⟩ := h
  refine ⟨h1, h2, h3, h4, ?_⟩
  intro e he
  simp only [State.emit, List.mem_append] at he
  rcases he with he | he
  · exact h5 e he
  · exact hes e he

theorem untouched_setToc (s : State) (html : String) (h : ViewerUntouched s) :
    ViewerUntouched (s.setToc html) := by
  obtain ⟨h1, h2, h3, h4, h5⟩ := h
  refine ⟨h1, rfl, h3, h4, ?_⟩
  intro e he
  simp only [State.setToc, List.mem_append, List.mem_singleton] at he
  rcases he with he | he
  · exact h5 e he
  · subst he; exact ⟨rfl, rfl, rfl⟩

theorem step_returned (W : World) (s : State) (i : Input) (hpc : s.pc = .returned)
    (h : ViewerUntouched s) :
    (step W s i).pc = .returned ∧ (step W s i).tocHtml = s.tocHtml ∧
      ViewerUntouched (step W s i) := by
  have h' := h
  obtain ⟨h1, h2, h3, h4, h5⟩ := h
  cases i with
  | domContentLoaded f sdk => simp only [step, hpc]; exact ⟨trivial, trivial, h'⟩
  | sdkReady =>
    simp only [step, onSdkReady]
    by_cases hl : s.listening
    · simp only [hl, Bool.not_true, Bool.false_eq_true, if_false, State.emit, hpc]
      refine ⟨trivial, trivial, h1, h2, h3, h4, ?_⟩
      intro e he
      simp only [List.mem_append, List.mem_cons, List.mem_singleton, List.not_mem_nil,
        or_false] at he
      rcases he with he | he | he
      · exact h5 e he
      · subst he; exact ⟨rfl, rfl, rfl⟩
      · subst he; exact ⟨rfl, rfl, rfl⟩
    · simp only [hl, Bool.not_false, if_true]; exact ⟨hpc, trivial, h'⟩
  | fetchSettled r => simp only [step, hpc]; exact ⟨trivial, trivial, h'⟩
  | jsonSettled r => simp only [step, hpc]; exact ⟨trivial, trivial, h'⟩
  | promiseSettled p r =>
    simp only [step, onPromiseSettled, h4, Nat.not_lt_zero, decide_False, Bool.false_and,
      Bool.false_eq_true, if_false]
    exact ⟨hpc, trivial, h'⟩
  | click k =>
    simp only [step, onClick, h2, List.get?_nil]
    exact ⟨hpc, trivial, h'⟩

theorem run_returned (W : World) (inputs : List Input) :
    ∀ s, s.pc = .returned → ViewerUntouched s →
      (run W s inputs).pc = .returned ∧ (run W s inputs).tocHtml = s.tocHtml ∧
        ViewerUntouched (run W s inputs) := by
  induction inputs with
  | nil => intro s hpc h; exact ⟨hpc, rfl, h⟩
  | cons i rest ih =>
    intro s hpc h
    obtain ⟨a, b, c⟩ := step_returned W s i hpc h
    obtain ⟨a2, b2, c2⟩ := ih _ a c
    exact ⟨a2, b2.trans b, c2⟩

theorem step_awaitFetch (W : World) (s : State) (i : Input) (file : String)
    (hpc : s.pc = .awaitFetch file) (hi : i.isFetchSettlement = false)
    (h : ViewerUntouched s) :
    (step W s i).pc = .awaitFetch file ∧ ViewerUntouched (step W s i) := by
  have h' := h
  obtain ⟨h1, h2, h3, h4, h5⟩ := h
  cases i with
  | domContentLoaded f sdk => simp only [step, hpc]; exact ⟨trivial, h'⟩
  | sdkReady =>
    simp only [step, onSdkReady]
    by_cases hl : s.listening
    · simp only [hl, Bool.not_true, Bool.false_eq_true, if_false, State.emit, hpc]
      refine ⟨trivial, h1, h2, h3, h4, ?_⟩
      intro e he
      simp only [List.mem_append, List.mem_cons, List.mem_singleton, List.not_mem_nil,
        or_false] at he
      rcases he with he | he | he
      · exact h5 e he
      · subst he; exact ⟨rfl, rfl, rfl⟩
      · subst he; exact ⟨rfl, rfl, rfl⟩
    · simp only [hl, Bool.not_false, if_true]; exact ⟨hpc, h'⟩
  | fetchSettled r => simp [Input.isFetchSettlement] at hi
  | jsonSettled r => simp only [step, hpc]; exact ⟨trivial, h'⟩
  | promiseSettled p r =>
    simp only [step, onPromiseSettled, h4, Nat.not_lt_zero, decide_False, Bool.false_and,
      Bool.false_eq_true, if_false]
    exact ⟨hpc, h'⟩
  | click k =>
    simp only [step, onClick, h2, List.get?_nil]
    exact ⟨hpc, h'⟩

theorem run_awaitFetch (W : World) (file : String) (inputs : List Input) :
    ∀ s, s.pc = .awaitFetch file → (∀ i ∈ inputs, i.isFetchSettlement = false) →
      ViewerUntouched s →
      (run W s inputs).pc = .awaitFetch file ∧ ViewerUntouched (run W s inputs) := by
  induction inputs with
  | nil => intro s hpc _ h; exact ⟨hpc, h⟩
  | cons i rest ih =>
    intro s hpc hi h
    obtain ⟨a, c⟩ := step_awaitFetch W s i file hpc (hi i (List.mem_cons_self _ _)) h
    exact ih _ a (fun j hj => hi j (List.mem_cons_of_mem _ hj)) c

theorem domContentLoaded_awaitFetch (W : World) (toc persona job file : String)
    (sdkLoaded : Bool) (hfile : file ≠ "") :
    (step W (init toc persona job) (.domContentLoaded (some file) sdkLoaded)).pc =
      .awaitFetch file ∧
    ViewerUntouched (step W (init toc persona job) (.domContentLoaded (some file) sdkLoaded)) := by
  cases sdkLoaded <;>
  · simp only [step, init, onDomContentLoaded, hfile, if_false, State.emit,
      fetchAnalysisDataCall, Bool.false_eq_true, if_true]
    refine ⟨trivial, rfl, rfl, rfl, rfl, ?_⟩
    simp [Event.isViewerConstruction, Event.isLoad, Event.isNavigation]

/-- C3: when the request for `/output/<identifier>` is answered with a status
that is not a success, `fetchAnalysisData` returns `null` (no exception leaves
it), `smart-toc` shows the message with the reason, `main` returns, and whatever
happens before the answer and after it, no `AdobeDC.View` is constructed and no
document load is requested. -/
theorem failed_fetch_reports_and_stops (W : World) (toc persona job file : String)
    (sdkLoaded : Bool) (hfile : file ≠ "") (mid rest : List Input)
    (hmid : ∀ i ∈ mid, i.isFetchSettlement = false) :
    (∀ s0, (fetchAnalysisDataAfterFetch s0 file (.fulfilled false)).2 = .ok (some .null)) ∧
    (run W (init toc persona job) (.domContentLoaded (some file) sdkLoaded :: mid ++
      .fetchSettled (.fulfilled false) :: rest)).tocHtml =
        "<div class=\"loader\" style=\"color: red;\">Error: File not found in /output/ folder: " ++
          file ++ "</div>" ∧
    (run W (init toc persona job) (.domContentLoaded (some file) sdkLoaded :: mid ++
      .fetchSettled (.fulfilled false) :: rest)).pc = .returned ∧
    (run W (init toc persona job) (.domContentLoaded (some file) sdkLoaded :: mid ++
      .fetchSettled (.fulfilled false) :: rest)).viewer = false ∧
    ∀ e ∈ (run W (init toc persona job) (.domContentLoaded (some file) sdkLoaded :: mid ++
      .fetchSettled (.fulfilled false) :: rest)).trace,
        e.isViewerConstruction = false ∧ e.isLoad = false := by
  refine ⟨fun _ => rfl, ?_⟩
  obtain ⟨hpc0, hu0⟩ := domContentLoaded_awaitFetch W toc persona job file sdkLoaded hfile
  obtain ⟨hpc1, hu1⟩ := run_awaitFetch W file mid _ hpc0 hmid hu0
  have hsplit : run W (init toc persona job) (.domContentLoaded (some file) sdkLoaded :: mid ++
      .fetchSettled (.fulfilled false) :: rest) =
      run W (step W (run W (step W (init toc persona job)
        (.domContentLoaded (some file) sdkLoaded)) mid) (.fetchSettled (.fulfilled false))) rest := by
    simp [run, List.foldl_append]
  rw [hsplit]
  generalize run W (step W (init toc persona job)
    (.domContentLoaded (some file) sdkLoaded)) mid = s1 at hpc1 hu1
  have hstep : step W s1 (.fetchSettled (.fulfilled false)) =
      { ((s1.emit [.consoleError ["Failed to fetch analysis data:",
            "File not found in /output/ folder: " ++ file]]).setToc
          (fetchErrorHtml ("File not found in /output/ folder: " ++ file))).emit
          [.consoleError ["Stopping main function because analysis data is null."]] with
        pc := .returned } := by
    simp [step, hpc1, fetchAnalysisDataAfterFetch, fetchAnalysisDataCatch, mainAfterFetchData,
      mainAfterData, truthy, endMain]
  have hu2 : ViewerUntouched (step W s1 (.fetchSettled (.fulfilled false))) := by
    rw [hstep]
    have := untouched_emit _ [.consoleError ["Stopping main function because analysis data is null."]]
      (untouched_setToc _ (fetchErrorHtml ("File not found in /output/ folder: " ++ file))
        (untouched_emit s1 [.consoleError ["Failed to fetch analysis data:",
            "File not found in /output/ folder: " ++ file]] hu1
          (by intro e he; simp at he; subst he; exact ⟨rfl, rfl, rfl⟩)))
      (by intro e he; simp at he; subst he; exact ⟨rfl, rfl, rfl⟩)
    exact this
  have hpc2 : (step W s1 (.fetchSettled (.fulfilled false))).pc = .returned := by rw [hstep]
  have htoc2 : (step W s1 (.fetchSettled (.fulfilled false))).tocHtml =
      fetchErrorHtml ("File not found in /output/ folder: " ++ file) := by rw [hstep]; rfl
  obtain ⟨a, b, c⟩ := run_returned W rest _ hpc2 hu2
  refine ⟨?_, a, c.1, fun e he => ⟨(c.2.2.2.2 e he).1, (c.2.2.2.2 e he).2.1⟩⟩
  rw [b, htoc2]
  simp only [fetchErrorHtml, String.append_assoc]
  rw [← String.append_assoc]
  rfl

/-- Witness of C3: the SDK announces its readiness before the answer, and a click
and a second announcement come after it. -/
theorem failed_fetch_reports_and_stops_witness :
    ("analysis.json" ≠ "") ∧
    (∀ i ∈ [Input.sdkReady], i.isFetchSettlement = false) ∧
    (run sampleWorld (init "" "" "") (.domContentLoaded (some "analysis.json") false ::
      [Input.sdkReady] ++ .fetchSettled (.fulfilled false) ::
        [Input.click 0, Input.sdkReady])).tocHtml =
      "<div class=\"loader\" style=\"color: red;\">Error: File not found in /output/ folder: " ++
        "analysis.json" ++ "</div>" :=
  have h1 : "analysis.json" ≠ "" := by decide
  have h2 : ∀ i ∈ [Input.sdkReady], i.isFetchSettlement = false := by
    intro i hi; simp at hi; subst hi; rfl
  ⟨h1, h2, (failed_fetch_reports_and_stops sampleWorld "" "" "" "analysis.json" false h1
    [Input.sdkReady] [Input.click 0, Input.sdkReady] h2).2.1⟩

end FlowA

namespace FlowA
open JsVal

/-! ### Closed forms of the two loops -/

theorem appendRows_eq (E : Engine) (items : List JsVal) :
    ∀ s, appendRows E items s =
      ({ s with
          rows := s.rows ++ (builtRows E items).1
          trace := s.trace ++ (builtRows E items).1.map (fun r => Event.appendRow r.html) },
        (builtRows E items).2) := by
  induction items with
  | nil => intro s; simp [appendRows, builtRows]
  | cons item rest ih =>
    intro s
    simp only [appendRows, builtRows]
    cases h : tocItemHtml E item with
    | error e => simp
    | ok html => simp [ih, List.append_assoc]

theorem builtRows_inactive (E : Engine) (items : List JsVal) :
    ∀ r ∈ (builtRows E items).1, r.active = false := by
  induction items with
  | nil => intro r hr; simp [builtRows] at hr
  | cons item rest ih =>
    intro r hr
    simp only [builtRows] at hr
    cases h : tocItemHtml E item with
    | error e => simp [h] at hr
    | ok html =>
      simp only [h, List.mem_cons] at hr
      rcases hr with hr | hr
      · subst hr; rfl
      · exact ih r hr

theorem resume_clickAwait (E : Engine) (p : Nat) (r : Settled Unit) (s : State) (c : Cont)
    (hc : c.isClickAwait = true) :
    resume E p r s c = s.emit [.unhandledRejection (clickOutcome E r)] := by
  cases c with
  | clickAwait q item => cases r <;> rfl
  | thenViewer q item => simp [Cont.isClickAwait] at hc
  | thenApis q item => simp [Cont.isClickAwait] at hc

theorem foldl_resume (E : Engine) (p : Nat) (r : Settled Unit) (waiting : List Cont) :
    ∀ s, (∀ c ∈ waiting, c.isClickAwait = true) →
      waiting.foldl (resume E p r) s =
        s.emit (waiting.map (fun _ => Event.unhandledRejection (clickOutcome E r))) := by
  induction waiting with
  | nil => intro s _; simp [State.emit]
  | cons c rest ih =>
    intro s h
    simp only [List.foldl_cons, List.map_cons]
    rw [resume_clickAwait E p r s c (h c (List.mem_cons_self _ _)),
      ih _ (fun d hd => h d (List.mem_cons_of_mem _ hd))]
    simp [State.emit, List.append_assoc]

theorem get_of_truthy (E : Engine) (v : JsVal) (key : String) (h : v.truthy = true) :
    v.get E key = .ok (v.getOpt key) := by
  cases v <;> first | rfl | simp [truthy] at h

theorem forEachItems_of_isArray (E : Engine) (v : JsVal) (h : v.isArray = true) :
    v.forEachItems E = .ok v.elements := by
  cases v <;> first | rfl | simp [isArray] at h

theorem populateSidebar_eq (E : Engine) (s : State) (data : JsVal) :
    populateSidebar E s data =
      if !(data.getOpt "metadata").truthy || !(data.getOpt "extracted_sections").isArray then
        (s.setToc "<div class=\"loader\">Invalid data format in JSON file.</div>", .ok ())
      else
        ({ s with
            personaText := "Persona: " ++ ((data.getOpt "metadata").getOpt "persona").toStr
            jobText := "Job: " ++ ((data.getOpt "metadata").getOpt "job_to_be_done").toStr
            tocHtml := ""
            rows := (builtRows E (data.getOpt "extracted_sections").elements).1
            trace := s.trace ++
              ([.setPersonaText ("Persona: " ++ ((data.getOpt "metadata").getOpt "persona").toStr),
               .setJobText ("Job: " ++ ((data.getOpt "metadata").getOpt "job_to_be_done").toStr),
               .setTocHtml ""] ++
              (builtRows E (data.getOpt "extracted_sections").elements).1.map
                (fun r => Event.appendRow r.html)) },
          (builtRows E (data.getOpt "extracted_sections").elements).2) := by
  simp only [populateSidebar]
  split
  · rfl
  · rename_i h
    simp only [Bool.or_eq_true, Bool.not_eq_true', not_or, Bool.not_eq_false] at h
    simp [get_of_truthy E _ _ h.1, forEachItems_of_isArray E _ h.2, appendRows_eq, State.setToc,
      List.append_assoc]

theorem core_emit (s : State) (es : List Event) (h : Core s)
    (hes : ∀ e ∈ es, e.isNavigation = false) : Core (s.emit es) := by
  obtain ⟨h1, h2, h3⟩ := h
  refine ⟨h1, ?_, h3⟩
  intro e he
  simp only [State.emit, List.mem_append] at he
  rcases he with he | he
  · exact h2 e he
  · exact hes e he

theorem core_setToc (s : State) (html : String) (h : Core s) : Core (s.setToc html) := by
  obtain ⟨h1, h2, h3⟩ := h
  refine ⟨h1, ?_, ?_⟩
  · simp [State.setToc, Event.isNavigation, or_imp, forall_and]; exact h2
  · simp [State.setToc]

theorem sound_setToc (s : State) (html : String) (h : Core s) : Sound (s.setToc html) :=
  ⟨core_setToc s html h, fun _ => rfl⟩

theorem sound_endMain (s : State) (r : Js Unit) (h : Core s) : Sound (endMain s r) := by
  cases r with
  | ok u => exact ⟨h, fun hp => by simp [endMain, Pc.ended] at hp⟩
  | error e =>
    exact ⟨core_emit s _ h (by simp [Event.isNavigation]),
      fun hp => by simp [endMain, Pc.ended] at hp⟩

theorem filter_active_builtRows (E : Engine) (items : List JsVal) :
    (builtRows E items).1.filter (fun r => r.active) = [] := by
  rw [List.filter_eq_nil_iff]
  intro r hr
  simp [builtRows_inactive E items r hr]

theorem mainAfterLoad_eq (W : World) (s : State) (data : JsVal) :
    mainAfterLoad W s data =
      endMain
        (match (populateSidebar W.engine (s.emit [.consoleLog ["Initial PDF loaded."]]) data).2 with
          | .ok _ => (populateSidebar W.engine
              (s.emit [.consoleLog ["Initial PDF loaded."]]) data).1.emit
                [.consoleLog ["Sidebar populated."]]
          | .error _ => (populateSidebar W.engine
              (s.emit [.consoleLog ["Initial PDF loaded."]]) data).1)
        (populateSidebar W.engine (s.emit [.consoleLog ["Initial PDF loaded."]]) data).2 := by
  simp only [mainAfterLoad]
  split <;> rename_i heq <;> simp [heq]

theorem core_populateSidebar (E : Engine) (s : State) (data : JsVal) (h : Core s) :
    Core (populateSidebar E s data).1 := by
  rw [populateSidebar_eq]
  split_ifs
  · exact core_setToc _ _ h
  · obtain ⟨h1, h2, h3⟩ := h
    refine ⟨h1, ?_, ?_⟩
    · simp [Event.isNavigation, or_imp, forall_and]; exact h2
    · simp [filter_active_builtRows]

theorem sound_mainAfterLoad (W : World) (s : State) (data : JsVal) (h : Core s) :
    Sound (mainAfterLoad W s data) := by
  rw [mainAfterLoad_eq]
  apply sound_endMain
  have hp := core_populateSidebar W.engine _ data
    (core_emit s [.consoleLog ["Initial PDF loaded."]] h (by simp [Event.isNavigation]))
  split
  · exact core_emit _ _ hp (by simp [Event.isNavigation])
  · exact hp

theorem core_frame (s t : State) (h : Core s) (hc : t.conts = s.conts) (hr : t.rows = s.rows)
    (ht : ∀ e ∈ t.trace, e ∈ s.trace ∨ e.isNavigation = false) : Core t := by
  obtain ⟨h1, h2, h3⟩ := h
  refine ⟨by rw [hc]; exact h1, ?_, by rw [hr]; exact h3⟩
  intro e he
  rcases ht e he with h | h
  · exact h2 e h
  · exact h

theorem initializeViewer_frame (W : World) (s : State) :
    (initializeViewer W s).conts = s.conts ∧ (initializeViewer W s).rows = s.rows ∧
    (initializeViewer W s).pc = s.pc ∧
    (initializeViewer W s).nextPromise = s.nextPromise ∧
    (∀ e ∈ (initializeViewer W s).trace, e ∈ s.trace ∨ e.isNavigation = false) := by
  simp only [initializeViewer]
  cases W.viewError <;> simp [State.emit, Event.isNavigation, or_imp, forall_and] <;>
    exact fun e he => Or.inl he

theorem mainAfterGate_eq (W : World) (s : State) (data pdf : JsVal) :
    mainAfterGate W s data pdf =
      if !(initializeViewer W s).viewer then endMain (initializeViewer W s) (.ok ())
      else { initializeViewer W s with
        pc := .awaitInitialLoad data (initializeViewer W s).nextPromise
        nextPromise := (initializeViewer W s).nextPromise + 1
        trace := (initializeViewer W s).trace ++ [.consoleLog ["Loading initial PDF..."],
          .consoleLog ["Attempting to load PDF: " ++ ("/input/" ++ pdf.toStr)],
          .previewFile (initializeViewer W s).nextPromise ("/input/" ++ pdf.toStr) pdf] } := by
  by_cases hv : (initializeViewer W s).viewer = true
  · simp [mainAfterGate, loadPdf, State.emit, hv]
  · simp [mainAfterGate, hv]

theorem sound_mainAfterGate (W : World) (s : State) (data pdf : JsVal) (h : Sound s)
    (hpc : s.pc.ended = false) : Sound (mainAfterGate W s data pdf) := by
  obtain ⟨hcore, h4⟩ := h
  have hrows := h4 hpc
  obtain ⟨f1, f2, f3, f4, f5⟩ := initializeViewer_frame W s
  have hc1 : Core (initializeViewer W s) := core_frame s _ hcore f1 f2 f5
  rw [mainAfterGate_eq]
  split_ifs
  · exact sound_endMain _ _ hc1
  · refine ⟨core_frame (initializeViewer W s) _ hc1 rfl rfl ?_, fun _ => ?_⟩
    · simp [Event.isNavigation, or_imp, forall_and]
      intro e he; exact Or.inl he
    · show (initializeViewer W s).rows = []
      rw [f2]; exact hrows

theorem sound_mainAfterData (W : World) (s : State) (data : JsVal) (h : Sound s)
    (hpc : s.pc.ended = false) : Sound (mainAfterData W s data) := by
  obtain ⟨hcore, h4⟩ := h
  have hrows := h4 hpc
  simp only [mainAfterData]
  split_ifs with ht
  · exact sound_endMain _ _ (core_emit _ _ hcore (by simp [Event.isNavigation]))
  · have hc1 := core_emit s [.consoleLog ["Analysis data fetched successfully."]] hcore
      (by simp [Event.isNavigation])
    split
    · exact sound_endMain _ _ hc1
    · split
      · split
        · exact sound_endMain _ _ hc1
        · split_ifs
          · exact sound_endMain _ _ (core_setToc _ _
              (core_emit _ _ hc1 (by simp [Event.isNavigation])))
          · apply sound_mainAfterGate
            · exact ⟨core_emit _ _ hc1 (by simp [Event.isNavigation]), fun _ => hrows⟩
            · exact hpc
          · exact ⟨core_frame s _ hcore rfl rfl (by
              simp [State.emit, Event.isNavigation, or_imp, forall_and]
              intro e he; exact Or.inl he), fun _ => hrows⟩
      · exact sound_endMain _ _ (core_setToc _ _
          (core_emit _ _ hc1 (by simp [Event.isNavigation])))

theorem sound_mainAfterFetchData (W : World) (r : State × Js (Option JsVal)) (h : Sound r.1)
    (hpc : r.1.pc.ended = false) : Sound (mainAfterFetchData W r) := by
  obtain ⟨s, res⟩ := r
  simp only [mainAfterFetchData]
  split
  all_goals rename_i heq
  all_goals simp only [Prod.mk.injEq] at heq
  all_goals obtain ⟨rfl, rfl⟩ := heq
  · exact h
  · exact sound_mainAfterData W _ _ h hpc
  · exact sound_endMain _ _ h.1

theorem sound_onDomContentLoaded (s : State) (f : Option String) (sdk : Bool) (h : Sound s)
    (hpc : s.pc = .notStarted) : Sound (onDomContentLoaded s f sdk) := by
  obtain ⟨hcore, h4⟩ := h
  have hrows : s.rows = [] := h4 (by rw [hpc]; rfl)
  have hhelp : Sound ({ s.emit [.setBodyHtml helpHtml] with
      bodyHtml := some helpHtml, rows := [], pc := .helpShown } : State) := by
    refine ⟨?_, fun _ => rfl⟩
    have := core_emit s [.setBodyHtml helpHtml] hcore (by simp [Event.isNavigation])
    exact ⟨this.1, this.2.1, by simp⟩
  cases f with
  | none => exact hhelp
  | some file =>
    simp only [onDomContentLoaded]
    split_ifs
    · exact hhelp
    · refine ⟨core_frame s _ hcore rfl rfl ?_, fun _ => hrows⟩
      simp [fetchAnalysisDataCall, State.emit, Event.isNavigation, or_imp, forall_and]
      exact fun e he => Or.inl he
    · refine ⟨core_frame s _ hcore rfl rfl ?_, fun _ => hrows⟩
      simp [fetchAnalysisDataCall, State.emit, Event.isNavigation, or_imp, forall_and]
      exact fun e he => Or.inl he

theorem sound_onSdkReady (W : World) (s : State) (h : Sound s) : Sound (onSdkReady W s) := by
  simp only [onSdkReady]
  split_ifs
  · exact h
  · have hs : Sound ({ s.emit [.consoleLog ["Adobe SDK ready event fired."], .resolveGate] with
        gateResolved := true } : State) :=
      ⟨core_frame s _ h.1 rfl rfl (by
        simp [State.emit, Event.isNavigation, or_imp, forall_and]
        exact fun e he => Or.inl he), h.2⟩
    split
    · rename_i heq
      apply sound_mainAfterGate _ _ _ _ hs
      show s.pc.ended = false
      simp only [State.emit] at heq
      rw [heq]; rfl
    · exact hs

theorem sound_fetchAnalysisDataCatch (s : State) (e : JsError) (h : Sound s)
    (hpc : s.pc.ended = false) :
    Sound (fetchAnalysisDataCatch s e).1 ∧ (fetchAnalysisDataCatch s e).1.pc.ended = false :=
  ⟨sound_setToc _ _ (core_emit _ _ h.1 (by simp [Event.isNavigation])), hpc⟩

theorem sound_fetchSettled (W : World) (s : State) (file : String) (r : Settled Bool)
    (h : Sound s) (hpc : s.pc = .awaitFetch file) :
    Sound (mainAfterFetchData W (fetchAnalysisDataAfterFetch s file r)) := by
  have hne : s.pc.ended = false := by rw [hpc]; rfl
  have hrows := h.2 hne
  cases r with
  | rejected e =>
    obtain ⟨a, b⟩ := sound_fetchAnalysisDataCatch s e h hne
    exact sound_mainAfterFetchData W _ a b
  | fulfilled ok =>
    cases ok with
    | false =>
      obtain ⟨a, b⟩ := sound_fetchAnalysisDataCatch s
        ⟨"File not found in /output/ folder: " ++ file⟩ h hne
      exact sound_mainAfterFetchData W _ a b
    | true =>
      apply sound_mainAfterFetchData
      · exact ⟨core_frame s _ h.1 rfl rfl (by
          simp [fetchAnalysisDataAfterFetch, State.emit, Event.isNavigation, or_imp, forall_and]
          exact fun e he => Or.inl he), fun _ => hrows⟩
      · rfl

theorem sound_jsonSettled (W : World) (s : State) (file : String) (r : Settled JsVal)
    (h : Sound s) (hpc : s.pc = .awaitJson file) :
    Sound (mainAfterFetchData W (fetchAnalysisDataAfterJson s r)) := by
  have hne : s.pc.ended = false := by rw [hpc]; rfl
  cases r with
  | rejected e =>
    obtain ⟨a, b⟩ := sound_fetchAnalysisDataCatch s e h hne
    exact sound_mainAfterFetchData W _ a b
  | fulfilled data => exact sound_mainAfterFetchData W _ h hne

/-! ### Clicks -/

theorem filter_active_set (row : Row) :
    ∀ (rows : List Row) (k : Nat), (∀ r ∈ rows, r.active = false) →
      ((rows.set k row).filter (fun r => r.active)).length ≤ 1
  | [], _, _ => by simp
  | r :: rest, 0, h => by
    have hrest : rest.filter (fun r => r.active) = [] := by
      rw [List.filter_eq_nil_iff]
      intro x hx
      simp [h x (List.mem_cons_of_mem _ hx)]
    simp only [List.set_cons_zero, List.filter_cons, hrest]
    split <;> simp
  | r :: rest, k + 1, h => by
    have hr : r.active = false := h r (List.mem_cons_self _ _)
    simp only [List.set_cons_succ, List.filter_cons, hr, Bool.false_eq_true, if_false]
    exact filter_active_set row rest k (fun x hx => h x (List.mem_cons_of_mem _ hx))

theorem trace_ext (t extra : List Event)
    (h : extra.all (fun e => !e.isNavigation) = true) :
    ∀ e ∈ t ++ extra, e ∈ t ∨ e.isNavigation = false := by
  intro e he
  rcases List.mem_append.1 he with he | he
  · exact Or.inl he
  · right
    have := List.all_eq_true.1 h e he
    simpa using this

theorem onClick_frame (E : Engine) (s : State) (k : Nat) (row : Row)
    (hrow : s.rows.get? k = some row) :
    (onClick E s k).rows =
      (s.rows.map (fun r => { r with active := false })).set k { row with active := true } ∧
    (onClick E s k).pc = s.pc ∧
    (∀ c ∈ (onClick E s k).conts, c ∈ s.conts ∨ c.isClickAwait = true) ∧
    (∀ e ∈ (onClick E s k).trace, e ∈ s.trace ∨ e.isNavigation = false) := by
  cases hd : row.item.get E "document" with
  | error err =>
    simp only [onClick, hrow, hd]
    refine ⟨rfl, rfl, fun c hc => Or.inl hc, ?_⟩
    simp only [State.emit, List.append_assoc]
    apply trace_ext
    simp [Event.isNavigation]
    intro x a _ _ hx; subst hx; rfl
  | ok document =>
    cases hp : row.item.get E "page_number" with
    | error err =>
      simp only [onClick, hrow, hd, hp]
      refine ⟨rfl, rfl, fun c hc => Or.inl hc, ?_⟩
      simp only [State.emit, List.append_assoc]
      apply trace_ext
      simp [Event.isNavigation]
      intro x a _ _ hx; subst hx; rfl
    | ok page =>
      by_cases hv : s.viewer = true
      · simp only [onClick, hrow, hd, hp, loadPdf, State.emit, hv, Bool.not_true,
          Bool.false_eq_true, if_false]
        refine ⟨trivial, trivial, ?_, ?_⟩
        · intro c hc
          simp only [List.mem_append, List.mem_singleton] at hc
          rcases hc with hc | hc
          · exact Or.inl hc
          · subst hc; exact Or.inr rfl
        · simp only [List.append_assoc]
          apply trace_ext
          simp [Event.isNavigation]
          intro x a _ _ hx; subst hx; rfl
      · simp only [Bool.not_eq_true] at hv
        simp only [onClick, hrow, hd, hp, loadPdf, State.emit, hv, Bool.not_false, if_true,
          callThen]
        refine ⟨trivial, trivial, fun c hc => Or.inl hc, ?_⟩
        simp only [List.append_assoc]
        apply trace_ext
        simp [Event.isNavigation]
        intro x a _ _ hx; subst hx; rfl

theorem sound_onClick (E : Engine) (s : State) (k : Nat) (h : Sound s) :
    Sound (onClick E s k) := by
  cases hrow : s.rows.get? k with
  | none => simp only [onClick, hrow]; exact h
  | some row =>
    obtain ⟨f1, f2, f3, f4⟩ := onClick_frame E s k row hrow
    obtain ⟨⟨h1, h2, h3⟩, h4⟩ := h
    refine ⟨⟨?_, ?_, ?_⟩, ?_⟩
    · intro c hc
      rcases f3 c hc with hc | hc
      · exact h1 c hc
      · exact hc
    · intro e he
      rcases f4 e he with he | he
      · exact h2 e he
      · exact he
    · rw [f1]
      apply filter_active_set
      intro r hr
      simp only [List.mem_map] at hr
      obtain ⟨x, _, rfl⟩ := hr
      rfl
    · intro hp
      rw [f2] at hp
      have := h4 hp
      rw [this] at hrow
      simp at hrow

/-! ### Promises of the widget -/

theorem sound_resumeMain (W : World) (s : State) (p : Nat) (r : Settled Unit) (h : Sound s) :
    Sound (resumeMain W s p r) ∧
      (s.pc.ended = true → (resumeMain W s p r).rows = s.rows ∧ (resumeMain W s p r).pc = s.pc) := by
  simp only [resumeMain]
  split
  · rename_i hpc
    split_ifs
    · exact ⟨sound_mainAfterLoad W s _ h.1, fun he => by rw [hpc] at he; simp [Pc.ended] at he⟩
    · exact ⟨h, fun _ => ⟨rfl, rfl⟩⟩
  · rename_i hpc
    split_ifs
    · exact ⟨sound_endMain s _ h.1, fun he => by rw [hpc] at he; simp [Pc.ended] at he⟩
    · exact ⟨h, fun _ => ⟨rfl, rfl⟩⟩
  · exact ⟨h, fun _ => ⟨rfl, rfl⟩⟩

theorem onPromiseSettled_eq (W : World) (s : State) (p : Nat) (r : Settled Unit)
    (h : Sound s) (hp : (p < s.nextPromise && (s.settlement p).isNone) = true) :
    onPromiseSettled W s p r =
      { resumeMain W { s with settled := (p, r) :: s.settled } p r with
        conts := (resumeMain W
          { s with settled := (p, r) :: s.settled } p r).conts.filter
            (fun c => c.promise != p)
        trace := (resumeMain W
            { s with settled := (p, r) :: s.settled } p r).trace ++
          ((resumeMain W
            { s with settled := (p, r) :: s.settled } p r).conts.filter
              (fun c => c.promise == p)).map
            (fun _ => Event.unhandledRejection (clickOutcome W.engine r)) } := by
  have hs1 : Sound ({ s with settled := (p, r) :: s.settled } : State) :=
    ⟨core_frame s _ h.1 rfl rfl (fun e he => Or.inl he), h.2⟩
  have ht := (sound_resumeMain W _ p r hs1).1
  simp only [onPromiseSettled, hp, if_true]
  rw [foldl_resume W.engine p r _ _ (fun c hc => ht.1.1 c (List.mem_of_mem_filter hc))]
  rfl

theorem sound_onPromiseSettled (W : World) (s : State) (p : Nat) (r : Settled Unit)
    (h : Sound s) : Sound (onPromiseSettled W s p r) ∧
      (s.pc.ended = true → (onPromiseSettled W s p r).rows = s.rows ∧
        (onPromiseSettled W s p r).pc = s.pc) := by
  by_cases hp : (p < s.nextPromise && (s.settlement p).isNone) = true
  · have hs1 : Sound ({ s with settled := (p, r) :: s.settled } :
        State) := ⟨core_frame s _ h.1 rfl rfl (fun e he => Or.inl he), h.2⟩
    obtain ⟨ht, hrows⟩ := sound_resumeMain W _ p r hs1
    rw [onPromiseSettled_eq W s p r h hp]
    refine ⟨⟨⟨?_, ?_, ht.1.2.2⟩, ht.2⟩, hrows⟩
    · intro c hc
      exact ht.1.1 c (List.mem_of_mem_filter hc)
    · intro e he
      simp only [List.mem_append, List.mem_map] at he
      rcases he with he | ⟨c, _, rfl⟩
      · exact ht.1.2.1 e he
      · rfl
  · have hno : onPromiseSettled W s p r = s := by
      simp only [onPromiseSettled, hp, if_false, Bool.false_eq_true]
    rw [hno]
    exact ⟨h, fun _ => ⟨rfl, rfl⟩⟩

/-! ### Every reachable state is sound -/

theorem sound_init (toc persona job : String) : Sound (init toc persona job) :=
  ⟨⟨fun c hc => (by cases hc), fun e he => (by cases he), (by simp [init])⟩, fun _ => rfl⟩

theorem sound_step (W : World) (s : State) (i : Input) (h : Sound s) : Sound (step W s i) := by
  cases i with
  | domContentLoaded f sdk =>
    simp only [step]
    split
    · rename_i hpc; exact sound_onDomContentLoaded s f sdk h hpc
    · exact h
  | sdkReady => exact sound_onSdkReady W s h
  | fetchSettled r =>
    simp only [step]
    split
    · rename_i file hpc; exact sound_fetchSettled W s file r h hpc
    · exact h
  | jsonSettled r =>
    simp only [step]
    split
    · rename_i file hpc; exact sound_jsonSettled W s file r h hpc
    · exact h
  | promiseSettled p r => exact (sound_onPromiseSettled W s p r h).1
  | click k => exact sound_onClick W.engine s k h

theorem sound_run (W : World) (inputs : List Input) :
    ∀ s, Sound s → Sound (run W s inputs) := by
  induction inputs with
  | nil => intro s h; exact h
  | cons i rest ih => intro s h; exact ih _ (sound_step W s i h)

theorem step_keeps_rows (W : World) (s : State) (i : Input) (h : Sound s)
    (hpc : s.pc.ended = true) (hi : i.isClick = false) :
    (step W s i).rows = s.rows ∧ (step W s i).pc = s.pc := by
  cases i with
  | domContentLoaded f sdk =>
    simp only [step]
    split
    · rename_i hn; rw [hn] at hpc; simp [Pc.ended] at hpc
    · exact ⟨rfl, rfl⟩
  | sdkReady =>
    simp only [step, onSdkReady]
    split_ifs
    · exact ⟨rfl, rfl⟩
    · split
      · rename_i heq
        simp only [State.emit] at heq
        rw [heq] at hpc; simp [Pc.ended] at hpc
      · exact ⟨rfl, rfl⟩
  | fetchSettled r =>
    simp only [step]
    split
    · rename_i hn; rw [hn] at hpc; simp [Pc.ended] at hpc
    · exact ⟨rfl, rfl⟩
  | jsonSettled r =>
    simp only [step]
    split
    · rename_i hn; rw [hn] at hpc; simp [Pc.ended] at hpc
    · exact ⟨rfl, rfl⟩
  | promiseSettled p r => exact (sound_onPromiseSettled W s p r h).2 hpc
  | click k => simp [Input.isClick] at hi

theorem run_keeps_rows (W : World) (inputs : List Input) :
    ∀ s, Sound s → s.pc.ended = true → (∀ i ∈ inputs, i.isClick = false) →
      (run W s inputs).rows = s.rows := by
  induction inputs with
  | nil => intro s _ _ _; rfl
  | cons i rest ih =>
    intro s h hpc hi
    obtain ⟨a, b⟩ := step_keeps_rows W s i h hpc (hi i (List.mem_cons_self _ _))
    have := ih (step W s i) (sound_step W s i h) (by rw [b]; exact hpc)
      (fun j hj => hi j (List.mem_cons_of_mem _ hj))
    exact this.trans a

end FlowA

namespace FlowA
open JsVal

/-! ### The claims on clicks -/

set_option maxRecDepth 100000 in
/-- C1 (the code departs from it): no run of the navigator ever calls
`gotoLocation`.  In the walk-through of the specification, the click on the
second row requests the load of `/input/B.pdf`; when that load fulfils, the
handler calls `then` on the viewer object that `await` gave it, which throws,
and the click ends as an unhandled rejection with no navigation requested. -/
theorem click_never_navigates :
    (∀ (W : World) (toc persona job : String) (inputs : List Input),
      ∀ e ∈ (run W (init toc persona job) inputs).trace, e.isNavigation = false) ∧
    ((run sampleWorld (init "" "" "") (sampleStart ++ [.click 1])).trace.filterMap
      Event.loadUrl? = ["/input/A.pdf", "/input/B.pdf"]) ∧
    ((run sampleWorld (init "" "" "")
      (sampleStart ++ [.click 1, .promiseSettled 1 (.fulfilled ())])).trace.filterMap
      Event.rejectionMessage? = ["then is not a function"]) ∧
    ((run sampleWorld (init "" "" "")
      (sampleStart ++ [.click 1, .promiseSettled 1 (.fulfilled ())])).trace.any
      Event.isNavigation = false) := by
  refine ⟨fun W toc persona job inputs =>
    (sound_run W inputs _ (sound_init toc persona job)).1.2.1, ?_, ?_, ?_⟩
  · decide
  · decide
  · decide

theorem click_rows_active (E : Engine) (s : State) (k j : Nat) (hk : k < s.rows.length)
    (hj : j < s.rows.length) :
    ((onClick E s k).rows[j]?).map (fun r => r.active) = some (decide (j = k)) := by
  have hrow : s.rows.get? k = some (s.rows.get ⟨k, hk⟩) := List.get?_eq_get hk
  rw [(onClick_frame E s k _ hrow).1, List.getElem?_set]
  by_cases hjk : k = j
  · subst hjk
    simp [hk]
  · have hjk2 : ¬ j = k := fun h => hjk h.symm
    simp [hjk, hjk2, hj]

/-- C10: in every reachable state of the navigator at most one row is active;
a click on an existing row `k` leaves row `k` active and every other row
inactive, with the same rows; and until the next click the rows stay as they
are, whatever inputs follow (the load the click started fulfilling, rejecting or
never settling among them). -/
theorem one_active_row (W : World) (toc persona job : String) (inputs : List Input) :
    ((run W (init toc persona job) inputs).rows.filter (fun r => r.active)).length ≤ 1 ∧
    ∀ k, k < (run W (init toc persona job) inputs).rows.length →
      (step W (run W (init toc persona job) inputs) (.click k)).rows.length =
        (run W (init toc persona job) inputs).rows.length ∧
      (∀ j, j < (run W (init toc persona job) inputs).rows.length →
        ((step W (run W (init toc persona job) inputs) (.click k)).rows[j]?).map
          (fun r => r.active) = some (decide (j = k))) ∧
      ∀ later : List Input, (∀ i ∈ later, i.isClick = false) →
        (run W (step W (run W (init toc persona job) inputs) (.click k)) later).rows =
          (step W (run W (init toc persona job) inputs) (.click k)).rows := by
  have hs := sound_run W inputs _ (sound_init toc persona job)
  generalize run W (init toc persona job) inputs = s at hs
  refine ⟨hs.1.2.2, fun k hk => ?_⟩
  have hrow : s.rows.get? k = some (s.rows.get ⟨k, hk⟩) := List.get?_eq_get hk
  obtain ⟨f1, f2, -, -⟩ := onClick_frame W.engine s k _ hrow
  have hended : s.pc.ended = true := by
    by_contra hne
    simp only [Bool.not_eq_true] at hne
    have := hs.2 hne
    rw [this] at hk
    simp at hk
  refine ⟨?_, fun j hj => click_rows_active W.engine s k j hk hj, fun later hlater => ?_⟩
  · show (onClick W.engine s k).rows.length = _
    rw [f1]; simp
  · apply run_keeps_rows W later _ (sound_step W s (.click k) hs) _ hlater
    show (onClick W.engine s k).pc.ended = true
    rw [f2]; exact hended

set_option maxRecDepth 100000 in
/-- Witness of C10: in the walk-through, the second row is clicked after the
first one, and the load that the click started is rejected. -/
theorem one_active_row_witness :
    (1 < (run sampleWorld (init "" "" "") (sampleStart ++ [.click 0])).rows.length) ∧
    (∀ i ∈ [Input.promiseSettled 2 (.rejected ⟨"load failed"⟩)], i.isClick = false) ∧
    ((run sampleWorld (step sampleWorld
        (run sampleWorld (init "" "" "") (sampleStart ++ [.click 0])) (.click 1))
        [Input.promiseSettled 2 (.rejected ⟨"load failed"⟩)]).rows.map (fun r => r.active) =
      [false, true]) := by
  have h1 : 1 < (run sampleWorld (init "" "" "") (sampleStart ++ [.click 0])).rows.length := by
    decide
  have h2 : ∀ i ∈ [Input.promiseSettled 2 (.rejected ⟨"load failed"⟩)], i.isClick = false := by
    intro i hi; simp at hi; subst hi; rfl
  refine ⟨h1, h2, ?_⟩
  have h3 := ((one_active_row sampleWorld "" "" "" (sampleStart ++ [Input.click 0])).2 1 h1).2.2
    [Input.promiseSettled 2 (.rejected ⟨"load failed"⟩)] h2
  rw [h3]
  decide

end FlowA
namespace FlowA
open JsVal

/-! ### The order of the steps of `main` -/

theorem orderedFrom_append (p q : Event → Bool) (t extra : List Event) :
    ∀ seen, orderedFrom p q seen (t ++ extra) =
      (orderedFrom p q seen t && orderedFrom p q (seen || t.any p) extra) := by
  induction t with
  | nil => intro seen; simp [orderedFrom]
  | cons e rest ih =>
    intro seen
    rw [List.cons_append]
    simp only [orderedFrom]
    rw [ih]
    simp only [List.any_cons, Bool.and_assoc, Bool.or_assoc]

theorem orderedFrom_seen (p q : Event → Bool) (t : List Event) :
    orderedFrom p q true t = true := by
  induction t with
  | nil => rfl
  | cons e rest ih => simp [orderedFrom, ih]

theorem orderedFrom_none (p q : Event → Bool) (t : List Event) (h : t.all (fun e => !q e) = true) :
    ∀ seen, orderedFrom p q seen t = true := by
  induction t with
  | nil => intro _; rfl
  | cons e rest ih =>
    intro seen
    simp only [List.all_cons, Bool.and_eq_true, Bool.not_eq_true'] at h
    simp [orderedFrom, h.1, ih h.2]

theorem precedes_append (p q : Event → Bool) (t extra : List Event) (h : Precedes p q t)
    (hx : orderedFrom p q (t.any p) extra = true) : Precedes p q (t ++ extra) := by
  unfold Precedes at *
  rw [orderedFrom_append, h]
  simpa using hx

theorem isFree_spec (e : Event) (h : e.isFree = true) :
    e.isValidated = false ∧ e.isGateWait = false ∧ e.isViewerConstruction = false ∧
      e.isLoad = false ∧ e.isSidebar = false := by
  simp only [Event.isFree, Bool.and_eq_true, Bool.not_eq_true'] at h
  exact ⟨h.1.1.1.1, h.1.1.1.2, h.1.1.2, h.1.2, h.2⟩

theorem keepsOrder_free (t extra : List Event) (h : extra.all Event.isFree = true) :
    KeepsOrder t extra := by
  have hq : ∀ e ∈ extra, e.isValidated = false ∧ e.isGateWait = false ∧
      e.isViewerConstruction = false ∧ e.isLoad = false ∧ e.isSidebar = false :=
    fun e he => isFree_spec e (List.all_eq_true.1 h e he)
  refine ⟨?_, ?_, ?_, ?_, ?_, ?_, ?_⟩
  all_goals apply orderedFrom_none
  all_goals rw [List.all_eq_true]
  all_goals intro e he
  · simp [(hq e he).1]
  · simp [(hq e he).2.1]
  · simp [(hq e he).2.2.1]
  · simp [(hq e he).2.2.1]
  · simp [(hq e he).2.2.1]
  · simp [(hq e he).2.2.2.1]
  · simp [(hq e he).2.2.2.2]

theorem keepsOrder_append (t a b : List Event) (ha : KeepsOrder t a)
    (hb : KeepsOrder (t ++ a) b) : KeepsOrder t (a ++ b) := by
  obtain ⟨a1, a2, a3, a4, a5, a6, a7⟩ := ha
  obtain ⟨b1, b2, b3, b4, b5, b6, b7⟩ := hb
  simp only [List.any_append] at b1 b2 b3 b4 b5 b6 b7
  refine ⟨?_, ?_, ?_, ?_, ?_, ?_, ?_⟩
  all_goals rw [orderedFrom_append, Bool.and_eq_true]
  · exact ⟨a1, b1⟩
  · exact ⟨a2, b2⟩
  · exact ⟨a3, b3⟩
  · exact ⟨a4, b4⟩
  · exact ⟨a5, b5⟩
  · exact ⟨a6, b6⟩
  · exact ⟨a7, b7⟩

theorem keepsOrder_one (t : List Event) (e : Event)
    (h1 : e.isValidated = true → t.any Event.isFetch = true)
    (h2 : e.isGateWait = true → t.any Event.isValidated = true)
    (h3 : e.isViewerConstruction = true → t.any Event.isValidated = true ∧
      t.any Event.isGateWait = true ∧ t.any Event.isGateResolution = true)
    (h4 : e.isLoad = true → t.any Event.isViewerConstruction = true)
    (h5 : e.isSidebar = true → t.any Event.isLoad = true) : KeepsOrder t [e] := by
  have key : ∀ (q : Bool) (seen seen2 : Bool), (q = true → seen = true) →
      ((!q || seen) && true) = true := by
    intro q seen _ hq
    cases q
    · rfl
    · simp [hq rfl]
  refine ⟨?_, ?_, ?_, ?_, ?_, ?_, ?_⟩
  all_goals simp only [orderedFrom]
  · exact key _ _ true h1
  · exact key _ _ true h2
  · exact key _ _ true (fun h => (h3 h).1)
  · exact key _ _ true (fun h => (h3 h).2.1)
  · exact key _ _ true (fun h => (h3 h).2.2)
  · exact key _ _ true h4
  · exact key _ _ true h5

theorem isGateWait_attempt (u : String) :
    Event.isGateWait (.consoleLog ["Attempting to load PDF: " ++ u]) = false := by
  have h : "Attempting to load PDF: " ++ u ≠ "Waiting for Adobe DC View SDK to be ready..." := by
    intro h
    have h2 := congrArg (fun s => s.data.get? 0) h
    simp only [String.data_append] at h2
    simp [List.get?] at h2
  simpa [Event.isGateWait] using h

theorem isGateWait_loading (a b : String) :
    Event.isGateWait (.consoleLog ["Loading " ++ a ++ " and navigating to page " ++ b]) =
      false := by
  have h : "Loading " ++ a ++ " and navigating to page " ++ b ≠
      "Waiting for Adobe DC View SDK to be ready..." := by
    intro h
    have h2 := congrArg (fun s => s.data.get? 0) h
    simp only [String.data_append, List.append_assoc] at h2
    simp [List.get?] at h2
  simpa [Event.isGateWait] using h

theorem isFree_attempt (u : String) :
    (Event.consoleLog ["Attempting to load PDF: " ++ u]).isFree = true := by
  simp [Event.isFree, isGateWait_attempt, Event.isValidated, Event.isViewerConstruction,
    Event.isLoad, Event.isSidebar]

theorem isFree_loading (a b : String) :
    (Event.consoleLog ["Loading " ++ a ++ " and navigating to page " ++ b]).isFree = true := by
  simp [Event.isFree, isGateWait_loading, Event.isValidated, Event.isViewerConstruction,
    Event.isLoad, Event.isSidebar]

theorem isSidebar_fetchError (m : String) :
    Event.isSidebar (.setTocHtml (fetchErrorHtml m)) = false := by
  have h1 : fetchErrorHtml m ≠ "" := by
    intro h
    have := congrArg String.length h
    simp only [fetchErrorHtml, String.length_append] at this
    have h6 : "</div>".length = 6 := rfl
    have h0 : "".length = 0 := rfl
    omega
  have h2 : fetchErrorHtml m ≠ "<div class=\"loader\">Invalid data format in JSON file.</div>" := by
    intro h
    have h2 := congrArg (fun s => s.data.get? 19) h
    simp only [fetchErrorHtml, String.data_append, List.append_assoc] at h2
    simp [List.get?] at h2
  simp [Event.isSidebar, h1, h2]

theorem inOrder_frame (s t : State) (extra : List Event) (h : InOrder s)
    (htr : t.trace = s.trace ++ extra) (hk : KeepsOrder s.trace extra)
    (hf : (∃ f, t.pc = .awaitFetch f ∨ t.pc = .awaitJson f) →
      s.trace.any Event.isFetch = true ∨ extra.any Event.isFetch = true)
    (hv : (∃ d i, t.pc = .awaitGate d i) →
      (s.trace.any Event.isValidated = true ∨ extra.any Event.isValidated = true) ∧
      (s.trace.any Event.isGateWait = true ∨ extra.any Event.isGateWait = true))
    (hg : t.gateResolved = true →
      s.gateResolved = true ∨ extra.any Event.isGateResolution = true)
    (hw : t.viewer = true → s.viewer = true ∨ extra.any Event.isViewerConstruction = true)
    (hl : (∃ d p, t.pc = .awaitInitialLoad d p) →
      s.trace.any Event.isLoad = true ∨ extra.any Event.isLoad = true) :
    InOrder t where
  fetch_validated := by rw [htr]; exact precedes_append _ _ _ _ h.fetch_validated hk.1
  validated_wait := by rw [htr]; exact precedes_append _ _ _ _ h.validated_wait hk.2.1
  validated_view := by rw [htr]; exact precedes_append _ _ _ _ h.validated_view hk.2.2.1
  wait_view := by rw [htr]; exact precedes_append _ _ _ _ h.wait_view hk.2.2.2.1
  gate_view := by rw [htr]; exact precedes_append _ _ _ _ h.gate_view hk.2.2.2.2.1
  view_load := by rw [htr]; exact precedes_append _ _ _ _ h.view_load hk.2.2.2.2.2.1
  load_sidebar := by rw [htr]; exact precedes_append _ _ _ _ h.load_sidebar hk.2.2.2.2.2.2
  fetched := fun hp => by
    rw [htr, List.any_append, Bool.or_eq_true]; exact hf hp
  validated := fun hp => by
    rw [htr, List.any_append, Bool.or_eq_true]; exact (hv hp).1
  waiting := fun hp => by
    rw [htr, List.any_append, Bool.or_eq_true]; exact (hv hp).2
  gate := fun hp => by
    rw [htr, List.any_append, Bool.or_eq_true]
    exact (hg hp).imp h.gate id
  view := fun hp => by
    rw [htr, List.any_append, Bool.or_eq_true]
    exact (hw hp).imp h.view id
  loaded := fun hp => by
    rw [htr, List.any_append, Bool.or_eq_true]; exact hl hp

/-- The frame for a state in which `main` is not suspended. -/
theorem inOrder_idle (s t : State) (extra : List Event) (h : InOrder s)
    (htr : t.trace = s.trace ++ extra) (hk : KeepsOrder s.trace extra)
    (hpc : t.pc.ended = true ∨ t.pc = .helpShown)
    (hg : t.gateResolved = s.gateResolved) (hw : t.viewer = s.viewer) : InOrder t := by
  refine inOrder_frame s t extra h htr hk ?_ ?_ (fun hp => Or.inl (by rw [← hg]; exact hp))
    (fun hp => Or.inl (by rw [← hw]; exact hp)) ?_
  · rintro ⟨f, hf | hf⟩ <;> rw [hf] at hpc <;> rcases hpc with hpc | hpc <;> cases hpc
  · rintro ⟨d, i, hf⟩; rw [hf] at hpc; rcases hpc with hpc | hpc <;> cases hpc
  · rintro ⟨d, i, hf⟩; rw [hf] at hpc; rcases hpc with hpc | hpc <;> cases hpc

theorem inOrder_endMain (s : State) (r : Js Unit) (h : InOrder s) : InOrder (endMain s r) := by
  cases r with
  | ok u =>
    exact inOrder_idle s _ [] h (by simp [endMain]) (keepsOrder_free _ _ rfl) (Or.inl rfl)
      rfl rfl
  | error e =>
    exact inOrder_idle s _ [.unhandledRejection e] h rfl (keepsOrder_free _ _ rfl) (Or.inl rfl)
      rfl rfl

theorem inOrder_same (s t : State) (extra : List Event) (h : InOrder s)
    (htr : t.trace = s.trace ++ extra) (hpc : t.pc = s.pc) (hg : t.gateResolved = s.gateResolved)
    (hw : t.viewer = s.viewer) (hk : KeepsOrder s.trace extra) : InOrder t :=
  inOrder_frame s t extra h htr hk
    (fun hp => Or.inl (h.fetched (by rw [← hpc]; exact hp)))
    (fun hp => ⟨Or.inl (h.validated (by rw [← hpc]; exact hp)),
      Or.inl (h.waiting (by rw [← hpc]; exact hp))⟩)
    (fun hp => Or.inl (by rw [← hg]; exact hp))
    (fun hp => Or.inl (by rw [← hw]; exact hp))
    (fun hp => Or.inl (h.loaded (by rw [← hpc]; exact hp)))

theorem inOrder_setToc (s : State) (html : String) (h : InOrder s)
    (hne : Event.isSidebar (.setTocHtml html) = false) : InOrder (s.setToc html) :=
  inOrder_same s _ [.setTocHtml html] h rfl rfl rfl rfl
    (keepsOrder_free _ _ (by simp [Event.isFree, hne, Event.isValidated, Event.isGateWait,
      Event.isViewerConstruction, Event.isLoad]))

theorem inOrder_free (s : State) (es : List Event) (h : InOrder s)
    (hes : es.all Event.isFree = true) : InOrder (s.emit es) :=
  inOrder_same s _ es h rfl rfl rfl rfl (keepsOrder_free _ _ hes)

theorem inOrder_populateSidebar (E : Engine) (s : State) (data : JsVal) (h : InOrder s)
    (hl : s.trace.any Event.isLoad = true) : InOrder (populateSidebar E s data).1 := by
  rw [populateSidebar_eq]
  split_ifs
  · exact inOrder_same s _ [.setTocHtml _] h rfl rfl rfl rfl
      (keepsOrder_one _ _ (fun hx => by cases hx) (fun hx => by cases hx)
        (fun hx => by cases hx) (fun hx => by cases hx) (fun _ => hl))
  · refine inOrder_same s _ _ h rfl rfl rfl rfl ⟨?_, ?_, ?_, ?_, ?_, ?_, ?_⟩
    all_goals rw [orderedFrom_append]
    all_goals simp only [Bool.and_eq_true]
    · exact ⟨rfl, orderedFrom_none _ _ _ (by simp [Event.isValidated]) _⟩
    · exact ⟨rfl, orderedFrom_none _ _ _ (by simp [Event.isGateWait]) _⟩
    · exact ⟨rfl, orderedFrom_none _ _ _ (by simp [Event.isViewerConstruction]) _⟩
    · exact ⟨rfl, orderedFrom_none _ _ _ (by simp [Event.isViewerConstruction]) _⟩
    · exact ⟨rfl, orderedFrom_none _ _ _ (by simp [Event.isViewerConstruction]) _⟩
    · exact ⟨rfl, orderedFrom_none _ _ _ (by simp [Event.isLoad]) _⟩
    · rw [hl]; exact ⟨rfl, orderedFrom_seen _ _ _⟩

theorem any_emit (s : State) (es : List Event) (p : Event → Bool)
    (h : s.trace.any p = true) : (s.emit es).trace.any p = true := by
  simp only [State.emit, List.any_append, h, Bool.true_or]

theorem inOrder_mainAfterLoad (W : World) (s : State) (data : JsVal) (h : InOrder s)
    (hl : s.trace.any Event.isLoad = true) : InOrder (mainAfterLoad W s data) := by
  rw [mainAfterLoad_eq]
  apply inOrder_endMain
  have hp := inOrder_populateSidebar W.engine _ data
    (inOrder_free s [.consoleLog ["Initial PDF loaded."]] h rfl) (any_emit s _ _ hl)
  split
  · exact inOrder_free _ _ hp rfl
  · exact hp

theorem inOrder_initializeViewer (W : World) (s : State) (h : InOrder s)
    (hv : s.trace.any Event.isValidated = true) (hq : s.trace.any Event.isGateWait = true)
    (hg : s.trace.any Event.isGateResolution = true) : InOrder (initializeViewer W s) := by
  have hone : KeepsOrder s.trace [Event.newView ADOBE_CLIENT_ID "adobe-dc-view"] :=
    keepsOrder_one _ _ (fun hx => by cases hx) (fun hx => by cases hx)
      (fun _ => ⟨hv, hq, hg⟩) (fun hx => by cases hx) (fun hx => by cases hx)
  simp only [initializeViewer]
  cases W.viewError with
  | none =>
    refine inOrder_frame s _ ([Event.newView ADOBE_CLIENT_ID "adobe-dc-view"] ++
      [Event.consoleLog ["AdobeDC.View initialized successfully."]]) h ?_
      (keepsOrder_append _ _ _ hone (keepsOrder_free _ _ rfl))
      (fun hp => Or.inl (h.fetched hp))
      (fun hp => ⟨Or.inl (h.validated hp), Or.inl (h.waiting hp)⟩)
      (fun hp => Or.inl hp) (fun _ => Or.inr rfl) (fun hp => Or.inl (h.loaded hp))
    simp [State.emit]
  | some e =>
    refine inOrder_frame s _ ([Event.newView ADOBE_CLIENT_ID "adobe-dc-view"] ++
      [Event.consoleError ["Error initializing AdobeDC.View. Check your Client ID.", e.message],
      Event.alert "Error initializing PDF viewer. Please check your Adobe Client ID in script.js."])
      h ?_ (keepsOrder_append _ _ _ hone (keepsOrder_free _ _ rfl))
      (fun hp => Or.inl (h.fetched hp))
      (fun hp => ⟨Or.inl (h.validated hp), Or.inl (h.waiting hp)⟩)
      (fun hp => Or.inl hp) (fun _ => Or.inr rfl) (fun hp => Or.inl (h.loaded hp))
    simp [State.emit]

theorem inOrder_mainAfterGate (W : World) (s : State) (data pdf : JsVal) (h : InOrder s)
    (hv : s.trace.any Event.isValidated = true) (hq : s.trace.any Event.isGateWait = true)
    (hg : s.trace.any Event.isGateResolution = true) :
    InOrder (mainAfterGate W s data pdf) := by
  have hi := inOrder_initializeViewer W s h hv hq hg
  rw [mainAfterGate_eq]
  split_ifs with hview
  · exact inOrder_endMain _ _ hi
  · simp only [Bool.not_eq_true', Bool.not_eq_false] at hview
    refine inOrder_frame (initializeViewer W s) _ ([Event.consoleLog ["Loading initial PDF..."],
      Event.consoleLog ["Attempting to load PDF: " ++ ("/input/" ++ pdf.toStr)]] ++
      [Event.previewFile (initializeViewer W s).nextPromise ("/input/" ++ pdf.toStr) pdf]) hi rfl
      (keepsOrder_append _ _ _ (keepsOrder_free _ _ ?_) (keepsOrder_one _ _
        (fun hx => by cases hx) (fun hx => by cases hx) (fun hx => by cases hx)
        (fun _ => by rw [List.any_append, hi.view hview]; rfl) (fun hx => by cases hx)))
      ?_ ?_ (fun hp => Or.inl hp) (fun hp => Or.inl hp) (fun _ => Or.inr rfl)
    · rw [List.all_cons, List.all_cons, isFree_attempt]; rfl
    · rintro ⟨f, hf | hf⟩ <;> cases hf
    · rintro ⟨d, i, hf⟩; cases hf

theorem inOrder_mainAfterData (W : World) (s : State) (data : JsVal) (h : InOrder s)
    (hf : s.trace.any Event.isFetch = true) : InOrder (mainAfterData W s data) := by
  simp only [mainAfterData]
  split_ifs with ht
  · exact inOrder_endMain _ _ (inOrder_free s _ h rfl)
  · have h1 := inOrder_free s [.consoleLog ["Analysis data fetched successfully."]] h rfl
    have hf1 := any_emit s [.consoleLog ["Analysis data fetched successfully."]] _ hf
    split
    · exact inOrder_endMain _ _ h1
    · split
      · split
        · exact inOrder_endMain _ _ h1
        · rename_i initialPdf _
          have h2 : InOrder ((s.emit [.consoleLog ["Analysis data fetched successfully."]]).emit
              ([Event.consoleLog ["Initial PDF to load:", initialPdf.toStr]] ++
                [Event.consoleLog ["Waiting for Adobe DC View SDK to be ready..."]])) := by
            refine inOrder_same _ _ _ h1 rfl rfl rfl rfl (keepsOrder_append _ _ _
              (keepsOrder_one _ _ (fun _ => hf1) (fun hx => by cases hx) (fun hx => by cases hx)
                (fun hx => by cases hx) (fun hx => by cases hx))
              (keepsOrder_one _ _ (fun hx => by cases hx)
                (fun _ => by rw [List.any_append]; simp [Event.isValidated])
                (fun hx => by cases hx) (fun hx => by cases hx) (fun hx => by cases hx)))
          have hv2 : ((s.emit [.consoleLog ["Analysis data fetched successfully."]]).emit
              ([Event.consoleLog ["Initial PDF to load:", initialPdf.toStr]] ++
                [Event.consoleLog ["Waiting for Adobe DC View SDK to be ready..."]])).trace.any
                  Event.isValidated = true := by
            simp only [State.emit, List.any_append, Bool.or_eq_true]
            right; left; rfl
          have hq2 : ((s.emit [.consoleLog ["Analysis data fetched successfully."]]).emit
              ([Event.consoleLog ["Initial PDF to load:", initialPdf.toStr]] ++
                [Event.consoleLog ["Waiting for Adobe DC View SDK to be ready..."]])).trace.any
                  Event.isGateWait = true := by
            simp only [State.emit, List.any_append, Bool.or_eq_true]
            right; right; rfl
          split_ifs with hdoc hgate
          · exact inOrder_endMain _ _ (inOrder_setToc _ _ (inOrder_free _ _ h1 rfl) rfl)
          · exact inOrder_mainAfterGate W _ _ _ h2 hv2 hq2 (h2.gate hgate)
          · refine inOrder_frame _ _ [] h2 (by simp) (keepsOrder_free _ _ rfl) ?_
              (fun _ => ⟨Or.inl hv2, Or.inl hq2⟩)
              (fun hp => Or.inl hp) (fun hp => Or.inl hp) ?_
            · rintro ⟨f, hf | hf⟩ <;> cases hf
            · rintro ⟨d, i, hf⟩; cases hf
      · exact inOrder_endMain _ _ (inOrder_setToc _ _ (inOrder_free _ _ h1 rfl) rfl)

theorem inOrder_fetchCatch (s : State) (e : JsError) (h : InOrder s) :
    InOrder (fetchAnalysisDataCatch s e).1 :=
  inOrder_setToc _ _ (inOrder_free s _ h rfl) (isSidebar_fetchError e.message)

theorem inOrder_mainAfterFetchData (W : World) (r : State × Js (Option JsVal))
    (h : InOrder r.1) (hf : r.1.trace.any Event.isFetch = true) :
    InOrder (mainAfterFetchData W r) := by
  obtain ⟨s, res⟩ := r
  simp only [mainAfterFetchData]
  split
  all_goals rename_i heq
  all_goals simp only [Prod.mk.injEq] at heq
  all_goals obtain ⟨rfl, rfl⟩ := heq
  · exact h
  · exact inOrder_mainAfterData W _ _ h hf
  · exact inOrder_endMain _ _ h

theorem any_fetchCatch (s : State) (e : JsError) (p : Event → Bool)
    (h : s.trace.any p = true) : (fetchAnalysisDataCatch s e).1.trace.any p = true := by
  simp only [fetchAnalysisDataCatch, State.setToc, State.emit, List.any_append, h, Bool.true_or]

theorem inOrder_fetchSettled (W : World) (s : State) (file : String) (r : Settled Bool)
    (h : InOrder s) (hpc : s.pc = .awaitFetch file) :
    InOrder (mainAfterFetchData W (fetchAnalysisDataAfterFetch s file r)) := by
  have hf : s.trace.any Event.isFetch = true := h.fetched ⟨file, Or.inl hpc⟩
  cases r with
  | rejected e =>
    exact inOrder_mainAfterFetchData W _ (inOrder_fetchCatch s e h) (any_fetchCatch s e _ hf)
  | fulfilled ok =>
    cases ok with
    | false =>
      exact inOrder_mainAfterFetchData W _ (inOrder_fetchCatch s _ h) (any_fetchCatch s _ _ hf)
    | true =>
      apply inOrder_mainAfterFetchData
      · refine inOrder_frame s _ [.readJson] h rfl (keepsOrder_free _ _ rfl)
          (fun _ => Or.inl hf) ?_ (fun hp => Or.inl hp) (fun hp => Or.inl hp) ?_
        · rintro ⟨d, i, hx⟩; cases hx
        · rintro ⟨d, i, hx⟩; cases hx
      · exact any_emit s _ _ hf

theorem inOrder_jsonSettled (W : World) (s : State) (file : String) (r : Settled JsVal)
    (h : InOrder s) (hpc : s.pc = .awaitJson file) :
    InOrder (mainAfterFetchData W (fetchAnalysisDataAfterJson s r)) := by
  have hf : s.trace.any Event.isFetch = true := h.fetched ⟨file, Or.inr hpc⟩
  cases r with
  | rejected e =>
    exact inOrder_mainAfterFetchData W _ (inOrder_fetchCatch s e h) (any_fetchCatch s e _ hf)
  | fulfilled data => exact inOrder_mainAfterFetchData W _ h hf

theorem inOrder_init (toc persona job : String) : InOrder (init toc persona job) where
  fetch_validated := rfl
  validated_wait := rfl
  validated_view := rfl
  wait_view := rfl
  gate_view := rfl
  view_load := rfl
  load_sidebar := rfl
  fetched := fun ⟨_, h⟩ => by rcases h with h | h <;> cases h
  validated := fun ⟨_, _, h⟩ => by cases h
  waiting := fun ⟨_, _, h⟩ => by cases h
  gate := fun h => by cases h
  view := fun h => by cases h
  loaded := fun ⟨_, _, h⟩ => by cases h

theorem inOrder_onDomContentLoaded (s : State) (f : Option String) (sdk : Bool) (h : InOrder s)
    (_hpc : s.pc = .notStarted) : InOrder (onDomContentLoaded s f sdk) := by
  have hhelp : InOrder ({ s.emit [.setBodyHtml helpHtml] with
      bodyHtml := some helpHtml, rows := [], pc := .helpShown } : State) :=
    inOrder_idle s _ [.setBodyHtml helpHtml] h rfl (keepsOrder_free _ _ rfl) (Or.inr rfl)
      rfl rfl
  cases f with
  | none => exact hhelp
  | some file =>
    simp only [onDomContentLoaded]
    split_ifs
    · exact hhelp
    · refine inOrder_frame s _ [.consoleLog ["Viewer script started. Waiting for Adobe SDK..."],
        .consoleLog ["Adobe SDK already loaded."], .resolveGate,
        .consoleLog ["Main function started."],
        .consoleLog ["Fetching analysis data for:", file],
        .fetchGet ("/output/" ++ file)] h ?_ (keepsOrder_free _ _ rfl) (fun _ => Or.inr rfl) ?_
        (fun _ => Or.inr rfl) (fun hp => Or.inl hp) ?_
      · simp [fetchAnalysisDataCall, State.emit]
      · rintro ⟨d, i, hf⟩; cases hf
      · rintro ⟨d, i, hf⟩; cases hf
    · refine inOrder_frame s _ [.consoleLog ["Viewer script started. Waiting for Adobe SDK..."],
        .listenSdkReady, .consoleLog ["Main function started."],
        .consoleLog ["Fetching analysis data for:", file],
        .fetchGet ("/output/" ++ file)] h ?_ (keepsOrder_free _ _ rfl) (fun _ => Or.inr rfl) ?_
        (fun hp => Or.inl hp) (fun hp => Or.inl hp) ?_
      · simp [fetchAnalysisDataCall, State.emit]
      · rintro ⟨d, i, hf⟩; cases hf
      · rintro ⟨d, i, hf⟩; cases hf

theorem inOrder_onSdkReady (W : World) (s : State) (h : InOrder s) :
    InOrder (onSdkReady W s) := by
  simp only [onSdkReady]
  split_ifs
  · exact h
  · have hs : InOrder ({ s.emit [.consoleLog ["Adobe SDK ready event fired."], .resolveGate] with
        gateResolved := true } : State) :=
      inOrder_frame s _ [.consoleLog ["Adobe SDK ready event fired."], .resolveGate] h rfl
        (keepsOrder_free _ _ rfl) (fun hp => Or.inl (h.fetched hp))
        (fun hp => ⟨Or.inl (h.validated hp), Or.inl (h.waiting hp)⟩)
        (fun _ => Or.inr rfl) (fun hp => Or.inl hp) (fun hp => Or.inl (h.loaded hp))
    split
    · rename_i d i heq
      apply inOrder_mainAfterGate W _ _ _ hs
      · exact hs.validated ⟨d, i, heq⟩
      · exact hs.waiting ⟨d, i, heq⟩
      · exact hs.gate rfl
    · exact hs

theorem all_free_removeActive (l : List Nat) :
    (l.map Event.removeActive).all Event.isFree = true := by
  rw [List.all_eq_true]
  intro e he
  obtain ⟨i, _, rfl⟩ := List.mem_map.1 he
  rfl

theorem inOrder_onClick (E : Engine) (s : State) (k : Nat) (h : InOrder s) :
    InOrder (onClick E s k) := by
  cases hrow : s.rows.get? k with
  | none => simp only [onClick, hrow]; exact h
  | some row =>
    cases hd : row.item.get E "document" with
    | error err =>
      simp only [onClick, hrow, hd]
      refine inOrder_same s _ (((List.range s.rows.length).filter
        (fun i => match s.rows.get? i with | some r => r.active | none => false)).map
          Event.removeActive ++ [.addActive k, .unhandledRejection err]) h ?_ rfl rfl rfl
        (keepsOrder_free _ _ ?_)
      · simp [State.emit, List.append_assoc]
      · rw [List.all_append, all_free_removeActive]; rfl
    | ok document =>
      cases hp : row.item.get E "page_number" with
      | error err =>
        simp only [onClick, hrow, hd, hp]
        refine inOrder_same s _ (((List.range s.rows.length).filter
          (fun i => match s.rows.get? i with | some r => r.active | none => false)).map
            Event.removeActive ++ [.addActive k, .unhandledRejection err]) h ?_ rfl rfl rfl
          (keepsOrder_free _ _ ?_)
        · simp [State.emit, List.append_assoc]
        · rw [List.all_append, all_free_removeActive]; rfl
      | ok page =>
        have hfree : ∀ u : String, ((((List.range s.rows.length).filter
            (fun i => match s.rows.get? i with | some r => r.active | none => false)).map
              Event.removeActive ++ [Event.addActive k,
                Event.consoleLog ["Loading " ++ document.toStr ++ " and navigating to page " ++
                  page.toStr]]) ++ [Event.consoleLog ["Attempting to load PDF: " ++ u]]).all
                    Event.isFree = true := by
          intro u
          rw [List.all_append, List.all_append, all_free_removeActive, List.all_cons,
            List.all_cons, List.all_cons, isFree_loading, isFree_attempt]
          rfl
        by_cases hv : s.viewer = true
        · simp only [onClick, hrow, hd, hp, loadPdf, State.emit, hv, Bool.not_true,
            Bool.false_eq_true, if_false]
          refine inOrder_same s _ (((((List.range s.rows.length).filter
            (fun i => match s.rows.get? i with | some r => r.active | none => false)).map
              Event.removeActive ++ [Event.addActive k,
                Event.consoleLog ["Loading " ++ document.toStr ++ " and navigating to page " ++
                  page.toStr]]) ++
                [Event.consoleLog ["Attempting to load PDF: " ++ ("/input/" ++ document.toStr)]]) ++
                [Event.previewFile s.nextPromise ("/input/" ++ document.toStr) document]) h ?_ rfl rfl
            hv.symm (keepsOrder_append _ _ _ (keepsOrder_free _ _ (hfree _))
              (keepsOrder_one _ _ (fun hx => by cases hx) (fun hx => by cases hx)
                (fun hx => by cases hx)
                (fun _ => by rw [List.any_append, h.view hv]; rfl) (fun hx => by cases hx)))
          simp [List.append_assoc]
        · simp only [Bool.not_eq_true] at hv
          simp only [onClick, hrow, hd, hp, loadPdf, State.emit, hv, Bool.not_false, if_true,
            callThen]
          refine inOrder_same s _ (((List.range s.rows.length).filter
            (fun i => match s.rows.get? i with | some r => r.active | none => false)).map
              Event.removeActive ++ [.addActive k,
                .consoleLog ["Loading " ++ document.toStr ++ " and navigating to page " ++
                  page.toStr],
                .unhandledRejection ⟨E.msgReadOfNullish "null" "then"⟩]) h ?_ rfl rfl
            hv.symm (keepsOrder_free _ _ ?_)
          · simp [List.append_assoc]
          · rw [List.all_append, all_free_removeActive, List.all_cons, List.all_cons,
              isFree_loading]
            rfl

theorem inOrder_resumeMain (W : World) (s : State) (p : Nat) (r : Settled Unit)
    (h : InOrder s) : InOrder (resumeMain W s p r) := by
  simp only [resumeMain]
  split
  · rename_i d q u hpc
    split_ifs
    · exact inOrder_mainAfterLoad W s _ h (h.loaded ⟨d, q, hpc⟩)
    · exact h
  · split_ifs
    · exact inOrder_endMain s _ h
    · exact h
  · exact h

theorem inOrder_onPromiseSettled (W : World) (s : State) (p : Nat) (r : Settled Unit)
    (hs : Sound s) (h : InOrder s) : InOrder (onPromiseSettled W s p r) := by
  by_cases hp : (p < s.nextPromise && (s.settlement p).isNone) = true
  · have h1 : InOrder ({ s with settled := (p, r) :: s.settled } :
        State) := inOrder_same s _ [] h (by simp) rfl rfl rfl (keepsOrder_free _ _ rfl)
    have h2 := inOrder_resumeMain W _ p r h1
    rw [onPromiseSettled_eq W s p r hs hp]
    refine inOrder_same _ _ _ h2 rfl rfl rfl rfl (keepsOrder_free _ _ ?_)
    rw [List.all_eq_true]
    intro e he
    obtain ⟨c, _, rfl⟩ := List.mem_map.1 he
    rfl
  · have hno : onPromiseSettled W s p r = s := by
      simp only [onPromiseSettled, hp, if_false, Bool.false_eq_true]
    rw [hno]; exact h

theorem inOrder_step (W : World) (s : State) (i : Input) (hs : Sound s) (h : InOrder s) :
    InOrder (step W s i) := by
  cases i with
  | domContentLoaded f sdk =>
    simp only [step]
    split
    · rename_i hpc; exact inOrder_onDomContentLoaded s f sdk h hpc
    · exact h
  | sdkReady => exact inOrder_onSdkReady W s h
  | fetchSettled r =>
    simp only [step]
    split
    · rename_i file hpc; exact inOrder_fetchSettled W s file r h hpc
    · exact h
  | jsonSettled r =>
    simp only [step]
    split
    · rename_i file hpc; exact inOrder_jsonSettled W s file r h hpc
    · exact h
  | promiseSettled p r => exact inOrder_onPromiseSettled W s p r hs h
  | click k => exact inOrder_onClick W.engine s k h

theorem inOrder_run (W : World) (inputs : List Input) :
    ∀ s, Sound s → InOrder s → InOrder (run W s inputs) := by
  induction inputs with
  | nil => intro s _ h; exact h
  | cons i rest ih =>
    intro s hs h
    exact ih _ (sound_step W s i hs) (inOrder_step W s i hs h)

theorem precedes_spec (p q : Event → Bool) (t : List Event) (h : Precedes p q t) :
    ∀ pre e post, t = pre ++ e :: post → q e = true → ∃ x ∈ pre, p x = true := by
  intro pre e post ht hq
  unfold Precedes at h
  rw [ht, orderedFrom_append] at h
  simp only [orderedFrom, hq, Bool.not_true, Bool.false_or, Bool.and_eq_true] at h
  exact List.any_eq_true.1 h.2.1

end FlowA

namespace FlowA
open JsVal

/-! ### The run that builds the sidebar -/

theorem loads_emit (s : State) (es : List Event) :
    (s.emit es).loads = s.loads ++ es.filterMap Event.loadUrl? := by
  simp [State.loads, State.emit, List.filterMap_append]

theorem fetching_domContentLoaded (W : World) (toc persona job file : String) (sdk : Bool)
    (hfile : file ≠ "") :
    (step W (init toc persona job) (.domContentLoaded (some file) sdk)).pc = .awaitFetch file ∧
    (step W (init toc persona job) (.domContentLoaded (some file) sdk)).gateResolved = sdk ∧
    Fetching (step W (init toc persona job) (.domContentLoaded (some file) sdk)) := by
  cases sdk <;>
    simp [step, init, onDomContentLoaded, hfile, State.emit, fetchAnalysisDataCall, Fetching,
      Quiet, State.loads, Event.loadUrl?]

theorem fetching_sdkReady (W : World) (s : State) (h : Fetching s)
    (hpc : ∀ d i, s.pc ≠ .awaitGate d i) :
    (step W s .sdkReady).pc = s.pc ∧ (step W s .sdkReady).gateResolved = true ∧
      Fetching (step W s .sdkReady) := by
  obtain ⟨h1, h2, h3, h4, h5, h6, h7⟩ := h
  simp only [step, onSdkReady]
  by_cases hl : s.listening = true
  · simp only [hl, Bool.not_true, Bool.false_eq_true, if_false]
    have hpc2 : ({ s.emit [.consoleLog ["Adobe SDK ready event fired."], .resolveGate] with
        gateResolved := true } : State).pc = s.pc := rfl
    split
    · rename_i d i heq
      exact absurd (hpc2 ▸ heq) (hpc d i)
    · refine ⟨rfl, rfl, h1, h2, ?_, h4, h5, h6, fun hx => by simp at hx⟩
      show (s.emit _).loads = []
      rw [loads_emit, h3]; rfl
  · simp only [Bool.not_eq_true] at hl
    have hg : s.gateResolved = true := by
      by_contra hne
      simp only [Bool.not_eq_true] at hne
      rw [h7 hne] at hl
      cases hl
    simp only [hl, Bool.not_false, if_true]
    exact ⟨trivial, hg, h1, h2, h3, h4, h5, h6, h7⟩

theorem fetching_replicate (W : World) (n : Nat) :
    ∀ s, Fetching s → (∀ d i, s.pc ≠ .awaitGate d i) →
      (run W s (List.replicate n .sdkReady)).pc = s.pc ∧
      ((s.gateResolved = true ∨ 0 < n) →
        (run W s (List.replicate n .sdkReady)).gateResolved = true) ∧
      Fetching (run W s (List.replicate n .sdkReady)) := by
  induction n with
  | zero =>
    intro s h _
    refine ⟨rfl, fun hg => ?_, h⟩
    rcases hg with hg | hg
    · exact hg
    · cases hg
  | succ n ih =>
    intro s h hpc
    obtain ⟨a, b, c⟩ := fetching_sdkReady W s h hpc
    obtain ⟨a2, b2, c2⟩ := ih (step W s .sdkReady) c (by rw [a]; exact hpc)
    exact ⟨a2.trans a, fun _ => b2 (Or.inl b), c2⟩

theorem fetching_fetchSettled (W : World) (s : State) (file : String) (h : Fetching s)
    (hpc : s.pc = .awaitFetch file) :
    (step W s (.fetchSettled (.fulfilled true))).pc = .awaitJson file ∧
    (step W s (.fetchSettled (.fulfilled true))).gateResolved = s.gateResolved ∧
    Fetching (step W s (.fetchSettled (.fulfilled true))) := by
  obtain ⟨h1, h2, h3, h4, h5, h6, h7⟩ := h
  have hstep : step W s (.fetchSettled (.fulfilled true)) =
      { s.emit [.readJson] with pc := .awaitJson file } := by
    simp only [step, hpc, fetchAnalysisDataAfterFetch, mainAfterFetchData]
  rw [hstep]
  refine ⟨rfl, rfl, h1, h2, ?_, h4, h5, h6, h7⟩
  show (s.emit _).loads = []
  rw [loads_emit, h3]; rfl

theorem initializeViewer_ok (W : World) (s : State) (hview : W.viewError = none) :
    initializeViewer W s =
      { s with
        viewer := true
        trace := s.trace ++ [.newView ADOBE_CLIENT_ID "adobe-dc-view",
          .consoleLog ["AdobeDC.View initialized successfully."]] } := by
  simp [initializeViewer, hview, State.emit]

theorem loading_mainAfterGate (W : World) (s : State) (data pdf : JsVal)
    (hview : W.viewError = none) (h : Fetching s) (hg : s.gateResolved = true) :
    Loading data ("/input/" ++ pdf.toStr) (mainAfterGate W s data pdf) := by
  obtain ⟨h1, h2, h3, h4, h5, h6, h7⟩ := h
  rw [mainAfterGate_eq, initializeViewer_ok W s hview]
  simp only [Bool.not_true, Bool.false_eq_true, if_false]
  refine ⟨by simp [h2], rfl, by simp [h2], ?_, h4, h5, h6, fun hx => by simp [hg] at hx⟩
  simp only [State.loads] at h3 ⊢
  simp [List.filterMap_append, h3, Event.loadUrl?]

theorem loading_sdkReady (W : World) (s : State) (data : JsVal) (url : String)
    (h : Loading data url s) : Loading data url (step W s .sdkReady) := by
  obtain ⟨h0, h1, h2, h3, h4, h5, h6, h7⟩ := h
  simp only [step, onSdkReady]
  split_ifs
  · exact ⟨h0, h1, h2, h3, h4, h5, h6, h7⟩
  · have hpc2 : ({ s.emit [.consoleLog ["Adobe SDK ready event fired."], .resolveGate] with
        gateResolved := true } : State).pc = s.pc := rfl
    split
    · rename_i d i heq
      rw [hpc2, h0] at heq
      cases heq
    · refine ⟨h0, h1, h2, ?_, h4, h5, h6, fun hx => by simp at hx⟩
      show (s.emit _).loads = [url]
      rw [loads_emit, h3]; rfl

theorem loading_replicate (W : World) (data : JsVal) (url : String) (n : Nat) :
    ∀ s, Loading data url s → Loading data url (run W s (List.replicate n .sdkReady)) := by
  induction n with
  | zero => intro s h; exact h
  | succ n ih => intro s h; exact ih _ (loading_sdkReady W s data url h)

theorem waiting_sdkReady (W : World) (s : State) (data pdf : JsVal)
    (hview : W.viewError = none) (h : Fetching s) (hpc : s.pc = .awaitGate data pdf)
    (hg : s.gateResolved = false) :
    Loading data ("/input/" ++ pdf.toStr) (step W s .sdkReady) := by
  have hl : s.listening = true := h.2.2.2.2.2.2 hg
  obtain ⟨h1, h2, h3, h4, h5, h6, h7⟩ := h
  have hstep : step W s .sdkReady = mainAfterGate W
      { s.emit [.consoleLog ["Adobe SDK ready event fired."], .resolveGate] with
        gateResolved := true } data pdf := by
    simp only [step, onSdkReady, hl, Bool.not_true, Bool.false_eq_true, if_false, State.emit, hpc]
  rw [hstep]
  apply loading_mainAfterGate W _ data pdf hview _ rfl
  refine ⟨h1, h2, ?_, h4, h5, h6, fun hx => by simp at hx⟩
  show (s.emit _).loads = []
  rw [loads_emit, h3]; rfl

theorem get_of_getOpt_truthy (E : Engine) (v : JsVal) (key : String)
    (h : (v.getOpt key).truthy = true) : v.get E key = .ok (v.getOpt key) := by
  cases v <;> first | rfl | simp [getOpt, truthy] at h

theorem truthy_of_getOpt_arr (v : JsVal) (key : String) (xs : List JsVal)
    (h : v.getOpt key = .arr xs) : v.truthy = true := by
  cases v with
  | obj fields => rfl
  | arr ys => simp only [getOpt] at h; split at h <;> cases h
  | str s => simp only [getOpt] at h; split at h <;> cases h
  | undefined => cases h
  | null => cases h
  | bool b => cases h
  | num n => cases h

theorem mainAfterData_valid (W : World) (s : State) (data first : JsVal) (more : List JsVal)
    (hsecs : data.getOpt "extracted_sections" = .arr (first :: more))
    (hdoc : (first.getOpt "document").truthy = true) :
    mainAfterData W s data =
      if s.gateResolved then
        mainAfterGate W (s.emit [.consoleLog ["Analysis data fetched successfully."],
          .consoleLog ["Initial PDF to load:", (first.getOpt "document").toStr],
          .consoleLog ["Waiting for Adobe DC View SDK to be ready..."]]) data
            (first.getOpt "document")
      else
        { s.emit [.consoleLog ["Analysis data fetched successfully."],
          .consoleLog ["Initial PDF to load:", (first.getOpt "document").toStr],
          .consoleLog ["Waiting for Adobe DC View SDK to be ready..."]] with
          pc := .awaitGate data (first.getOpt "document") } := by
  have ht := truthy_of_getOpt_arr data _ _ hsecs
  simp only [mainAfterData, ht, Bool.not_true, Bool.false_eq_true, if_false,
    get_of_truthy W.engine data _ ht, hsecs, get_of_getOpt_truthy W.engine first _ hdoc, hdoc,
    State.emit, List.append_assoc, List.singleton_append, List.cons_append, List.nil_append]

theorem after_json (W : World) (s : State) (file : String) (data first : JsVal)
    (more : List JsVal) (hview : W.viewError = none) (h : Fetching s)
    (hpc : s.pc = .awaitJson file)
    (hsecs : data.getOpt "extracted_sections" = .arr (first :: more))
    (hdoc : (first.getOpt "document").truthy = true) :
    (s.gateResolved = true →
      Loading data ("/input/" ++ (first.getOpt "document").toStr)
        (step W s (.jsonSettled (.fulfilled data)))) ∧
    (s.gateResolved = false →
      (step W s (.jsonSettled (.fulfilled data))).pc =
        .awaitGate data (first.getOpt "document") ∧
      (step W s (.jsonSettled (.fulfilled data))).gateResolved = false ∧
      Fetching (step W s (.jsonSettled (.fulfilled data)))) := by
  have hstep : step W s (.jsonSettled (.fulfilled data)) = mainAfterData W s data := by
    simp only [step, hpc, fetchAnalysisDataAfterJson, mainAfterFetchData]
  rw [hstep, mainAfterData_valid W s data first more hsecs hdoc]
  obtain ⟨h1, h2, h3, h4, h5, h6, h7⟩ := h
  have hq : Fetching (s.emit [.consoleLog ["Analysis data fetched successfully."],
          .consoleLog ["Initial PDF to load:", (first.getOpt "document").toStr],
          .consoleLog ["Waiting for Adobe DC View SDK to be ready..."]]) := by
    refine ⟨h1, h2, ?_, h4, h5, h6, h7⟩
    rw [loads_emit, h3]; rfl
  constructor
  · intro hg
    rw [if_pos hg]
    exact loading_mainAfterGate W _ data _ hview hq hg
  · intro hg
    rw [if_neg (by simp [hg])]
    exact ⟨rfl, hg, hq⟩

theorem builtRows_objects (E : Engine) :
    ∀ items : List JsVal, (∀ x ∈ items, ∃ fields, x = .obj fields) →
      (builtRows E items).2 = .ok () ∧
      List.Forall₂ (fun item row => tocItemHtml E item = .ok row.html ∧ row.item = item ∧
        row.active = false) items (builtRows E items).1
  | [], _ => ⟨rfl, .nil⟩
  | item :: rest, h => by
    obtain ⟨fields, rfl⟩ := h item (List.mem_cons_self _ _)
    obtain ⟨a, b⟩ := builtRows_objects E rest (fun y hy => h y (List.mem_cons_of_mem _ hy))
    have ht : tocItemHtml E (.obj fields) = .ok
        ("\n                <div class=\"toc-item-title\">" ++
          (lookup "section_title" fields).toStr ++
          "</div>\n                <div class=\"toc-item-meta\">Source: " ++
          (lookup "document" fields).toStr ++ " (Page " ++
          (lookup "page_number" fields).toStr ++ ")</div>\n            ") := rfl
    simp only [builtRows, ht]
    exact ⟨a, .cons ⟨ht, rfl, rfl⟩ b⟩

theorem resumeMain_load (W : World) (s : State) (data : JsVal) (p : Nat) (u : Unit)
    (hpc : s.pc = .awaitInitialLoad data p) :
    resumeMain W s p (.fulfilled u) = mainAfterLoad W s data := by
  simp only [resumeMain, hpc, if_true]

theorem loaded_promiseSettled (W : World) (s : State) (data : JsVal) (url : String)
    (items : List JsVal) (hs : Sound s) (h : Loading data url s)
    (hmeta : (data.getOpt "metadata").truthy = true)
    (hsecs : data.getOpt "extracted_sections" = .arr items)
    (hrows : (builtRows W.engine items).2 = .ok ()) :
    (step W s (.promiseSettled 0 (.fulfilled ()))).rows = (builtRows W.engine items).1 ∧
    (step W s (.promiseSettled 0 (.fulfilled ()))).loads = [url] ∧
    (step W s (.promiseSettled 0 (.fulfilled ()))).tocHtml = "" ∧
    (step W s (.promiseSettled 0 (.fulfilled ()))).pc = .returned := by
  obtain ⟨h0, h1, h2, h3, h4, h5, h6, h7⟩ := h
  have hcond : (0 < s.nextPromise && (s.settlement 0).isNone) = true := by
    simp [h2, State.settlement, h6]
  have hpop := populateSidebar_eq W.engine
    (({ s with settled := (0, Settled.fulfilled ()) :: s.settled } :
      State).emit [.consoleLog ["Initial PDF loaded."]]) data
  simp only [hmeta, hsecs, isArray, Bool.not_true, Bool.or_self, Bool.false_eq_true, if_false,
    JsVal.elements] at hpop
  have hstep : step W s (.promiseSettled 0 (.fulfilled ())) =
      onPromiseSettled W s 0 (.fulfilled ()) := rfl
  rw [hstep, onPromiseSettled_eq W s 0 _ hs hcond,
    resumeMain_load W ({ s with settled :=
      (0, Settled.fulfilled ()) :: s.settled } : State) data 0 () h0,
    mainAfterLoad_eq, hpop]
  simp only [hrows, endMain, State.emit, h5, List.filter_nil, List.map_nil, List.append_nil]
  refine ⟨trivial, ?_, trivial, trivial⟩
  simp only [State.loads] at h3 ⊢
  simp only [List.filterMap_append, h3]
  have hnone : ∀ rows : List Row,
      (rows.map (fun r => Event.appendRow r.html)).filterMap Event.loadUrl? = [] := by
    intro rows
    induction rows with
    | nil => rfl
    | cons r rest ih => simp [List.filterMap_cons, Event.loadUrl?]
  simp [hnone, Event.loadUrl?]

theorem run_append (W : World) (s : State) (l m : List Input) :
    run W s (l ++ m) = run W (run W s l) m := by
  simp [run, List.foldl_append]

theorem run_cons (W : World) (s : State) (i : Input) (l : List Input) :
    run W s (i :: l) = run W (step W s i) l := rfl

theorem loading_of_gate (W : World) (s : State) (file : String) (data first : JsVal)
    (more : List JsVal) (n : Nat) (hview : W.viewError = none) (h : Fetching s)
    (hpc : s.pc = .awaitJson file)
    (hsecs : data.getOpt "extracted_sections" = .arr (first :: more))
    (hdoc : (first.getOpt "document").truthy = true)
    (hgate : s.gateResolved = true ∨ 0 < n) :
    Loading data ("/input/" ++ (first.getOpt "document").toStr)
      (run W (step W s (.jsonSettled (.fulfilled data))) (List.replicate n .sdkReady)) := by
  obtain ⟨ha, hb⟩ := after_json W s file data first more hview h hpc hsecs hdoc
  by_cases hg : s.gateResolved = true
  · exact loading_replicate W data _ n _ (ha hg)
  · simp only [Bool.not_eq_true] at hg
    obtain ⟨hb1, hb2, hb3⟩ := hb hg
    cases n with
    | zero =>
      rcases hgate with hgate | hgate
      · rw [hg] at hgate; cases hgate
      · cases hgate
    | succ m =>
      rw [List.replicate_succ, run_cons]
      exact loading_replicate W data _ m _
        (waiting_sdkReady W _ data _ hview hb3 hb1 hb2)

theorem exists_of_forall₂_right (R : JsVal → Row → Prop) :
    ∀ (items : List JsVal) (rows : List Row), List.Forall₂ R items rows →
      ∀ row ∈ rows, ∃ item ∈ items, R item row
  | _, _, .nil, row, h => by cases h
  | _, _, .cons hr hrest, row, h => by
    rcases List.mem_cons.1 h with h | h
    · subst h; exact ⟨_, List.mem_cons_self _ _, hr⟩
    · obtain ⟨item, hi, hR⟩ := exists_of_forall₂_right R _ _ hrest row h
      exact ⟨item, List.mem_cons_of_mem _ hi, hR⟩

/-- C2, amended: when the artifact is fetched and parses to a value with
metadata whose `extracted_sections` is an array of objects that is not empty and
whose first element has a truthy `document`, the SDK is or becomes ready, the
viewer is constructed without error and the first document load fulfils, then
that load, the only one, targets the document of the first section, and the
sidebar holds one row per section, in the order of the array, none active, each
with the markup of its section: title, document and page. -/
theorem sidebar_built (W : World) (toc persona job file : String) (sdkLoaded : Bool)
    (data first : JsVal) (more : List JsVal) (n0 n1 n2 : Nat)
    (hfile : file ≠ "") (hview : W.viewError = none)
    (hmeta : (data.getOpt "metadata").truthy = true)
    (hsecs : data.getOpt "extracted_sections" = .arr (first :: more))
    (hobj : ∀ x ∈ first :: more, ∃ fields, x = .obj fields)
    (hdoc : (first.getOpt "document").truthy = true)
    (hgate : sdkLoaded = true ∨ 0 < n0 + n1 + n2) :
    (run W (init toc persona job) (sidebarRun file sdkLoaded data n0 n1 n2)).loads =
      ["/input/" ++ (first.getOpt "document").toStr] ∧
    List.Forall₂ (fun item row => tocItemHtml W.engine item = .ok row.html ∧ row.item = item ∧
        row.active = false) (first :: more)
      (run W (init toc persona job) (sidebarRun file sdkLoaded data n0 n1 n2)).rows ∧
    (∀ row ∈ (run W (init toc persona job) (sidebarRun file sdkLoaded data n0 n1 n2)).rows,
      row.html = "\n                <div class=\"toc-item-title\">" ++
        (row.item.getOpt "section_title").toStr ++
        "</div>\n                <div class=\"toc-item-meta\">Source: " ++
        (row.item.getOpt "document").toStr ++ " (Page " ++
        (row.item.getOpt "page_number").toStr ++ ")</div>\n            ") ∧
    (run W (init toc persona job) (sidebarRun file sdkLoaded data n0 n1 n2)).tocHtml = "" := by
  obtain ⟨a1, a2, a3⟩ := fetching_domContentLoaded W toc persona job file sdkLoaded hfile
  obtain ⟨b1, b2, b3⟩ := fetching_replicate W n0 _ a3 (by rw [a1]; intro d i hx; cases hx)
  rw [a1] at b1
  obtain ⟨c1, c2, c3⟩ := fetching_fetchSettled W _ file b3 b1
  obtain ⟨d1, d2, d3⟩ := fetching_replicate W n1 _ c3 (by rw [c1]; intro d i hx; cases hx)
  rw [c1] at d1
  have hgate2 : (run W (step W (run W (step W (init toc persona job)
      (.domContentLoaded (some file) sdkLoaded)) (List.replicate n0 .sdkReady))
      (.fetchSettled (.fulfilled true))) (List.replicate n1 .sdkReady)).gateResolved = true ∨
      0 < n2 := by
    by_cases hn2 : 0 < n2
    · exact Or.inr hn2
    · left
      by_cases hn1 : 0 < n1
      · exact d2 (Or.inr hn1)
      · apply d2
        left
        rw [c2]
        apply b2
        rcases hgate with hgate | hgate
        · left; rw [a2]; exact hgate
        · right; omega
  have hload := loading_of_gate W _ file data first more n2 hview d3 d1 hsecs hdoc hgate2
  have hrun : run W (init toc persona job) (sidebarRun file sdkLoaded data n0 n1 n2) =
      step W (run W (step W (run W (step W (run W (step W (init toc persona job)
        (.domContentLoaded (some file) sdkLoaded)) (List.replicate n0 .sdkReady))
        (.fetchSettled (.fulfilled true))) (List.replicate n1 .sdkReady))
        (.jsonSettled (.fulfilled data))) (List.replicate n2 .sdkReady))
        (.promiseSettled 0 (.fulfilled ())) := by
    simp only [sidebarRun, run_cons, run_append]
    rfl
  have hsound : Sound (run W (step W (run W (step W (run W (step W (init toc persona job)
        (.domContentLoaded (some file) sdkLoaded)) (List.replicate n0 .sdkReady))
        (.fetchSettled (.fulfilled true))) (List.replicate n1 .sdkReady))
        (.jsonSettled (.fulfilled data))) (List.replicate n2 .sdkReady)) := by
    apply sound_run; apply sound_step; apply sound_run; apply sound_step; apply sound_run
    apply sound_step; exact sound_init toc persona job
  obtain ⟨hok, hall⟩ := builtRows_objects W.engine (first :: more) hobj
  obtain ⟨e1, e2, e3, -⟩ := loaded_promiseSettled W _ data _ (first :: more) hsound hload hmeta
    hsecs hok
  rw [hrun, e1]
  refine ⟨e2, hall, ?_, e3⟩
  intro row hrow
  obtain ⟨item, hitem, hrel⟩ : ∃ item ∈ first :: more,
      tocItemHtml W.engine item = .ok row.html ∧ row.item = item ∧ row.active = false := by
    exact exists_of_forall₂_right _ _ _ hall row hrow
  obtain ⟨fields, rfl⟩ := hobj item hitem
  obtain ⟨h1, h2, -⟩ := hrel
  rw [h2]
  have ht : tocItemHtml W.engine (.obj fields) = .ok
      ("\n                <div class=\"toc-item-title\">" ++
        (lookup "section_title" fields).toStr ++
        "</div>\n                <div class=\"toc-item-meta\">Source: " ++
        (lookup "document" fields).toStr ++ " (Page " ++
        (lookup "page_number" fields).toStr ++ ")</div>\n            ") := rfl
  rw [ht] at h1
  injection h1 with h1
  rw [← h1]
  rfl

set_option maxRecDepth 100000 in
/-- C2, as stated, fails: in the walk-through, with the artifact fetched, the
SDK loaded and the viewer constructed, the first load is requested for `A.pdf`
and is rejected: `main` ends there and the sidebar has no row for the two
sections (it has none either while that load is pending). -/
theorem rejected_first_load_leaves_sidebar_empty :
    (sampleData.getOpt "metadata").truthy = true ∧
    ((sampleData.getOpt "extracted_sections").elements.length = 2) ∧
    ((run sampleWorld (init "" "" "")
      [.domContentLoaded (some "analysis.json") true, .fetchSettled (.fulfilled true),
       .jsonSettled (.fulfilled sampleData),
       .promiseSettled 0 (.rejected ⟨"Failed to load"⟩)]).loads = ["/input/A.pdf"]) ∧
    ((run sampleWorld (init "" "" "")
      [.domContentLoaded (some "analysis.json") true, .fetchSettled (.fulfilled true),
       .jsonSettled (.fulfilled sampleData),
       .promiseSettled 0 (.rejected ⟨"Failed to load"⟩)]).viewer = true) ∧
    ((run sampleWorld (init "" "" "")
      [.domContentLoaded (some "analysis.json") true, .fetchSettled (.fulfilled true),
       .jsonSettled (.fulfilled sampleData),
       .promiseSettled 0 (.rejected ⟨"Failed to load"⟩)]).rows.length = 0) ∧
    ((run sampleWorld (init "" "" "")
      [.domContentLoaded (some "analysis.json") true, .fetchSettled (.fulfilled true),
       .jsonSettled (.fulfilled sampleData)]).rows.length = 0) := by
  refine ⟨by decide, by decide, by decide, by decide, by decide, by decide⟩

set_option maxRecDepth 100000 in
/-- Witness of C2 (amended): the walk-through of the specification. -/
theorem sidebar_built_witness :
    ("analysis.json" ≠ "") ∧ (sampleData.getOpt "metadata").truthy = true ∧
    ((run sampleWorld (init "" "" "") (sidebarRun "analysis.json" true sampleData 0 0 0)).loads =
      ["/input/A.pdf"]) ∧
    ((run sampleWorld (init "" "" "")
      (sidebarRun "analysis.json" true sampleData 0 0 0)).rows.length = 2) := by
  have h := sidebar_built sampleWorld "" "" "" "analysis.json" true sampleData
    (.obj [("document", .str "A.pdf"), ("section_title", .str "Intro"), ("page_number", .num 3)])
    [.obj [("document", .str "B.pdf"), ("section_title", .str "Summary"),
      ("page_number", .num 1)]] 0 0 0 (by decide) rfl rfl rfl
    (by
      intro x hx
      simp only [List.mem_cons, List.mem_singleton, List.not_mem_nil, or_false] at hx
      rcases hx with rfl | rfl <;> exact ⟨_, rfl⟩)
    rfl (Or.inl rfl)
  exact ⟨by decide, rfl, h.1, h.2.1.length_eq.symm⟩

end FlowA
namespace FlowA
open JsVal

/-! ### The trace only grows -/

theorem prefix_emit (s : State) (es : List Event) : s.trace <+: (s.emit es).trace :=
  List.prefix_append _ _

theorem prefix_setToc (s : State) (html : String) : s.trace <+: (s.setToc html).trace :=
  List.prefix_append _ _

theorem prefix_endMain (s : State) (r : Js Unit) : s.trace <+: (endMain s r).trace := by
  cases r with
  | ok u => exact List.prefix_rfl
  | error e => exact List.prefix_append _ _

theorem prefix_populateSidebar (E : Engine) (s : State) (data : JsVal) :
    s.trace <+: (populateSidebar E s data).1.trace := by
  rw [populateSidebar_eq]
  split_ifs
  · exact List.prefix_append _ _
  · exact List.prefix_append _ _

theorem prefix_mainAfterLoad (W : World) (s : State) (data : JsVal) :
    s.trace <+: (mainAfterLoad W s data).trace := by
  rw [mainAfterLoad_eq]
  refine List.IsPrefix.trans ?_ (prefix_endMain _ _)
  have hp := (prefix_emit s [.consoleLog ["Initial PDF loaded."]]).trans
    (prefix_populateSidebar W.engine (s.emit [.consoleLog ["Initial PDF loaded."]]) data)
  split
  · exact hp.trans (prefix_emit _ _)
  · exact hp

theorem prefix_initializeViewer (W : World) (s : State) :
    s.trace <+: (initializeViewer W s).trace := by
  simp only [initializeViewer]
  cases W.viewError with
  | none => exact (prefix_emit s _).trans (prefix_emit _ _)
  | some e => exact (prefix_emit s _).trans (prefix_emit _ _)

theorem prefix_mainAfterGate (W : World) (s : State) (data pdf : JsVal) :
    s.trace <+: (mainAfterGate W s data pdf).trace := by
  rw [mainAfterGate_eq]
  split_ifs
  · exact (prefix_initializeViewer W s).trans (prefix_endMain _ _)
  · exact (prefix_initializeViewer W s).trans (List.prefix_append _ _)

theorem prefix_mainAfterData (W : World) (s : State) (data : JsVal) :
    s.trace <+: (mainAfterData W s data).trace := by
  simp only [mainAfterData]
  split_ifs
  · exact (prefix_emit s _).trans (prefix_endMain _ _)
  · have h1 := prefix_emit s [.consoleLog ["Analysis data fetched successfully."]]
    split
    · exact h1.trans (prefix_endMain _ _)
    · split
      · split
        · exact h1.trans (prefix_endMain _ _)
        · split_ifs
          · exact h1.trans (((prefix_emit _ _).trans (prefix_setToc _ _)).trans
              (prefix_endMain _ _))
          · exact h1.trans ((prefix_emit _ _).trans (prefix_mainAfterGate W _ _ _))
          · exact h1.trans (prefix_emit _ _)
      · exact h1.trans (((prefix_emit _ _).trans (prefix_setToc _ _)).trans
          (prefix_endMain _ _))

theorem prefix_mainAfterFetchData (W : World) (r : State × Js (Option JsVal)) :
    r.1.trace <+: (mainAfterFetchData W r).trace := by
  obtain ⟨s, res⟩ := r
  simp only [mainAfterFetchData]
  split
  all_goals rename_i heq
  all_goals simp only [Prod.mk.injEq] at heq
  all_goals obtain ⟨rfl, rfl⟩ := heq
  · exact List.prefix_rfl
  · exact prefix_mainAfterData W _ _
  · exact prefix_endMain _ _

theorem prefix_fetchCatch (s : State) (e : JsError) :
    s.trace <+: (fetchAnalysisDataCatch s e).1.trace :=
  (prefix_emit s _).trans (prefix_setToc _ _)

theorem prefix_onDomContentLoaded (s : State) (f : Option String) (sdk : Bool) :
    s.trace <+: (onDomContentLoaded s f sdk).trace := by
  cases f with
  | none => exact List.prefix_append _ _
  | some file =>
    simp only [onDomContentLoaded]
    split_ifs
    · exact List.prefix_append _ _
    · simp [fetchAnalysisDataCall, State.emit, List.append_assoc]
    · simp [fetchAnalysisDataCall, State.emit, List.append_assoc]

theorem prefix_onSdkReady (W : World) (s : State) : s.trace <+: (onSdkReady W s).trace := by
  simp only [onSdkReady]
  split_ifs
  · exact List.prefix_rfl
  · have hs : s.trace <+: ({ s.emit [.consoleLog ["Adobe SDK ready event fired."],
        .resolveGate] with gateResolved := true } : State).trace := List.prefix_append _ _
    split
    · exact hs.trans (prefix_mainAfterGate W _ _ _)
    · exact hs

theorem prefix_callThen (E : Engine) (s : State) (v : RtVal) (item : JsVal) :
    s.trace <+: (callThen E s v item).trace := by
  simp only [callThen]
  split
  · exact List.prefix_append _ _
  · exact List.prefix_append _ _
  · split
    · exact List.prefix_rfl
    · exact List.prefix_append _ _
    · exact List.prefix_append _ _

theorem prefix_onClick (E : Engine) (s : State) (k : Nat) :
    s.trace <+: (onClick E s k).trace := by
  cases hrow : s.rows.get? k with
  | none => simp only [onClick, hrow]; exact List.prefix_rfl
  | some row =>
    cases hd : row.item.get E "document" with
    | error err =>
      simp only [onClick, hrow, hd]
      simp [State.emit, List.append_assoc]
    | ok document =>
      cases hp : row.item.get E "page_number" with
      | error err =>
        simp only [onClick, hrow, hd, hp]
        simp [State.emit, List.append_assoc]
      | ok page =>
        by_cases hv : s.viewer = true
        · simp only [onClick, hrow, hd, hp, loadPdf, State.emit, hv, Bool.not_true,
            Bool.false_eq_true, if_false]
          simp [List.append_assoc]
        · simp only [Bool.not_eq_true] at hv
          simp only [onClick, hrow, hd, hp, loadPdf, State.emit, hv, Bool.not_false, if_true,
            callThen]
          simp [List.append_assoc]

theorem prefix_resume (E : Engine) (p : Nat) (r : Settled Unit) (s : State) (c : Cont) :
    s.trace <+: (resume E p r s c).trace := by
  cases r with
  | rejected e => cases c <;> exact List.prefix_append _ _
  | fulfilled u =>
    cases c with
    | clickAwait q item => exact prefix_callThen E s _ item
    | thenViewer q item => exact List.prefix_append _ _
    | thenApis q item =>
      simp only [resume, onApis]
      split <;> exact List.prefix_append _ _

theorem prefix_foldl_resume (E : Engine) (p : Nat) (r : Settled Unit) (waiting : List Cont) :
    ∀ s, s.trace <+: (waiting.foldl (resume E p r) s).trace := by
  induction waiting with
  | nil => intro s; exact List.prefix_rfl
  | cons c rest ih => intro s; exact (prefix_resume E p r s c).trans (ih _)

theorem prefix_resumeMain (W : World) (s : State) (p : Nat) (r : Settled Unit) :
    s.trace <+: (resumeMain W s p r).trace := by
  simp only [resumeMain]
  split
  · split_ifs
    · exact prefix_mainAfterLoad W s _
    · exact List.prefix_rfl
  · split_ifs
    · exact prefix_endMain s _
    · exact List.prefix_rfl
  · exact List.prefix_rfl

theorem prefix_onPromiseSettled (W : World) (s : State) (p : Nat) (r : Settled Unit) :
    s.trace <+: (onPromiseSettled W s p r).trace := by
  simp only [onPromiseSettled]
  split_ifs
  · have h1 : s.trace <+: (resumeMain W { s with settled := (p, r) :: s.settled } p r).trace :=
      prefix_resumeMain W { s with settled := (p, r) :: s.settled } p r
    refine h1.trans (List.IsPrefix.trans ?_ (prefix_foldl_resume W.engine p r _ _))
    exact List.prefix_rfl
  · exact List.prefix_rfl

theorem prefix_step (W : World) (s : State) (i : Input) : s.trace <+: (step W s i).trace := by
  cases i with
  | domContentLoaded f sdk =>
    simp only [step]
    split
    · exact prefix_onDomContentLoaded s f sdk
    · exact List.prefix_rfl
  | sdkReady => exact prefix_onSdkReady W s
  | fetchSettled r =>
    simp only [step]
    split
    · rename_i file hpc
      refine List.IsPrefix.trans ?_ (prefix_mainAfterFetchData W _)
      cases r with
      | rejected e => exact prefix_fetchCatch s e
      | fulfilled ok =>
        cases ok with
        | false => exact prefix_fetchCatch s _
        | true => exact List.prefix_append _ _
    · exact List.prefix_rfl
  | jsonSettled r =>
    simp only [step]
    split
    · refine List.IsPrefix.trans ?_ (prefix_mainAfterFetchData W _)
      cases r with
      | rejected e => exact prefix_fetchCatch s e
      | fulfilled data => exact List.prefix_rfl
    · exact List.prefix_rfl
  | promiseSettled p r => exact prefix_onPromiseSettled W s p r
  | click k => exact prefix_onClick W.engine s k

theorem prefix_run (W : World) (inputs : List Input) :
    ∀ s, s.trace <+: (run W s inputs).trace := by
  induction inputs with
  | nil => intro s; exact List.prefix_rfl
  | cons i rest ih => intro s; exact (prefix_step W s i).trans (ih _)

/-! ### The steps of the run that builds the sidebar -/

theorem stages_emit (s : State) (es : List Event) :
    (s.emit es).stages = s.stages ++ es.filterMap Event.stage? := by
  simp [State.stages, State.emit, List.filterMap_append]

theorem stage_attempt (u : String) :
    (Event.consoleLog ["Attempting to load PDF: " ++ u]).stage? = none := by
  have h := isFree_spec _ (isFree_attempt u)
  simp [Event.stage?, h.1, h.2.1, h.2.2.1, h.2.2.2.1, h.2.2.2.2, Event.isFetch]

theorem stages_domContentLoaded (W : World) (toc persona job file : String) (sdk : Bool)
    (hfile : file ≠ "") :
    (step W (init toc persona job) (.domContentLoaded (some file) sdk)).stages = [.fetch] := by
  cases sdk <;>
    simp [step, init, onDomContentLoaded, hfile, State.emit, fetchAnalysisDataCall,
      State.stages, List.filterMap_cons, Event.stage?, Event.isFetch, Event.isValidated,
      Event.isGateWait, Event.isViewerConstruction, Event.isLoad, Event.isSidebar]

theorem stages_sdkReady_idle (W : World) (s : State) (hpc : ∀ d i, s.pc ≠ .awaitGate d i) :
    (step W s .sdkReady).stages = s.stages ∧ (step W s .sdkReady).pc = s.pc := by
  simp only [step, onSdkReady]
  split_ifs
  · exact ⟨rfl, rfl⟩
  · have hpc2 : ({ s.emit [.consoleLog ["Adobe SDK ready event fired."], .resolveGate] with
        gateResolved := true } : State).pc = s.pc := rfl
    split
    · rename_i d i heq
      exact absurd (hpc2 ▸ heq) (hpc d i)
    · refine ⟨?_, rfl⟩
      show (s.emit _).stages = s.stages
      rw [stages_emit]
      simp [List.filterMap_cons, Event.stage?, Event.isFetch, Event.isValidated,
        Event.isGateWait, Event.isViewerConstruction, Event.isLoad, Event.isSidebar]

theorem stages_replicate_idle (W : World) (n : Nat) :
    ∀ s, (∀ d i, s.pc ≠ .awaitGate d i) →
      (run W s (List.replicate n .sdkReady)).stages = s.stages := by
  induction n with
  | zero => intro s _; rfl
  | succ n ih =>
    intro s hpc
    obtain ⟨a, b⟩ := stages_sdkReady_idle W s hpc
    rw [List.replicate_succ, run_cons, ih _ (by rw [b]; exact hpc), a]

theorem stages_fetchSettled (W : World) (s : State) (file : String)
    (hpc : s.pc = .awaitFetch file) :
    (step W s (.fetchSettled (.fulfilled true))).stages = s.stages := by
  have hstep : step W s (.fetchSettled (.fulfilled true)) =
      { s.emit [.readJson] with pc := .awaitJson file } := by
    simp only [step, hpc, fetchAnalysisDataAfterFetch, mainAfterFetchData]
  rw [hstep]
  show (s.emit _).stages = s.stages
  rw [stages_emit]
  simp [List.filterMap_cons, Event.stage?, Event.isFetch, Event.isValidated,
    Event.isGateWait, Event.isViewerConstruction, Event.isLoad, Event.isSidebar]

theorem stages_mainAfterGate (W : World) (s : State) (data pdf : JsVal)
    (hview : W.viewError = none) :
    (mainAfterGate W s data pdf).stages = s.stages ++ [.viewer, .load] := by
  rw [mainAfterGate_eq, initializeViewer_ok W s hview]
  simp only [Bool.not_true, Bool.false_eq_true, if_false, State.stages, List.filterMap_append,
    List.append_assoc]
  have e1 : (Event.newView ADOBE_CLIENT_ID "adobe-dc-view").stage? = some .viewer := rfl
  have e2 : (Event.consoleLog ["AdobeDC.View initialized successfully."]).stage? = none := rfl
  have e3 : (Event.consoleLog ["Loading initial PDF..."]).stage? = none := rfl
  have e4 := stage_attempt ("/input/" ++ pdf.toStr)
  have e5 : (Event.previewFile s.nextPromise ("/input/" ++ pdf.toStr) pdf).stage? =
      some .load := rfl
  simp only [List.filterMap_cons, List.filterMap_nil, e1, e2, e3, e4, e5, List.nil_append,
    List.cons_append]

theorem stages_validated (s : State) (doc : String) :
    (s.emit [.consoleLog ["Analysis data fetched successfully."],
      .consoleLog ["Initial PDF to load:", doc],
      .consoleLog ["Waiting for Adobe DC View SDK to be ready..."]]).stages =
      s.stages ++ [.validated, .gateWait] := by
  rw [stages_emit]
  simp [List.filterMap_cons, Event.stage?, Event.isFetch, Event.isValidated,
    Event.isGateWait, Event.isViewerConstruction, Event.isLoad, Event.isSidebar]

theorem stages_jsonSettled (W : World) (s : State) (file : String) (data first : JsVal)
    (more : List JsVal) (hview : W.viewError = none) (hpc : s.pc = .awaitJson file)
    (hsecs : data.getOpt "extracted_sections" = .arr (first :: more))
    (hdoc : (first.getOpt "document").truthy = true) :
    (step W s (.jsonSettled (.fulfilled data))).stages =
      if s.gateResolved then s.stages ++ [.validated, .gateWait, .viewer, .load]
      else s.stages ++ [.validated, .gateWait] := by
  have hstep : step W s (.jsonSettled (.fulfilled data)) = mainAfterData W s data := by
    simp only [step, hpc, fetchAnalysisDataAfterJson, mainAfterFetchData]
  rw [hstep, mainAfterData_valid W s data first more hsecs hdoc]
  by_cases hg : s.gateResolved = true
  · rw [if_pos hg, if_pos hg, stages_mainAfterGate W _ _ _ hview, stages_validated]
    simp [List.append_assoc]
  · rw [if_neg hg, if_neg hg]
    exact stages_validated s _

theorem stages_waiting_sdkReady (W : World) (s : State) (data pdf : JsVal)
    (hview : W.viewError = none) (hl : s.listening = true) (hpc : s.pc = .awaitGate data pdf) :
    (step W s .sdkReady).stages = s.stages ++ [.viewer, .load] := by
  have hstep : step W s .sdkReady = mainAfterGate W
      { s.emit [.consoleLog ["Adobe SDK ready event fired."], .resolveGate] with
        gateResolved := true } data pdf := by
    simp only [step, onSdkReady, hl, Bool.not_true, Bool.false_eq_true, if_false, State.emit, hpc]
  rw [hstep, stages_mainAfterGate W _ _ _ hview]
  congr 1
  show (s.emit _).stages = s.stages
  rw [stages_emit]
  simp [List.filterMap_cons, Event.stage?, Event.isFetch, Event.isValidated,
    Event.isGateWait, Event.isViewerConstruction, Event.isLoad, Event.isSidebar]

theorem stages_of_gate (W : World) (s : State) (file : String) (data first : JsVal)
    (more : List JsVal) (n : Nat) (hview : W.viewError = none) (h : Fetching s)
    (hpc : s.pc = .awaitJson file)
    (hsecs : data.getOpt "extracted_sections" = .arr (first :: more))
    (hdoc : (first.getOpt "document").truthy = true)
    (hgate : s.gateResolved = true ∨ 0 < n) :
    (run W (step W s (.jsonSettled (.fulfilled data))) (List.replicate n .sdkReady)).stages =
      s.stages ++ [.validated, .gateWait, .viewer, .load] := by
  obtain ⟨ha, hb⟩ := after_json W s file data first more hview h hpc hsecs hdoc
  have hst := stages_jsonSettled W s file data first more hview hpc hsecs hdoc
  by_cases hg : s.gateResolved = true
  · rw [if_pos hg] at hst
    rw [stages_replicate_idle W n _ (by rw [(ha hg).1]; intro d i hx; cases hx), hst]
  · rw [if_neg hg] at hst
    simp only [Bool.not_eq_true] at hg
    obtain ⟨hb1, hb2, hb3⟩ := hb hg
    cases n with
    | zero =>
      rcases hgate with hgate | hgate
      · rw [hg] at hgate; cases hgate
      · cases hgate
    | succ m =>
      have hload := waiting_sdkReady W _ data _ hview hb3 hb1 hb2
      rw [List.replicate_succ, run_cons,
        stages_replicate_idle W m _ (by rw [hload.1]; intro d i hx; cases hx),
        stages_waiting_sdkReady W _ data _ hview (hb3.2.2.2.2.2.2 hb2) hb1, hst]
      simp [List.append_assoc]

theorem stages_rows (rows : List Row) :
    (rows.map (fun r => Event.appendRow r.html)).filterMap Event.stage? =
      List.replicate rows.length Stage.sidebar := by
  induction rows with
  | nil => rfl
  | cons r rest ih =>
    simp only [List.map_cons, List.length_cons, List.replicate_succ]
    rw [← ih]
    rfl

theorem stages_promiseSettled (W : World) (s : State) (data : JsVal) (url : String)
    (items : List JsVal) (hs : Sound s) (h : Loading data url s)
    (hmeta : (data.getOpt "metadata").truthy = true)
    (hsecs : data.getOpt "extracted_sections" = .arr items) :
    (step W s (.promiseSettled 0 (.fulfilled ()))).stages =
      s.stages ++ List.replicate (3 + (builtRows W.engine items).1.length) Stage.sidebar := by
  obtain ⟨h0, h1, h2, h3, h4, h5, h6, h7⟩ := h
  have hcond : (0 < s.nextPromise && (s.settlement 0).isNone) = true := by
    simp [h2, State.settlement, h6]
  have hpop := populateSidebar_eq W.engine
    (({ s with settled := (0, Settled.fulfilled ()) :: s.settled } :
      State).emit [.consoleLog ["Initial PDF loaded."]]) data
  simp only [hmeta, hsecs, isArray, Bool.not_true, Bool.or_self, Bool.false_eq_true, if_false,
    JsVal.elements] at hpop
  have hstep : step W s (.promiseSettled 0 (.fulfilled ())) =
      onPromiseSettled W s 0 (.fulfilled ()) := rfl
  rw [hstep, onPromiseSettled_eq W s 0 _ hs hcond,
    resumeMain_load W ({ s with settled :=
      (0, Settled.fulfilled ()) :: s.settled } : State) data 0 () h0,
    mainAfterLoad_eq, hpop]
  cases hres : (builtRows W.engine items).2 with
  | ok u =>
    simp only [endMain, State.emit, h5, List.filter_nil, List.map_nil, List.append_nil,
      State.stages, List.filterMap_append, stages_rows, List.replicate_add]
    simp [List.filterMap_cons, Event.stage?, Event.isFetch, Event.isValidated,
      Event.isGateWait, Event.isViewerConstruction, Event.isLoad, Event.isSidebar,
      List.replicate_succ]
  | error e =>
    simp only [endMain, State.emit, h5, List.filter_nil, List.map_nil, List.append_nil,
      State.stages, List.filterMap_append, stages_rows, List.replicate_add]
    simp [List.filterMap_cons, Event.stage?, Event.isFetch, Event.isValidated,
      Event.isGateWait, Event.isViewerConstruction, Event.isLoad, Event.isSidebar,
      List.replicate_succ]

theorem stages_sidebarRun (W : World) (toc persona job file : String) (sdkLoaded : Bool)
    (data first : JsVal) (more : List JsVal) (n0 n1 n2 : Nat)
    (hfile : file ≠ "") (hview : W.viewError = none)
    (hmeta : (data.getOpt "metadata").truthy = true)
    (hsecs : data.getOpt "extracted_sections" = .arr (first :: more))
    (hdoc : (first.getOpt "document").truthy = true)
    (hgate : sdkLoaded = true ∨ 0 < n0 + n1 + n2) :
    (run W (init toc persona job) (sidebarRun file sdkLoaded data n0 n1 n2)).stages =
      [.fetch, .validated, .gateWait, .viewer, .load] ++
        List.replicate (3 + (builtRows W.engine (first :: more)).1.length) Stage.sidebar := by
  obtain ⟨a1, a2, a3⟩ := fetching_domContentLoaded W toc persona job file sdkLoaded hfile
  have sa := stages_domContentLoaded W toc persona job file sdkLoaded hfile
  obtain ⟨b1, b2, b3⟩ := fetching_replicate W n0 _ a3 (by rw [a1]; intro d i hx; cases hx)
  have sb := stages_replicate_idle W n0 _
    (show ∀ d i, (step W (init toc persona job) (.domContentLoaded (some file) sdkLoaded)).pc ≠
      .awaitGate d i by rw [a1]; intro d i hx; cases hx)
  rw [a1] at b1
  obtain ⟨c1, c2, c3⟩ := fetching_fetchSettled W _ file b3 b1
  have sc := stages_fetchSettled W _ file b1
  obtain ⟨d1, d2, d3⟩ := fetching_replicate W n1 _ c3 (by rw [c1]; intro d i hx; cases hx)
  have sd := stages_replicate_idle W n1 _
    (show ∀ d i, (step W (run W (step W (init toc persona job)
      (.domContentLoaded (some file) sdkLoaded)) (List.replicate n0 .sdkReady))
      (.fetchSettled (.fulfilled true))).pc ≠ .awaitGate d i by
        rw [c1]; intro d i hx; cases hx)
  rw [c1] at d1
  have hgate2 : (run W (step W (run W (step W (init toc persona job)
      (.domContentLoaded (some file) sdkLoaded)) (List.replicate n0 .sdkReady))
      (.fetchSettled (.fulfilled true))) (List.replicate n1 .sdkReady)).gateResolved = true ∨
      0 < n2 := by
    by_cases hn2 : 0 < n2
    · exact Or.inr hn2
    · left
      by_cases hn1 : 0 < n1
      · exact d2 (Or.inr hn1)
      · apply d2
        left
        rw [c2]
        apply b2
        rcases hgate with hgate | hgate
        · left; rw [a2]; exact hgate
        · right; omega
  have hload := loading_of_gate W _ file data first more n2 hview d3 d1 hsecs hdoc hgate2
  have se := stages_of_gate W _ file data first more n2 hview d3 d1 hsecs hdoc hgate2
  have hrun : run W (init toc persona job) (sidebarRun file sdkLoaded data n0 n1 n2) =
      step W (run W (step W (run W (step W (run W (step W (init toc persona job)
        (.domContentLoaded (some file) sdkLoaded)) (List.replicate n0 .sdkReady))
        (.fetchSettled (.fulfilled true))) (List.replicate n1 .sdkReady))
        (.jsonSettled (.fulfilled data))) (List.replicate n2 .sdkReady))
        (.promiseSettled 0 (.fulfilled ())) := by
    simp only [sidebarRun, run_cons, run_append]
    rfl
  have hsound : Sound (run W (step W (run W (step W (run W (step W (init toc persona job)
        (.domContentLoaded (some file) sdkLoaded)) (List.replicate n0 .sdkReady))
        (.fetchSettled (.fulfilled true))) (List.replicate n1 .sdkReady))
        (.jsonSettled (.fulfilled data))) (List.replicate n2 .sdkReady)) := by
    apply sound_run; apply sound_step; apply sound_run; apply sound_step; apply sound_run
    apply sound_step; exact sound_init toc persona job
  rw [hrun, stages_promiseSettled W _ data _ (first :: more) hsound hload hmeta hsecs, se, sd, sc,
    sb, sa]
  rfl

/-! ### The order of the steps, stated -/

set_option maxRecDepth 100000 in
/-- C8, as stated, fails: with the SDK not loaded yet when the page starts, the
request for `/output/analysis.json` is issued while the readiness promise is
unresolved; and in a complete run that ends with both rows in the sidebar, the
request comes before the resolution of the readiness promise. -/
theorem fetch_issued_before_gate_resolves :
    ((run sampleWorld (init "" "" "")
      [.domContentLoaded (some "analysis.json") false]).trace.any Event.isFetch = true) ∧
    ((run sampleWorld (init "" "" "")
      [.domContentLoaded (some "analysis.json") false]).gateResolved = false) ∧
    ((run sampleWorld (init "" "" "")
      [.domContentLoaded (some "analysis.json") false]).trace.any Event.isGateResolution =
        false) ∧
    ((run sampleWorld (init "" "" "") lateSdkRun).rows.length = 2) ∧
    ¬ Precedes Event.isGateResolution Event.isFetch
      (run sampleWorld (init "" "" "") lateSdkRun).trace := by
  refine ⟨by decide, by decide, by decide, by decide, ?_⟩
  unfold Precedes
  decide

/-- C8, amended: the steps of `main` come in the order fetch, validate, wait for
the gate, construct the viewer, load the first document, build the sidebar.
In the trace of every run, the line that marks the validation of the first
section comes after the request for the analysis data, the line with which
`main` starts to wait for the readiness promise comes after the validation, a
construction of the viewer comes after the validation, after that line and
after a resolution of the readiness promise, a document load comes after a
construction of the viewer, and a write of `populateSidebar` comes after a
document load.  In every run that starts a script with an analysis file, the
request is in the trace, issued in that first turn, with no step of `main`
before it and, when the SDK was not loaded then, no resolution of the readiness
promise before it.  In the runs in which the data is valid, the SDK is or
becomes ready, the viewer is constructed and the first load fulfils, the steps
of the trace are exactly: the request, the validation, the wait, the
construction, one load, and the writes of `populateSidebar`. -/
theorem main_steps_in_order (W : World) (toc persona job : String) :
    (∀ inputs pre e post, (run W (init toc persona job) inputs).trace = pre ++ e :: post →
      (e.isValidated = true → ∃ x ∈ pre, x.isFetch = true) ∧
      (e.isGateWait = true → ∃ x ∈ pre, x.isValidated = true) ∧
      (e.isViewerConstruction = true →
        (∃ x ∈ pre, x.isValidated = true) ∧ (∃ x ∈ pre, x.isGateWait = true) ∧
        (∃ x ∈ pre, x.isGateResolution = true)) ∧
      (e.isLoad = true → ∃ x ∈ pre, x.isViewerConstruction = true) ∧
      (e.isSidebar = true → ∃ x ∈ pre, x.isLoad = true)) ∧
    (∀ file sdkLoaded rest, file ≠ "" →
      ∃ pre post, (run W (init toc persona job)
          (.domContentLoaded (some file) sdkLoaded :: rest)).trace =
            pre ++ Event.fetchGet ("/output/" ++ file) :: post ∧
        ∀ x ∈ pre, x.stage? = none ∧ (sdkLoaded = false → x.isGateResolution = false)) ∧
    (∀ file sdkLoaded data first more n0 n1 n2, file ≠ "" → W.viewError = none →
      (data.getOpt "metadata").truthy = true →
      data.getOpt "extracted_sections" = .arr (first :: more) →
      (first.getOpt "document").truthy = true →
      (sdkLoaded = true ∨ 0 < n0 + n1 + n2) →
      (run W (init toc persona job) (sidebarRun file sdkLoaded data n0 n1 n2)).stages =
        [.fetch, .validated, .gateWait, .viewer, .load] ++
          List.replicate (3 + (builtRows W.engine (first :: more)).1.length) Stage.sidebar) := by
  refine ⟨?_, ?_, ?_⟩
  · intro inputs pre e post ht
    have h := inOrder_run W inputs _ (sound_init toc persona job) (inOrder_init toc persona job)
    exact ⟨precedes_spec _ _ _ h.fetch_validated pre e post ht,
      precedes_spec _ _ _ h.validated_wait pre e post ht,
      fun he => ⟨precedes_spec _ _ _ h.validated_view pre e post ht he,
        precedes_spec _ _ _ h.wait_view pre e post ht he,
        precedes_spec _ _ _ h.gate_view pre e post ht he⟩,
      precedes_spec _ _ _ h.view_load pre e post ht,
      precedes_spec _ _ _ h.load_sidebar pre e post ht⟩
  · intro file sdk rest hfile
    obtain ⟨post, hpost⟩ := prefix_run W rest
      (step W (init toc persona job) (.domContentLoaded (some file) sdk))
    cases sdk with
    | false =>
      have h1 : (step W (init toc persona job) (.domContentLoaded (some file) false)).trace =
          [Event.consoleLog ["Viewer script started. Waiting for Adobe SDK..."],
            Event.listenSdkReady, Event.consoleLog ["Main function started."],
            Event.consoleLog ["Fetching analysis data for:", file]] ++
          [Event.fetchGet ("/output/" ++ file)] := by
        simp [step, init, onDomContentLoaded, hfile, State.emit, fetchAnalysisDataCall]
      refine ⟨[Event.consoleLog ["Viewer script started. Waiting for Adobe SDK..."],
            Event.listenSdkReady, Event.consoleLog ["Main function started."],
            Event.consoleLog ["Fetching analysis data for:", file]], post, ?_, ?_⟩
      · rw [run_cons, ← hpost, h1, List.append_assoc, List.singleton_append]
      · intro x hx
        simp only [List.mem_cons, List.mem_singleton, List.not_mem_nil, or_false] at hx
        rcases hx with rfl | rfl | rfl | rfl <;> exact ⟨rfl, fun _ => rfl⟩
    | true =>
      have h1 : (step W (init toc persona job) (.domContentLoaded (some file) true)).trace =
          [Event.consoleLog ["Viewer script started. Waiting for Adobe SDK..."],
            Event.consoleLog ["Adobe SDK already loaded."], Event.resolveGate,
            Event.consoleLog ["Main function started."],
            Event.consoleLog ["Fetching analysis data for:", file]] ++
          [Event.fetchGet ("/output/" ++ file)] := by
        simp [step, init, onDomContentLoaded, hfile, State.emit, fetchAnalysisDataCall]
      refine ⟨[Event.consoleLog ["Viewer script started. Waiting for Adobe SDK..."],
            Event.consoleLog ["Adobe SDK already loaded."], Event.resolveGate,
            Event.consoleLog ["Main function started."],
            Event.consoleLog ["Fetching analysis data for:", file]], post, ?_, ?_⟩
      · rw [run_cons, ← hpost, h1, List.append_assoc, List.singleton_append]
      · intro x hx
        simp only [List.mem_cons, List.mem_singleton, List.not_mem_nil, or_false] at hx
        rcases hx with rfl | rfl | rfl | rfl | rfl <;> exact ⟨rfl, fun h => by cases h⟩
  · intro file sdk data first more n0 n1 n2 hfile hview hmeta hsecs hdoc hgate
    exact stages_sidebarRun W toc persona job file sdk data first more n0 n1 n2 hfile hview hmeta
      hsecs hdoc hgate

set_option maxRecDepth 100000 in
/-- Witness of C8 (amended): the complete run of the walk-through in which the
SDK becomes ready only after the data has been fetched and validated; its
steps are the request, the validation, the wait, the construction, the load
and five writes of `populateSidebar` (persona, job, the cleared list, two
rows). -/
theorem main_steps_in_order_witness :
    ("analysis.json" ≠ "") ∧ sampleWorld.viewError = none ∧
    lateSdkRun = sidebarRun "analysis.json" false sampleData 0 0 1 ∧
    (run sampleWorld (init "" "" "") lateSdkRun).stages =
      [.fetch, .validated, .gateWait, .viewer, .load, .sidebar, .sidebar, .sidebar, .sidebar,
        .sidebar] :=
  ⟨by decide, rfl, rfl,
    (main_steps_in_order sampleWorld "" "" "").2.2 "analysis.json" false sampleData
      (.obj [("document", .str "A.pdf"), ("section_title", .str "Intro"),
        ("page_number", .num 3)])
      [.obj [("document", .str "B.pdf"), ("section_title", .str "Summary"),
        ("page_number", .num 1)]] 0 0 1 (by decide) rfl rfl rfl rfl (Or.inr (by decide))⟩

end FlowA

/-! ## Reading the rendered markup back -/

namespace Html

theorem textFrom_append (a b : List Char) :
    ∀ inTag, textFrom inTag (a ++ b) = textFrom inTag a ++ textFrom (endsInTag inTag a) b := by
  induction a with
  | nil => intro inTag; cases inTag <;> simp [textFrom, endsInTag]
  | cons c rest ih =>
    intro inTag
    cases inTag
    · by_cases hc : c = '<'
      · simp [textFrom, endsInTag, hc, ih]
      · simp [textFrom, endsInTag, hc, ih]
    · by_cases hc : c = '>'
      · simp [textFrom, endsInTag, hc, ih]
      · simp [textFrom, endsInTag, hc, ih]

theorem endsInTag_append (a b : List Char) :
    ∀ inTag, endsInTag inTag (a ++ b) = endsInTag (endsInTag inTag a) b := by
  induction a with
  | nil => intro inTag; cases inTag <;> simp [endsInTag]
  | cons c rest ih =>
    intro inTag
    cases inTag
    · by_cases hc : c = '<'
      · simp [endsInTag, hc, ih]
      · simp [endsInTag, hc, ih]
    · by_cases hc : c = '>'
      · simp [endsInTag, hc, ih]
      · simp [endsInTag, hc, ih]

theorem textFrom_plain (l : List Char) (h : ∀ c ∈ l, c ≠ '<') :
    textFrom false l = l ∧ endsInTag false l = false := by
  induction l with
  | nil => exact ⟨rfl, rfl⟩
  | cons c rest ih =>
    have hc : c ≠ '<' := h c (List.mem_cons_self _ _)
    obtain ⟨a, b⟩ := ih (fun x hx => h x (List.mem_cons_of_mem _ hx))
    simp [textFrom, endsInTag, hc, a, b]

theorem balanced_append (a b : String) (ha : Balanced a) (hb : Balanced b) :
    Balanced (a ++ b) := by
  unfold Balanced at *
  rw [String.data_append, endsInTag_append, ha, hb]

theorem balanced_plain (v : String) (h : Plain v) : Balanced v :=
  (textFrom_plain v.data (fun c hc => (h c hc).1)).2

theorem shows_of_split (html pre v post : String) (hsplit : html = pre ++ (v ++ post))
    (hpre : Balanced pre) (hv : Plain v) : Shows (visibleText html) v := by
  unfold Shows visibleText
  unfold Balanced at hpre
  obtain ⟨h1, h2⟩ := textFrom_plain v.data (fun c hc => (hv c hc).1)
  rw [hsplit, String.data_append, String.data_append, textFrom_append, hpre, textFrom_append,
    h1, h2]
  exact ⟨textFrom false pre.data, textFrom false post.data, by simp [List.append_assoc]⟩

theorem not_mem_textFrom (l : List Char) : ∀ inTag, '<' ∉ textFrom inTag l := by
  induction l with
  | nil => intro inTag; cases inTag <;> simp [textFrom]
  | cons c rest ih =>
    intro inTag
    cases inTag
    · by_cases hc : c = '<'
      · simp [textFrom, hc, ih]
      · simp only [textFrom, hc, if_false, List.mem_cons, not_or]
        exact ⟨fun h => hc h.symm, ih false⟩
    · by_cases hc : c = '>'
      · simp [textFrom, hc, ih]
      · simp [textFrom, hc, ih]

theorem not_shows_markup (html v : String) (hv : '<' ∈ v.data) :
    ¬ Shows (visibleText html) v := by
  intro h
  have : '<' ∈ (visibleText html).data := h.subset hv
  exact not_mem_textFrom html.data false this

end Html

namespace FlowB
open JsVal Html

theorem pieces_of_objects (E : Engine) :
    ∀ (xs : List JsVal) (pieces : List String),
      List.Forall₂ (fun y p => sectionItemHtml E y = .ok p) xs pieces →
      (∀ x ∈ xs, ∃ fields, x = .obj fields) → pieces = xs.map sectionPiece
  | _, _, .nil, _ => rfl
  | _, _, .cons (a := y) (b := p) hp hrest, h => by
    obtain ⟨fields, rfl⟩ := h y (List.mem_cons_self _ _)
    have h1 : sectionItemHtml E (.obj fields) = .ok (sectionPiece (.obj fields)) :=
      sectionItemHtml_obj E fields
    rw [h1] at hp
    injection hp with hp
    rw [List.map_cons, ← hp,
      pieces_of_objects E _ _ hrest (fun z hz => h z (List.mem_cons_of_mem _ hz))]

theorem concatAll_append (l m : List String) :
    concatAll (l ++ m) = concatAll l ++ concatAll m := by
  induction l with
  | nil => simp [concatAll]
  | cons p rest ih => simp [concatAll, ih, String.append_assoc]

theorem balanced_concatAll (l : List String) (h : ∀ p ∈ l, Balanced p) :
    Balanced (concatAll l) := by
  induction l with
  | nil => rfl
  | cons p rest ih =>
    exact balanced_append _ _ (h p (List.mem_cons_self _ _))
      (ih (fun q hq => h q (List.mem_cons_of_mem _ hq)))

theorem balanced_sectionPiece (x : JsVal)
    (h : Plain (x.getOpt "importance_rank").toStr ∧ Plain (x.getOpt "section_title").toStr ∧
      Plain (x.getOpt "document").toStr ∧ Plain (x.getOpt "page_number").toStr) :
    Balanced (sectionPiece x) := by
  obtain ⟨h1, h2, h3, h4⟩ := h
  unfold sectionPiece
  repeat' apply balanced_append
  all_goals first
    | exact balanced_plain _ h1
    | exact balanced_plain _ h2
    | exact balanced_plain _ h3
    | exact balanced_plain _ h4
    | rfl

theorem displayResults_eq (E : Engine) (fields mfields : List (String × JsVal))
    (docs : List JsVal) (x : JsVal) (xs : List JsVal)
    (hmeta : lookup "metadata" fields = .obj mfields)
    (hdocs : lookup "input_documents" mfields = .arr docs)
    (hsec : lookup "extracted_section" fields = .arr (x :: xs))
    (hobj : ∀ y ∈ x :: xs, ∃ f, y = .obj f)
    (hsub : SectionList (lookup "sub-section_analysis" fields)) :
    ∃ subs : String, displayResults E (.obj fields) = .ok
      ("<h2>Analysis Results</h2>" ++
        ("<div class=\"result-section\"><h3>Metadata</h3>" ++
          ("<p><strong>Persona:</strong> " ++ (lookup "persona" mfields).toStr ++ "</p>") ++
          ("<p><strong>Job-to-be-Done:</strong> " ++
            (lookup "job_to_be_done" mfields).toStr ++ "</p>") ++
          ("<p><strong>Documents:</strong> " ++ joinWith ", " docs ++ "</p></div>")) ++
        ("<div class=\"result-section\"><h3>Extracted Sections (Top 5)</h3>" ++
          ("<ul>" ++ concatAll ((x :: xs).map sectionPiece) ++ "</ul>") ++ "</div>") ++
        ("<div class=\"result-section\"><h3>Sub-section Analysis (Refined Text)</h3>" ++
          subs ++ "</div>")) := by
  have hsl : SectionList (lookup "extracted_section" fields) := Or.inr (Or.inr ⟨_, hsec, hobj⟩)
  obtain ⟨secs, hsecs, -, hs2⟩ := sectionsBlock_spec E fields
    ("<h2>Analysis Results</h2>" ++ ("<div class=\"result-section\"><h3>Metadata</h3>" ++
        ("<p><strong>Persona:</strong> " ++ (lookup "persona" mfields).toStr ++ "</p>") ++
        ("<p><strong>Job-to-be-Done:</strong> " ++ (lookup "job_to_be_done" mfields).toStr ++
          "</p>") ++
        ("<p><strong>Documents:</strong> " ++ joinWith ", " docs ++ "</p></div>"))) hsl
  obtain ⟨subs, hsubs, -, -⟩ := subSectionsBlock_spec E fields
    ("<h2>Analysis Results</h2>" ++ ("<div class=\"result-section\"><h3>Metadata</h3>" ++
        ("<p><strong>Persona:</strong> " ++ (lookup "persona" mfields).toStr ++ "</p>") ++
        ("<p><strong>Job-to-be-Done:</strong> " ++ (lookup "job_to_be_done" mfields).toStr ++
          "</p>") ++
        ("<p><strong>Documents:</strong> " ++ joinWith ", " docs ++ "</p></div>")) ++
      ("<div class=\"result-section\"><h3>Extracted Sections (Top 5)</h3>" ++ secs ++
        "</div>")) hsub
  obtain ⟨pieces, hp, hsecs2⟩ := hs2 x xs hsec
  have hpieces := pieces_of_objects E _ _ hp hobj
  refine ⟨subs, ?_⟩
  have hm := metadataBlock_spec E fields mfields docs "<h2>Analysis Results</h2>" hmeta hdocs
  rw [← hpieces, ← hsecs2]
  simp only [displayResults, truthy, JsVal.get, hmeta, bind, Except.bind, pure, Except.pure,
    Bool.not_true, Bool.false_eq_true, if_false, hm, hsecs, hsubs]

/-- C7, amended: for a result whose `metadata` is an object with an array
`input_documents`, whose `extracted_section` is an array of objects and whose
`sub-section_analysis` is absent, null or an array of objects, and for every
section of the list: when the values interpolated up to and including that
section (the metadata values and the four fields of the sections up to it and
of the section itself) hold none of the characters `<`, `&`, carriage return
and NUL, whatever the sections after it hold, the markup `displayResults`
produces shows, read back, the title, the document and the page number of that
section, unchanged; and so does the markup of a sidebar row whose three fields
hold none of these characters. -/
theorem plain_values_survive_render (E : Engine) (fields mfields : List (String × JsVal))
    (docs before after : List JsVal) (x : JsVal)
    (hmeta : lookup "metadata" fields = .obj mfields)
    (hdocs : lookup "input_documents" mfields = .arr docs)
    (hsec : lookup "extracted_section" fields = .arr (before ++ x :: after))
    (hobj : ∀ y ∈ before ++ x :: after, ∃ f, y = .obj f)
    (hsub : SectionList (lookup "sub-section_analysis" fields))
    (hpm : Plain (lookup "persona" mfields).toStr ∧ Plain (lookup "job_to_be_done" mfields).toStr ∧
      Plain (joinWith ", " docs))
    (hps : ∀ y ∈ before ++ [x], Plain (y.getOpt "importance_rank").toStr ∧
      Plain (y.getOpt "section_title").toStr ∧ Plain (y.getOpt "document").toStr ∧
      Plain (y.getOpt "page_number").toStr) :
    (∃ html, displayResults E (.obj fields) = .ok html ∧
      Shows (visibleText html) (x.getOpt "section_title").toStr ∧
      Shows (visibleText html) (x.getOpt "document").toStr ∧
      Shows (visibleText html) (x.getOpt "page_number").toStr) ∧
    (∀ item : List (String × JsVal),
      Plain (lookup "section_title" item).toStr → Plain (lookup "document" item).toStr →
      Plain (lookup "page_number" item).toStr →
      ∃ html, FlowA.tocItemHtml E (.obj item) = .ok html ∧
        Shows (visibleText html) (lookup "section_title" item).toStr ∧
        Shows (visibleText html) (lookup "document" item).toStr ∧
        Shows (visibleText html) (lookup "page_number" item).toStr) := by
  constructor
  · obtain ⟨y, ys, hys⟩ : ∃ y ys, before ++ x :: after = y :: ys := by
      cases before with
      | nil => exact ⟨x, after, rfl⟩
      | cons b bs => exact ⟨b, bs ++ x :: after, rfl⟩
    obtain ⟨subs, hhtml⟩ := displayResults_eq E fields mfields docs y ys hmeta hdocs
      (by rw [hsec, hys]) (by rw [← hys]; exact hobj) hsub
    rw [← hys] at hhtml
    refine ⟨_, hhtml, ?_⟩
    obtain ⟨p1, p2, p3⟩ := hpm
    obtain ⟨q1, q2, q3, q4⟩ := hps x (List.mem_append_right _ (List.mem_singleton.2 rfl))
    have hbal1 : Balanced (concatAll (before.map sectionPiece)) := by
      apply balanced_concatAll
      intro p hp
      obtain ⟨z, hz, rfl⟩ := List.mem_map.1 hp
      exact balanced_sectionPiece z (hps z (List.mem_append_left _ hz))
    rw [List.map_append, List.map_cons, concatAll_append]
    simp only [concatAll, sectionPiece]
    refine ⟨?_, ?_, ?_⟩
    · refine shows_of_split _
        ("<h2>Analysis Results</h2>" ++
          ("<div class=\"result-section\"><h3>Metadata</h3>" ++
            ("<p><strong>Persona:</strong> " ++ (lookup "persona" mfields).toStr ++ "</p>") ++
            ("<p><strong>Job-to-be-Done:</strong> " ++
              (lookup "job_to_be_done" mfields).toStr ++ "</p>") ++
            ("<p><strong>Documents:</strong> " ++ joinWith ", " docs ++ "</p></div>")) ++
          "<div class=\"result-section\"><h3>Extracted Sections (Top 5)</h3>" ++ "<ul>" ++
          concatAll (before.map sectionPiece) ++ "<li><strong>Rank " ++
          (x.getOpt "importance_rank").toStr ++ ":</strong> ") _
        (" <em>(from " ++ (x.getOpt "document").toStr ++
          ", Page " ++ (x.getOpt "page_number").toStr ++ ")</em></li>" ++
          concatAll (after.map sectionPiece) ++ "</ul>" ++ "</div>" ++
          ("<div class=\"result-section\"><h3>Sub-section Analysis (Refined Text)</h3>" ++
            subs ++ "</div>")) ?_ ?_ q2
      · simp only [String.append_assoc, sectionPiece]
      · repeat' apply balanced_append
        all_goals first
          | exact balanced_plain _ p1
          | exact balanced_plain _ p2
          | exact balanced_plain _ p3
          | exact balanced_plain _ q1
          | exact hbal1
          | rfl
    · refine shows_of_split _
        ("<h2>Analysis Results</h2>" ++
          ("<div class=\"result-section\"><h3>Metadata</h3>" ++
            ("<p><strong>Persona:</strong> " ++ (lookup "persona" mfields).toStr ++ "</p>") ++
            ("<p><strong>Job-to-be-Done:</strong> " ++
              (lookup "job_to_be_done" mfields).toStr ++ "</p>") ++
            ("<p><strong>Documents:</strong> " ++ joinWith ", " docs ++ "</p></div>")) ++
          "<div class=\"result-section\"><h3>Extracted Sections (Top 5)</h3>" ++ "<ul>" ++
          concatAll (before.map sectionPiece) ++ "<li><strong>Rank " ++
          (x.getOpt "importance_rank").toStr ++ ":</strong> " ++
          (x.getOpt "section_title").toStr ++ " <em>(from ") _
        (", Page " ++ (x.getOpt "page_number").toStr ++ ")</em></li>" ++
          concatAll (after.map sectionPiece) ++ "</ul>" ++ "</div>" ++
          ("<div class=\"result-section\"><h3>Sub-section Analysis (Refined Text)</h3>" ++
            subs ++ "</div>")) ?_ ?_ q3
      · simp only [String.append_assoc, sectionPiece]
      · repeat' apply balanced_append
        all_goals first
          | exact balanced_plain _ p1
          | exact balanced_plain _ p2
          | exact balanced_plain _ p3
          | exact balanced_plain _ q1
          | exact balanced_plain _ q2
          | exact balanced_plain _ q3
          | exact hbal1
          | rfl
    · refine shows_of_split _
        ("<h2>Analysis Results</h2>" ++
          ("<div class=\"result-section\"><h3>Metadata</h3>" ++
            ("<p><strong>Persona:</strong> " ++ (lookup "persona" mfields).toStr ++ "</p>") ++
            ("<p><strong>Job-to-be-Done:</strong> " ++
              (lookup "job_to_be_done" mfields).toStr ++ "</p>") ++
            ("<p><strong>Documents:</strong> " ++ joinWith ", " docs ++ "</p></div>")) ++
          "<div class=\"result-section\"><h3>Extracted Sections (Top 5)</h3>" ++ "<ul>" ++
          concatAll (before.map sectionPiece) ++ "<li><strong>Rank " ++
          (x.getOpt "importance_rank").toStr ++ ":</strong> " ++
          (x.getOpt "section_title").toStr ++ " <em>(from " ++
          (x.getOpt "document").toStr ++ ", Page ") _
        (")</em></li>" ++
          concatAll (after.map sectionPiece) ++ "</ul>" ++ "</div>" ++
          ("<div class=\"result-section\"><h3>Sub-section Analysis (Refined Text)</h3>" ++
            subs ++ "</div>")) ?_ ?_ q4
      · simp only [String.append_assoc, sectionPiece]
      · repeat' apply balanced_append
        all_goals first
          | exact balanced_plain _ p1
          | exact balanced_plain _ p2
          | exact balanced_plain _ p3
          | exact balanced_plain _ q1
          | exact balanced_plain _ q2
          | exact balanced_plain _ q3
          | exact hbal1
          | rfl
  · intro item h1 h2 h3
    refine ⟨_, rfl, ?_, ?_, ?_⟩
    · refine shows_of_split _ "\n                <div class=\"toc-item-title\">" _
        ("</div>\n                <div class=\"toc-item-meta\">Source: " ++
          (lookup "document" item).toStr ++ " (Page " ++
          (lookup "page_number" item).toStr ++ ")</div>\n            ") ?_ rfl h1
      simp only [String.append_assoc]
    · refine shows_of_split _ ("\n                <div class=\"toc-item-title\">" ++
        (lookup "section_title" item).toStr ++
        "</div>\n                <div class=\"toc-item-meta\">Source: ") _
        (" (Page " ++ (lookup "page_number" item).toStr ++ ")</div>\n            ") ?_ ?_ h2
      · simp only [String.append_assoc]
      · repeat' apply balanced_append
        all_goals first
          | exact balanced_plain _ h1
          | rfl
    · refine shows_of_split _ ("\n                <div class=\"toc-item-title\">" ++
        (lookup "section_title" item).toStr ++
        "</div>\n                <div class=\"toc-item-meta\">Source: " ++
        (lookup "document" item).toStr ++ " (Page ") _ ")</div>\n            " ?_ ?_ h3
      · simp only [String.append_assoc]
      · repeat' apply balanced_append
        all_goals first
          | exact balanced_plain _ h1
          | exact balanced_plain _ h2
          | rfl

set_option maxRecDepth 100000 in
/-- C7, as stated, fails: a section title with markup in it, `<b>Intro</b>`, is
not in the text that the markup of `displayResults` shows, nor in the text that
the markup of a sidebar row shows. -/
theorem markup_title_is_not_shown :
    (∃ html, displayResults sampleEngine markupData = .ok html ∧
      ¬ Shows (visibleText html) "<b>Intro</b>") ∧
    (∃ html, FlowA.tocItemHtml sampleEngine (.obj [("document", .str "A.pdf"),
        ("section_title", .str "<b>Intro</b>"), ("page_number", .num 3)]) = .ok html ∧
      ¬ Shows (visibleText html) "<b>Intro</b>") :=
  ⟨⟨_, rfl, not_shows_markup _ _ (by decide)⟩, ⟨_, rfl, not_shows_markup _ _ (by decide)⟩⟩

set_option maxRecDepth 100000 in
/-- Witness of C7 (amended): a result with two sections, `Intro` of `A.pdf`,
page 3, and after it a section whose title has markup in it. -/
theorem plain_values_survive_render_witness :
    Plain "Intro" ∧ ¬ Plain "<b>Later</b>" ∧
    ∃ html, displayResults sampleEngine (.obj plainThenMarkupFields) = .ok html ∧
      Shows (visibleText html) "Intro" ∧ Shows (visibleText html) "A.pdf" ∧
      Shows (visibleText html) "3" := by
  have hplain : ∀ v : String, v = "Intro" ∨ v = "A.pdf" ∨ v = "3" ∨ v = "1" ∨ v = "Traveller" ∨
      v = "Plan a trip" → Plain v := by
    intro v hv
    rcases hv with rfl | rfl | rfl | rfl | rfl | rfl <;> (unfold Plain; decide)
  refine ⟨hplain _ (Or.inl rfl), by unfold Plain; decide, ?_⟩
  have h := (plain_values_survive_render sampleEngine plainThenMarkupFields
    [("persona", .str "Traveller"), ("job_to_be_done", .str "Plan a trip"),
      ("input_documents", .arr [.str "A.pdf"])]
    [.str "A.pdf"] []
    [.obj [("document", .str "B.pdf"), ("section_title", .str "<b>Later</b>"),
        ("page_number", .num 7), ("importance_rank", .num 2)]]
    (.obj [("document", .str "A.pdf"), ("section_title", .str "Intro"),
        ("page_number", .num 3), ("importance_rank", .num 1)])
    rfl rfl rfl
    (by
      intro y hy
      simp only [List.nil_append, List.mem_cons, List.mem_singleton, List.not_mem_nil,
        or_false] at hy
      rcases hy with rfl | rfl <;> exact ⟨_, rfl⟩)
    (Or.inl rfl)
    ⟨hplain _ (by simp [lookup, toStr]), hplain _ (by simp [lookup, toStr]),
      hplain _ (by simp [joinWith, elemStr])⟩
    (by
      intro y hy
      simp only [List.nil_append, List.mem_singleton] at hy
      subst hy
      exact ⟨hplain _ (by decide), hplain _ (by decide), hplain _ (by decide),
        hplain _ (by decide)⟩)).1
  exact h

end FlowB

end PdfIntel
